import Mathlib

/-!
# Breakout: the per-frame simulation of `src/game/game.cc`

A shallow embedding of the game loop of `game.cc`: paddle input, collision
resolution, the power-up lifecycle and the loss/reset transition.

Modelling conventions.

* `float` values are exact rationals (`ℚ`); `1.2` is `6/5`, `0.05` is `1/20`,
  `12.5` is `25/2`.  Rounding is not modelled.  Euclidean lengths are
  irrational in general, so the velocity computation of the paddle bounce is
  also written over an arbitrary ordered field (`bounceVelocity`).
* `width_`, `height_` and `level_` are `unsigned int` and are natural numbers
  here; `width_ / 2` is therefore the truncating division of the source.
* The process-wide objects `paddle`, `ball`, `post_processor` and `shake_time`
  are fields of the one state record `Game`, next to the members of the class.
* A range-`for` over a vector that is mutated in place is a recursion over the
  elements that carries the part of the state the body can touch.
* Code that `game.cc` calls but that lives in headers outside the file
  (`Collision::Detect`, `BallObject::Move`, `BallObject::Reset`,
  `GameLevel::Reset`, `rand`, `glm::normalize`, `glm::length`, the size and
  fall velocity given by the `PowerUp` constructor) is collected in `Env` and
  every function of the embedding takes it as a parameter.
* Rendering (`Render`, the particle generator, textures) has no effect on the
  state modelled here and is left out.
-/

namespace Breakout

/-! ## Data model -/

/-- The `glm::vec2` of the source with exact components. -/
structure Vec2 where
  x : ℚ
  y : ℚ
deriving DecidableEq

/-- The `glm::vec3` of the source (used for colours) with exact components. -/
structure Vec3 where
  x : ℚ
  y : ℚ
  z : ℚ
deriving DecidableEq

/-- Componentwise sum, `a + b` on `glm::vec2`. -/
def Vec2.add (a b : Vec2) : Vec2 := ⟨a.x + b.x, a.y + b.y⟩

/-- Scaling by a scalar, `v * k` on `glm::vec2`. -/
def Vec2.scale (k : ℚ) (v : Vec2) : Vec2 := ⟨k * v.x, k * v.y⟩

/-- The members of `GameObject` that `game.cc` reads or writes. -/
structure GameObject where
  position_ : Vec2
  size_ : Vec2
  velocity_ : Vec2
  color_ : Vec3
  is_solid_ : Bool
  destroyed_ : Bool
deriving DecidableEq

/-- The members of `BallObject` that `game.cc` reads or writes. -/
structure BallObject extends GameObject where
  radius_ : ℚ
  stuck_ : Bool
  sticky_ : Bool
  pass_through_ : Bool
deriving DecidableEq

/-- The members of `PowerUp` that `game.cc` reads or writes. -/
structure PowerUp extends GameObject where
  type_ : String
  duration_ : ℚ
  activated_ : Bool
deriving DecidableEq

/-- The three flags of `PostProcessor` that the game toggles. -/
structure PostProcessor where
  shake_ : Bool
  confuse_ : Bool
  chaos_ : Bool
deriving DecidableEq

/-- A level: its bricks in stored order (`GameLevel::bricks_`). -/
structure GameLevel where
  bricks_ : List GameObject
deriving DecidableEq

/-- The states of the game; only `KGameActive` is used by `game.cc`. -/
inductive GameState where
  | KGameActive
  | KGameMenu
  | KGameWin
deriving DecidableEq

/-- The `Direction` enumeration of the collision module. -/
inductive Direction where
  | kUp
  | kRight
  | kDown
  | kLeft
deriving DecidableEq

/-- A rectangle as built by `Rect(position, size)`. -/
structure Rect where
  position : Vec2
  size : Vec2
deriving DecidableEq

/-- A circle as built by `Circle(point, radius)`. -/
structure Circle where
  point : Vec2
  radius : ℚ
deriving DecidableEq

/-- The `CollisionResult` tuple: did-collide, direction, difference vector. -/
structure CollisionResult where
  hit : Bool
  dir : Direction
  difference : Vec2
deriving DecidableEq

/-- The whole mutable state: the members of `Game` and the file-level objects
`paddle`, `ball`, `post_processor`, `shake_time`; `rand_calls` counts the calls
made to `rand()` so far. -/
structure Game where
  state_ : GameState
  width_ : Nat
  height_ : Nat
  levels_ : List GameLevel
  level_ : Nat
  power_ups_ : List PowerUp
  paddle : GameObject
  ball : BallObject
  post_processor : PostProcessor
  shake_time : ℚ
  rand_calls : Nat

/-- What `game.cc` uses from outside the file.  `rand n` is the value returned
by the `n`-th call of `rand()`; `powerUpSize` and `powerUpVelocity` are the size
and fall velocity the `PowerUp` constructor gives to every power-up. -/
structure Env where
  rand : Nat → Nat
  DetectCircleRect : Circle → Rect → CollisionResult
  DetectRectRect : Rect → Rect → Bool
  Move : BallObject → ℚ → Nat → BallObject
  BallReset : BallObject → Vec2 → Vec2 → BallObject
  LevelReset : GameLevel → GameLevel
  normalize : Vec2 → Vec2
  length : Vec2 → ℚ
  powerUpSize : Vec2
  powerUpVelocity : Vec2

/-! ## Constants -/

/-- The paddle size `kPaddleSize(100, 20)`. -/
def kPaddleSize : Vec2 := ⟨100, 20⟩

/-- The paddle speed `kPaddleVelocity(500.0f)`. -/
def kPaddleVelocity : ℚ := 500

/-- The initial ball velocity `kBallVelocity(100.0f, -350.0f)`. -/
def kBallVelocity : Vec2 := ⟨100, -350⟩

/-- The ball radius `kBallRadius = 12.5f`. -/
def kBallRadius : ℚ := 25 / 2

/-- Key code `GLFW_KEY_A`. -/
def GLFW_KEY_A : Nat := 65

/-- Key code `GLFW_KEY_D`. -/
def GLFW_KEY_D : Nat := 68

/-- Key code `GLFW_KEY_SPACE`. -/
def GLFW_KEY_SPACE : Nat := 32

/-- The colour `glm::vec3(1.0f)`. -/
def white : Vec3 := ⟨1, 1, 1⟩

/-! ## Power-up activation -/

/-- The function `ActivatePowerUp(PowerUp&)`: the effect of a pickup on the
ball, the paddle and the post-processor, by the power-up's type string. -/
def ActivatePowerUp (power_up : PowerUp) (g : Game) : Game :=
  if power_up.type_ = "speed" then
    { g with ball := { g.ball with velocity_ := Vec2.scale (6 / 5) g.ball.velocity_ } }
  else if power_up.type_ = "sticky" then
    { g with
      ball := { g.ball with sticky_ := true }
      paddle := { g.paddle with color_ := ⟨1, 1 / 2, 1⟩ } }
  else if power_up.type_ = "pass-through" then
    { g with ball := { g.ball with pass_through_ := true, color_ := ⟨1, 1 / 2, 1 / 2⟩ } }
  else if power_up.type_ = "pad-size-increase" then
    { g with paddle := { g.paddle with size_ := ⟨g.paddle.size_.x + 50, g.paddle.size_.y⟩ } }
  else if power_up.type_ = "confuse" then
    if !g.post_processor.chaos_ then
      { g with post_processor := { g.post_processor with confuse_ := true } }
    else g
  else if power_up.type_ = "chaos" then
    if !g.post_processor.confuse_ then
      { g with post_processor := { g.post_processor with chaos_ := true } }
    else g
  else g

/-! ## Power-up spawning -/

/-- Modelled from the spec: the `PowerUp` constructor (declared in a header that
is not part of the file).  It stores the type, colour, duration and position
it is given; the power-up starts neither destroyed nor activated and falls with
the configured velocity. -/
def PowerUp.new (E : Env) (type : String) (color : Vec3) (duration : ℚ)
    (position : Vec2) : PowerUp :=
  { position_ := position
    size_ := E.powerUpSize
    velocity_ := E.powerUpVelocity
    color_ := color
    is_solid_ := false
    destroyed_ := false
    type_ := type
    duration_ := duration
    activated_ := false }

/-- The function `shouldSpawn(chance)`: one call of `rand()`, true when the
value is a multiple of `chance`. -/
def shouldSpawn (E : Env) (chance : Nat) (g : Game) : Bool × Game :=
  let random := E.rand g.rand_calls % chance
  (random == 0, { g with rand_calls := g.rand_calls + 1 })

/-- One line `if(shouldSpawn(chance)) power_ups_.push_back(PowerUp(...))` of
`SpawnPowerUps`. -/
def spawnRoll (E : Env) (chance : Nat) (type : String) (color : Vec3) (duration : ℚ)
    (block : GameObject) (g : Game) : Game :=
  let r := shouldSpawn E chance g
  if r.1 then
    { r.2 with power_ups_ := r.2.power_ups_ ++ [PowerUp.new E type color duration block.position_] }
  else r.2

/-- The method `Game::SpawnPowerUps(block)`: six rolls in the order of the source. -/
def SpawnPowerUps (E : Env) (block : GameObject) (g : Game) : Game :=
  let g1 := spawnRoll E 75 "speed" ⟨1 / 2, 1 / 2, 1⟩ 0 block g
  let g2 := spawnRoll E 75 "sticky" ⟨1, 1 / 2, 1⟩ 20 block g1
  let g3 := spawnRoll E 75 "pass-through" ⟨1 / 2, 1, 1 / 2⟩ 10 block g2
  let g4 := spawnRoll E 75 "pad-size-increase" ⟨1, 3 / 5, 2 / 5⟩ 0 block g3
  let g5 := spawnRoll E 15 "confuse" ⟨1, 3 / 10, 3 / 10⟩ 15 block g4
  spawnRoll E 15 "chaos" ⟨9 / 10, 1 / 4, 1 / 4⟩ 15 block g5

/-! ## Collisions -/

/-- The velocity reflection and push-out of the brick loop (the body of the
`if(!(ball->pass_through_ && !box.is_solid_))` block). -/
def brickResponse (result : CollisionResult) (ball : BallObject) : BallObject :=
  let dir := result.dir
  let difference := result.difference
  if dir = Direction.kLeft ∨ dir = Direction.kRight then
    let ball1 : BallObject :=
      { ball with velocity_ := ⟨-ball.velocity_.x, ball.velocity_.y⟩ }
    let penetration := ball1.radius_ - |difference.x|
    if dir = Direction.kLeft then
      { ball1 with position_ := ⟨ball1.position_.x + penetration, ball1.position_.y⟩ }
    else
      { ball1 with position_ := ⟨ball1.position_.x - penetration, ball1.position_.y⟩ }
  else
    let ball1 : BallObject :=
      { ball with velocity_ := ⟨ball.velocity_.x, -ball.velocity_.y⟩ }
    let penetration := ball1.radius_ - |difference.y|
    if dir = Direction.kUp then
      { ball1 with position_ := ⟨ball1.position_.x, ball1.position_.y - penetration⟩ }
    else
      { ball1 with position_ := ⟨ball1.position_.x, ball1.position_.y + penetration⟩ }

/-- The body of the brick loop of `DoCollisions` for one brick `box`; the
circle `ball_circle` was built before the loop. -/
def brickStep (E : Env) (ball_circle : Circle) (box : GameObject) (g : Game) :
    GameObject × Game :=
  if !box.destroyed_ then
    let box_rect : Rect := ⟨box.position_, box.size_⟩
    let result := E.DetectCircleRect ball_circle box_rect
    if result.hit then
      let r : GameObject × Game :=
        if !box.is_solid_ then
          let box1 : GameObject := { box with destroyed_ := true }
          (box1, SpawnPowerUps E box1 g)
        else
          (box, { g with
                  shake_time := 1 / 20
                  post_processor := { g.post_processor with shake_ := true } })
      if !(r.2.ball.pass_through_ && !r.1.is_solid_) then
        (r.1, { r.2 with ball := brickResponse result r.2.ball })
      else r
    else (box, g)
  else (box, g)

/-- The brick loop of `DoCollisions`, in the stored order of the bricks. -/
def brickLoop (E : Env) (ball_circle : Circle) : List GameObject → Game → List GameObject × Game
  | [], g => ([], g)
  | box :: rest, g =>
    let r := brickStep E ball_circle box g
    let rs := brickLoop E ball_circle rest r.2
    (r.1 :: rs.1, rs.2)

/-- The body of the power-up loop of `DoCollisions` for one power-up; the
rectangle `paddle_rect` was built before the loop. -/
def pickupStep (E : Env) (paddle_rect : Rect) (power_up : PowerUp) (g : Game) :
    PowerUp × Game :=
  if !power_up.destroyed_ then
    let p1 : PowerUp :=
      if power_up.position_.x ≥ (g.height_ : ℚ) then { power_up with destroyed_ := true }
      else power_up
    let power_up_rect : Rect := ⟨p1.position_, p1.size_⟩
    if E.DetectRectRect paddle_rect power_up_rect then
      ({ p1 with destroyed_ := true, activated_ := true }, ActivatePowerUp p1 g)
    else (p1, g)
  else (power_up, g)

/-- The power-up loop of `DoCollisions`, in the order of the collection. -/
def pickupLoop (E : Env) (paddle_rect : Rect) : List PowerUp → Game → List PowerUp × Game
  | [], g => ([], g)
  | power_up :: rest, g =>
    let r := pickupStep E paddle_rect power_up g
    let rs := pickupLoop E paddle_rect rest r.2
    (r.1 :: rs.1, rs.2)

/-- The brick phase of `DoCollisions`: the loop over `levels_[level_].bricks_`,
written back into the level. -/
def brickPhase (E : Env) (ball_circle : Circle) (g : Game) : Game :=
  match g.levels_[g.level_]? with
  | some lvl =>
    let r := brickLoop E ball_circle lvl.bricks_ g
    { r.2 with levels_ := g.levels_.set g.level_ { lvl with bricks_ := r.1 } }
  | none => g

/-- The power-up phase of `DoCollisions`. -/
def pickupPhase (E : Env) (paddle_rect : Rect) (g : Game) : Game :=
  let r := pickupLoop E paddle_rect g.power_ups_ g
  { r.2 with power_ups_ := r.1 }

/-- The body of the ball-versus-paddle branch of `DoCollisions`. -/
def paddleBounce (E : Env) (g : Game) : Game :=
  let paddle_center := g.paddle.position_.x + g.paddle.size_.x / 2
  let distance := (g.ball.position_.x + g.ball.radius_) - paddle_center
  let percentage := distance / (g.paddle.size_.x / 2)
  let strength : ℚ := 2
  let old_velocity := g.ball.velocity_
  let v1 : Vec2 := ⟨kBallVelocity.x * percentage * strength, 1 - |g.ball.velocity_.y|⟩
  let v2 := Vec2.scale (E.length old_velocity) (E.normalize v1)
  { g with ball := { g.ball with velocity_ := v2, stuck_ := g.ball.sticky_ } }

/-- The ball-versus-paddle phase of `DoCollisions`. -/
def paddlePhase (E : Env) (ball_circle : Circle) (paddle_rect : Rect) (g : Game) : Game :=
  let result := E.DetectCircleRect ball_circle paddle_rect
  if !g.ball.stuck_ && result.hit then paddleBounce E g else g

/-- The method `Game::DoCollisions()`. -/
def DoCollisions (E : Env) (g : Game) : Game :=
  let ball_circle : Circle := ⟨g.ball.position_, g.ball.radius_⟩
  let g1 := brickPhase E ball_circle g
  let paddle_rect : Rect := ⟨g1.paddle.position_, g1.paddle.size_⟩
  let g2 := pickupPhase E paddle_rect g1
  paddlePhase E ball_circle paddle_rect g2

/-! ## Power-up timers -/

/-- The function `isOtherPowerUpActive(power_ups, type)`. -/
def isOtherPowerUpActive : List PowerUp → String → Bool
  | [], _ => false
  | power_up :: rest, type =>
    if power_up.activated_ then
      if power_up.type_ = type then true else isOtherPowerUpActive rest type
    else isOtherPowerUpActive rest type

/-- The body of the loop of `UpdatePowerUps` for the element `power_up`, when
the elements before it in the vector are `done` (already updated this frame)
and those after it are `rest` (not yet updated). -/
def updateOne (dt : ℚ) (done : List PowerUp) (power_up : PowerUp) (rest : List PowerUp)
    (g : Game) : PowerUp × Game :=
  let p1 : PowerUp :=
    { power_up with position_ := Vec2.add power_up.position_ (Vec2.scale dt power_up.velocity_) }
  if p1.activated_ then
    let p2 : PowerUp := { p1 with duration_ := p1.duration_ - dt }
    if p2.duration_ ≤ 0 then
      let p3 : PowerUp := { p2 with activated_ := false }
      let power_ups := done ++ p3 :: rest
      if p3.type_ = "sticky" then
        if !isOtherPowerUpActive power_ups "sticky" then
          (p3, { g with
                 ball := { g.ball with sticky_ := false }
                 paddle := { g.paddle with color_ := white } })
        else (p3, g)
      else if p3.type_ = "pass-through" then
        if !isOtherPowerUpActive power_ups "pass-through" then
          (p3, { g with ball := { g.ball with pass_through_ := false, color_ := white } })
        else (p3, g)
      else if p3.type_ = "confuse" then
        if !isOtherPowerUpActive power_ups "confuse" then
          (p3, { g with post_processor := { g.post_processor with confuse_ := false } })
        else (p3, g)
      else if p3.type_ = "chaos" then
        if !isOtherPowerUpActive power_ups "chaos" then
          (p3, { g with post_processor := { g.post_processor with chaos_ := false } })
        else (p3, g)
      else (p3, g)
    else (p2, g)
  else (p1, g)

/-- The loop of `UpdatePowerUps` over the vector `done ++ todo`, standing at
the first element of `todo`. -/
def updateLoop (dt : ℚ) : List PowerUp → List PowerUp → Game → List PowerUp × Game
  | done, [], g => (done, g)
  | done, power_up :: rest, g =>
    let r := updateOne dt done power_up rest g
    updateLoop dt (done ++ [r.1]) rest r.2

/-- The method `Game::UpdatePowerUps(dt)`: the timer loop, then the
erase/remove_if of the entries that are destroyed and not activated. -/
def UpdatePowerUps (dt : ℚ) (g : Game) : Game :=
  let r := updateLoop dt [] g.power_ups_ g
  { r.2 with power_ups_ := r.1.filter (fun power_up => !(power_up.destroyed_ && !power_up.activated_)) }

/-! ## Reset, update and input -/

/-- The loop `for(i = 0; i <= level_; i++) levels_[i].Reset()`. -/
def resetLevels (E : Env) : Nat → List GameLevel → List GameLevel
  | _, [] => []
  | 0, l :: ls => E.LevelReset l :: ls
  | n + 1, l :: ls => E.LevelReset l :: resetLevels E n ls

/-- The offset `glm::vec2(kPaddleSize.x / 2 - kBallRadius, -kBallRadius * 2)`. -/
def ballOffset : Vec2 := ⟨kPaddleSize.x / 2 - kBallRadius, -kBallRadius * 2⟩

/-- The method `Game::Reset()`. -/
def Reset (E : Env) (g : Game) : Game :=
  let paddle1 : GameObject :=
    { g.paddle with
      size_ := kPaddleSize
      position_ := ⟨((g.width_ / 2 : Nat) : ℚ) - kPaddleSize.x / 2, (g.height_ : ℚ) - kPaddleSize.y⟩
      color_ := white }
  { g with
    levels_ := resetLevels E g.level_ g.levels_
    paddle := paddle1
    ball := E.BallReset g.ball (Vec2.add paddle1.position_ ballOffset) kBallVelocity
    post_processor := { g.post_processor with chaos_ := false, confuse_ := false }
    power_ups_ := [] }

/-- The first statement of `Update`: `ball->Move(dt, width_)`. -/
def moveBall (E : Env) (dt : ℚ) (g : Game) : Game :=
  { g with ball := E.Move g.ball dt g.width_ }

/-- The loss check of `Update`: `if(ball->position_.y >= height_) Reset()`. -/
def lossCheck (E : Env) (g : Game) : Game :=
  if g.ball.position_.y ≥ (g.height_ : ℚ) then Reset E g else g

/-- The last statement of `Update`: the countdown of the shake timer. -/
def shakeTick (dt : ℚ) (g : Game) : Game :=
  if g.shake_time > 0 then
    let g1 : Game := { g with shake_time := g.shake_time - dt }
    if g1.shake_time ≤ 0 then
      { g1 with post_processor := { g1.post_processor with shake_ := false } }
    else g1
  else g

/-- The method `Game::Update(dt)`. -/
def Update (E : Env) (dt : ℚ) (g : Game) : Game :=
  let g1 := moveBall E dt g
  let g2 := DoCollisions E g1
  let g3 := UpdatePowerUps dt g2
  let g4 := lossCheck E g3
  shakeTick dt g4

/-- The body of `if(keys_[GLFW_KEY_A])` in `ProcessInput`: move left by
`velocity`, clamp at 0, carry a stuck ball. -/
def pressLeft (velocity : ℚ) (g : Game) : Game :=
  let x1 := g.paddle.position_.x - velocity
  let x2 := if x1 < 0 then 0 else x1
  let ga : Game := { g with paddle := { g.paddle with position_ := ⟨x2, g.paddle.position_.y⟩ } }
  if ga.ball.stuck_ then
    { ga with ball := { ga.ball with position_ := Vec2.add ga.paddle.position_ ballOffset } }
  else ga

/-- The body of `if(keys_[GLFW_KEY_D])` in `ProcessInput`: move right by
`velocity`, clamp at `width_ - size_.x`, carry a stuck ball. -/
def pressRight (velocity : ℚ) (g : Game) : Game :=
  let x1 := g.paddle.position_.x + velocity
  let x2 :=
    if x1 > (g.width_ : ℚ) - g.paddle.size_.x then (g.width_ : ℚ) - g.paddle.size_.x else x1
  let gd : Game := { g with paddle := { g.paddle with position_ := ⟨x2, g.paddle.position_.y⟩ } }
  if gd.ball.stuck_ then
    { gd with ball := { gd.ball with position_ := Vec2.add gd.paddle.position_ ballOffset } }
  else gd

/-- The method `Game::ProcessInput(dt)`; `keys` is the key-state table `keys_`. -/
def ProcessInput (keys : Nat → Bool) (dt : ℚ) (g : Game) : Game :=
  if g.state_ = GameState.KGameActive then
    let velocity := kPaddleVelocity * dt
    let g1 : Game := if keys GLFW_KEY_A then pressLeft velocity g else g
    let g2 : Game := if keys GLFW_KEY_D then pressRight velocity g1 else g1
    if keys GLFW_KEY_SPACE then
      { g2 with ball := { g2.ball with stuck_ := false } }
    else g2
  else g

/-! ## Sequences of steps -/

/-- The operations that make up the frames of the game. -/
inductive Step where
  | input (keys : Nat → Bool) (dt : ℚ)
  | move (dt : ℚ)
  | collide
  | powerUps (dt : ℚ)
  | reset
  | shake (dt : ℚ)
  | update (dt : ℚ)

/-- The effect of one step. -/
def Step.apply (E : Env) : Step → Game → Game
  | Step.input keys dt, g => ProcessInput keys dt g
  | Step.move dt, g => moveBall E dt g
  | Step.collide, g => DoCollisions E g
  | Step.powerUps dt, g => UpdatePowerUps dt g
  | Step.reset, g => Reset E g
  | Step.shake dt, g => shakeTick dt g
  | Step.update dt, g => Update E dt g

/-- Steps that cannot call `Reset`. -/
def Step.noReset : Step → Bool
  | Step.reset => false
  | Step.update _ => false
  | _ => true

/-- The effect of a sequence of steps, first to last. -/
def run (E : Env) : List Step → Game → Game
  | [], g => g
  | s :: rest, g => run E rest (Step.apply E s g)


/-! ## Predicates used to state the properties -/

/-- Some entry of the list is activated and has the given type. -/
def activeOfType (type : String) (l : List PowerUp) : Prop :=
  ∃ q ∈ l, q.activated_ = true ∧ q.type_ = type

/-- The state that belongs to a timed power-up type is the same in `g` and `h`:
sticky flag and paddle colour for sticky, pass-through flag and ball colour
for pass-through, the confuse flag for confuse, the chaos flag for chaos. -/
def effectKept (type : String) (g h : Game) : Prop :=
  (type = "sticky" →
    h.ball.sticky_ = g.ball.sticky_ ∧ h.paddle.color_ = g.paddle.color_) ∧
  (type = "pass-through" →
    h.ball.pass_through_ = g.ball.pass_through_ ∧ h.ball.color_ = g.ball.color_) ∧
  (type = "confuse" → h.post_processor.confuse_ = g.post_processor.confuse_) ∧
  (type = "chaos" → h.post_processor.chaos_ = g.post_processor.chaos_)

/-- The state that belongs to a timed power-up type is reverted in `h`: the
flag is false and the tint is `(1, 1, 1)`. -/
def effectCleared (type : String) (h : Game) : Prop :=
  (type = "sticky" → h.ball.sticky_ = false ∧ h.paddle.color_ = white) ∧
  (type = "pass-through" → h.ball.pass_through_ = false ∧ h.ball.color_ = white) ∧
  (type = "confuse" → h.post_processor.confuse_ = false) ∧
  (type = "chaos" → h.post_processor.chaos_ = false)

/-- The four deactivation branches of `UpdatePowerUps` as one function of the
type string (used to describe the loop body in the proofs). -/
def clearEffect (type : String) (g : Game) : Game :=
  if type = "sticky" then
    { g with
      ball := { g.ball with sticky_ := false }
      paddle := { g.paddle with color_ := white } }
  else if type = "pass-through" then
    { g with ball := { g.ball with pass_through_ := false, color_ := white } }
  else if type = "confuse" then
    { g with post_processor := { g.post_processor with confuse_ := false } }
  else if type = "chaos" then
    { g with post_processor := { g.post_processor with chaos_ := false } }
  else g

/-! ## A sample environment and sample states

The theorems below hold for every `Env`.  To evaluate the embedding on concrete
inputs the following environment is used. -/

/-- Clamp of `v` into `[lo, hi]`. -/
def clampQ (v lo hi : ℚ) : ℚ := max lo (min hi v)

/-- Modelled from the spec: the direction classification of the collision
module (in a header that is not part of the file): the axis vector, among
right, left, up, down in that order, with the largest dot product with the
difference vector; up is `(0, 1)` and the first of equal candidates wins. -/
def Collision.VectorDirection (d : Vec2) : Direction :=
  let right := d.x
  let left := -d.x
  let up := d.y
  let down := -d.y
  if left ≤ right ∧ up ≤ right ∧ down ≤ right then Direction.kRight
  else if up ≤ left ∧ down ≤ left then Direction.kLeft
  else if down ≤ up then Direction.kUp
  else Direction.kDown

/-- Modelled from the spec: `Collision::Detect(circle, rect)` (in a header that
is not part of the file): the circle centre is clamped into the rectangle to
find the nearest point, the difference is centre minus nearest point, and the
two collide when the length of the difference is at most the radius. -/
def Collision.DetectCircleRect (circle : Circle) (rect : Rect) : CollisionResult :=
  let nearest : Vec2 :=
    ⟨clampQ circle.point.x rect.position.x (rect.position.x + rect.size.x),
     clampQ circle.point.y rect.position.y (rect.position.y + rect.size.y)⟩
  let difference : Vec2 := ⟨circle.point.x - nearest.x, circle.point.y - nearest.y⟩
  { hit := decide (0 ≤ circle.radius ∧
      difference.x * difference.x + difference.y * difference.y ≤ circle.radius * circle.radius)
    dir := Collision.VectorDirection difference
    difference := difference }

/-- Modelled from the spec: `Collision::Detect(rect, rect)` (in a header that is
not part of the file): the axis-aligned boxes overlap on both axes. -/
def Collision.DetectRectRect (a b : Rect) : Bool :=
  decide (a.position.x + a.size.x ≥ b.position.x ∧ b.position.x + b.size.x ≥ a.position.x) &&
  decide (a.position.y + a.size.y ≥ b.position.y ∧ b.position.y + b.size.y ≥ a.position.y)

/-- A sample environment.  The detection functions follow the spec; `Move`
advances a ball that is not stuck by `velocity * dt`; `BallReset` stores the
position and velocity and makes the ball stuck; `LevelReset` clears the
destroyed flags; the taxicab norm stands for the Euclidean one, whose values
are irrational in general. -/
def sampleEnv : Env :=
  { rand := fun n => n
    DetectCircleRect := Collision.DetectCircleRect
    DetectRectRect := Collision.DetectRectRect
    Move := fun b dt _ =>
      if b.stuck_ then b else { b with position_ := Vec2.add b.position_ (Vec2.scale dt b.velocity_) }
    BallReset := fun b p v => { b with position_ := p, velocity_ := v, stuck_ := true }
    LevelReset := fun l => { l with bricks_ := l.bricks_.map (fun b => { b with destroyed_ := false }) }
    normalize := fun v => Vec2.scale (1 / (|v.x| + |v.y|)) v
    length := fun v => |v.x| + |v.y|
    powerUpSize := ⟨60, 20⟩
    powerUpVelocity := ⟨0, 150⟩ }

/-- A brick at the given position. -/
def sampleBrick (x y : ℚ) (solid destroyed : Bool) : GameObject :=
  { position_ := ⟨x, y⟩
    size_ := ⟨100, 40⟩
    velocity_ := ⟨0, 0⟩
    color_ := white
    is_solid_ := solid
    destroyed_ := destroyed }

/-- A power-up of the given type, position, remaining duration and flags. -/
def samplePowerUp (type : String) (x y duration : ℚ) (destroyed activated : Bool) : PowerUp :=
  { position_ := ⟨x, y⟩
    size_ := ⟨60, 20⟩
    velocity_ := ⟨0, 150⟩
    color_ := white
    is_solid_ := false
    destroyed_ := destroyed
    type_ := type
    duration_ := duration
    activated_ := activated }

/-- The state after `Init` on an 800 by 600 screen with one level holding a
solid and a plain brick, and no power-ups. -/
def sampleGame : Game :=
  { state_ := GameState.KGameActive
    width_ := 800
    height_ := 600
    levels_ := [⟨[sampleBrick 0 0 true false, sampleBrick 100 0 false false]⟩]
    level_ := 0
    power_ups_ := []
    paddle :=
      { position_ := ⟨350, 580⟩
        size_ := ⟨100, 20⟩
        velocity_ := ⟨0, 0⟩
        color_ := white
        is_solid_ := false
        destroyed_ := false }
    ball :=
      { position_ := ⟨775 / 2, 555⟩
        size_ := ⟨25, 25⟩
        velocity_ := ⟨100, -350⟩
        color_ := white
        is_solid_ := false
        destroyed_ := false
        radius_ := 25 / 2
        stuck_ := true
        sticky_ := false
        pass_through_ := false }
    post_processor := ⟨false, false, false⟩
    shake_time := 0
    rand_calls := 0 }

/-- The sample state after two sticky pickups: the ball is sticky, the paddle
tinted, and the collection holds two collected sticky entries with 1 and 5
seconds left. -/
def stickyGame : Game :=
  { sampleGame with
    power_ups_ :=
      [samplePowerUp "sticky" 0 0 1 true true, samplePowerUp "sticky" 0 0 5 true true]
    ball := { sampleGame.ball with sticky_ := true }
    paddle := { sampleGame.paddle with color_ := ⟨1, 1 / 2, 1⟩ } }

/-- The confuse and chaos flags are not both on. -/
def exclusive (g : Game) : Prop :=
  ¬ (g.post_processor.confuse_ = true ∧ g.post_processor.chaos_ = true)

/-- What the brick loop of `DoCollisions` cannot touch: everything but the
ball, the power-up collection, the `rand` counter and the shake effect. -/
def brickFrame (g h : Game) : Prop :=
  h.state_ = g.state_ ∧ h.width_ = g.width_ ∧ h.height_ = g.height_ ∧
  h.levels_ = g.levels_ ∧ h.level_ = g.level_ ∧ h.paddle = g.paddle ∧
  h.post_processor.confuse_ = g.post_processor.confuse_ ∧
  h.post_processor.chaos_ = g.post_processor.chaos_

/-- What `ProcessInput` cannot touch: everything but the paddle and the ball. -/
def inputFrame (g h : Game) : Prop :=
  h.state_ = g.state_ ∧ h.width_ = g.width_ ∧ h.height_ = g.height_ ∧
  h.levels_ = g.levels_ ∧ h.level_ = g.level_ ∧ h.power_ups_ = g.power_ups_ ∧
  h.post_processor = g.post_processor ∧ h.shake_time = g.shake_time ∧
  h.rand_calls = g.rand_calls

/-- The sample state with a confuse and a chaos power-up both lying on the
paddle, neither collected yet. -/
def pickupGame : Game :=
  { sampleGame with
    power_ups_ :=
      [samplePowerUp "confuse" 360 575 15 false false,
       samplePowerUp "chaos" 380 575 15 false false] }

/-- The sample state with the paddle at the right edge (`x = 700` on a screen
800 wide) just after a pad-size-increase pickup, which makes it 150 wide. -/
def wideGame : Game :=
  ActivatePowerUp (samplePowerUp "pad-size-increase" 700 575 0 false false)
    { sampleGame with paddle := { sampleGame.paddle with position_ := ⟨700, 580⟩ } }

/-- The key table with only `GLFW_KEY_A` held. -/
def leftOnly : Nat → Bool := fun k => k == GLFW_KEY_A

/-- The key table with only `GLFW_KEY_D` held. -/
def rightOnly : Nat → Bool := fun k => k == GLFW_KEY_D

/-- The sample state with one falling power-up that has left the playfield
through the bottom (`y = 700` on a screen 600 high) at `x = 100`. -/
def belowGame : Game :=
  { sampleGame with power_ups_ := [samplePowerUp "speed" 100 700 0 false false] }

/-- The sample state with one falling power-up that is still inside the
playfield (`y = 100`), far from the paddle, at `x = 700`. -/
def insideGame : Game :=
  { sampleGame with power_ups_ := [samplePowerUp "speed" 700 100 0 false false] }

/-- The brick is not destroyed and the circle is detected as colliding with it. -/
def brickHit (E : Env) (c : Circle) (box : GameObject) : Bool :=
  !box.destroyed_ && (E.DetectCircleRect c ⟨box.position_, box.size_⟩).hit

/-- The brick is hit and is not solid. -/
def brickBreaks (E : Env) (c : Circle) (box : GameObject) : Bool :=
  brickHit E c box && !box.is_solid_

/-- The brick with its destroyed flag set when it is hit and not solid. -/
def brickAfter (E : Env) (c : Circle) (box : GameObject) : GameObject :=
  if brickBreaks E c box then { box with destroyed_ := true } else box

/-- The brick at index `bi` of level `li`, if there is one. -/
def Game.brickAt (g : Game) (li bi : Nat) : Option GameObject :=
  match g.levels_[li]? with
  | some lvl => lvl.bricks_[bi]?
  | none => none

/-- The bricks of the current level (none when `level_` is out of range). -/
def Game.currentBricks (g : Game) : List GameObject :=
  match g.levels_[g.level_]? with
  | some lvl => lvl.bricks_
  | none => []

/-- The number of destroyed bricks in the current level. -/
def Game.destroyedCount (g : Game) : Nat :=
  (g.currentBricks.filter (fun b => b.destroyed_)).length

/-- The circle that `DoCollisions` builds from the ball on entry. -/
def Game.ballCircle (g : Game) : Circle := ⟨g.ball.position_, g.ball.radius_⟩

/-- The shake effect is armed: timer at 0.05 and flag on. -/
def shakeArmed (g : Game) : Prop :=
  g.shake_time = 1 / 20 ∧ g.post_processor.shake_ = true

/-- What the power-up loop of `DoCollisions` cannot touch: everything but the
ball, the paddle and the confuse and chaos flags (the entries of the
collection are written back by the loop itself). -/
def pickupFrame (g h : Game) : Prop :=
  h.state_ = g.state_ ∧ h.width_ = g.width_ ∧ h.height_ = g.height_ ∧
  h.levels_ = g.levels_ ∧ h.level_ = g.level_ ∧ h.power_ups_ = g.power_ups_ ∧
  h.shake_time = g.shake_time ∧ h.rand_calls = g.rand_calls ∧
  h.post_processor.shake_ = g.post_processor.shake_

/-- The sample state with the ball in flight just under the solid brick
(circle point `(50, 45)`, radius 12.5; the brick spans `[0,100] × [0,40]`). -/
def solidHitGame : Game :=
  { sampleGame with ball := { sampleGame.ball with position_ := ⟨50, 45⟩, stuck_ := false } }

/-- The sample state with the ball in flight just under the plain brick
(circle point `(150, 45)`; the brick spans `[100,200] × [0,40]`). -/
def plainHitGame : Game :=
  { sampleGame with ball := { sampleGame.ball with position_ := ⟨150, 45⟩, stuck_ := false } }

/-- The relation between a state `g` and a later state `h` that C8 asserts for
frames without `Reset`: the current level is the same, every brick is still
there and a brick destroyed in `g` is unchanged in `h`, and the number of
`rand` calls made in between is six times the number of bricks of the current
level that went from not destroyed to destroyed. -/
def bricksOnce (g h : Game) : Prop :=
  h.level_ = g.level_ ∧
  (∀ (li bi : Nat) (b : GameObject), g.brickAt li bi = some b →
    ∃ b1, h.brickAt li bi = some b1 ∧ (b.destroyed_ = true → b1 = b)) ∧
  h.rand_calls + 6 * g.destroyedCount = g.rand_calls + 6 * h.destroyedCount

/-- The power-up is not destroyed and its rectangle overlaps `paddle_rect`. -/
def pickupOverlap (E : Env) (paddle_rect : Rect) (p : PowerUp) : Bool :=
  !p.destroyed_ && E.DetectRectRect paddle_rect ⟨p.position_, p.size_⟩

/-- The entry of the collection after the power-up loop of `DoCollisions`. -/
def pickupAfter (E : Env) (paddle_rect : Rect) (height : Nat) (p : PowerUp) : PowerUp :=
  if p.destroyed_ then p
  else if E.DetectRectRect paddle_rect ⟨p.position_, p.size_⟩ then
    { p with destroyed_ := true, activated_ := true }
  else if p.position_.x ≥ (height : ℚ) then { p with destroyed_ := true }
  else p

/-- The rectangle that `DoCollisions` builds from the paddle. -/
def Game.paddleRect (g : Game) : Rect := ⟨g.paddle.position_, g.paddle.size_⟩

/-- The sample state with the ball (still marked stuck) below the bottom edge
of the 800 by 600 screen, a widened and tinted paddle, the confuse flag on and
a collected confuse entry with 10 seconds left. -/
def lostGame : Game :=
  { sampleGame with
    ball := { sampleGame.ball with position_ := ⟨400, 650⟩ }
    paddle := { sampleGame.paddle with size_ := ⟨150, 20⟩, color_ := ⟨1, 1 / 2, 1⟩ }
    post_processor := ⟨false, true, false⟩
    power_ups_ := [samplePowerUp "confuse" 0 700 10 true true] }

/-- What the loop of `UpdatePowerUps` writes into one entry: the position moves
by `velocity * dt`; an activated entry loses `dt` of its duration and is
deactivated when the duration is at most 0. -/
def tickPowerUp (dt : ℚ) (power_up : PowerUp) : PowerUp :=
  let p1 : PowerUp :=
    { power_up with position_ := Vec2.add power_up.position_ (Vec2.scale dt power_up.velocity_) }
  if p1.activated_ then
    let p2 : PowerUp := { p1 with duration_ := p1.duration_ - dt }
    if p2.duration_ ≤ 0 then { p2 with activated_ := false } else p2
  else p1

/-- The sample state with three entries in the collection: a falling one, one
that went off-screen (destroyed, never activated) and a collected sticky one
with half a second left. -/
def cleanupGame : Game :=
  { sampleGame with
    power_ups_ :=
      [samplePowerUp "speed" 100 100 0 false false,
       samplePowerUp "chaos" 700 300 15 true false,
       samplePowerUp "sticky" 400 580 (1 / 2) true true] }

/-- The sample state with the pass-through effect on and the ball in flight
just under the plain brick. -/
def passPlainGame : Game :=
  { plainHitGame with ball := { plainHitGame.ball with pass_through_ := true } }

/-- The sample state with the sticky effect on and the ball in flight, moving
down, touching the top of the paddle 3/4 to the right of its centre. -/
def stickyBounceGame : Game :=
  { sampleGame with
    ball := { sampleGame.ball with
      position_ := ⟨1553 / 4, 570⟩, velocity_ := ⟨0, 5⟩, stuck_ := false, sticky_ := true } }

/-- The two balls have the same radius and the same stuck, sticky and
pass-through flags. -/
def sameBallFlags (a b : BallObject) : Prop :=
  b.radius_ = a.radius_ ∧ b.stuck_ = a.stuck_ ∧ b.sticky_ = a.sticky_ ∧
  b.pass_through_ = a.pass_through_

/-- The velocity after one bounce response: the horizontal component is
negated for left and right, the vertical one for up and down. -/
def flipVelocity (dir : Direction) (v : Vec2) : Vec2 :=
  if dir = Direction.kLeft ∨ dir = Direction.kRight then ⟨-v.x, v.y⟩ else ⟨v.x, -v.y⟩

/-- The direction is up or down. -/
def Direction.vertical (dir : Direction) : Prop :=
  dir = Direction.kUp ∨ dir = Direction.kDown

/-- The direction is left or right. -/
def Direction.horizontal (dir : Direction) : Prop :=
  dir = Direction.kLeft ∨ dir = Direction.kRight

/-- The state of `DoCollisions` just before its ball-versus-paddle step. -/
def beforePaddle (E : Env) (g : Game) : Game :=
  pickupPhase E ⟨(brickPhase E ⟨g.ball.position_, g.ball.radius_⟩ g).paddle.position_,
      (brickPhase E ⟨g.ball.position_, g.ball.radius_⟩ g).paddle.size_⟩
    (brickPhase E ⟨g.ball.position_, g.ball.radius_⟩ g)

/-- The sample state with a second level-0 layout: two plain bricks side by
side, `[0,100] × [0,40]` and `[100,200] × [0,40]`, and the ball in flight with
its circle point at `(100, 45)`, under the joint of the two. -/
def twoHitGame : Game :=
  { sampleGame with
    levels_ := [⟨[sampleBrick 0 0 false false, sampleBrick 100 0 false false]⟩]
    ball := { sampleGame.ball with position_ := ⟨100, 45⟩, stuck_ := false } }

/-- The odds of the six rolls as the specification states them: one in 75 for the
first four, one in 15 for the last two. -/
def spawnChance (i : Nat) : Nat := if i < 4 then 75 else 15

/-- The power-up of the `i`-th roll as the specification states it: speed, sticky,
pass-through, pad-size-increase, confuse, chaos, at the brick's position, with
durations 0, 20, 10, 0, 15, 15. -/
def spawnCandidate (E : Env) (block : GameObject) : Nat → PowerUp
  | 0 => PowerUp.new E "speed" ⟨1 / 2, 1 / 2, 1⟩ 0 block.position_
  | 1 => PowerUp.new E "sticky" ⟨1, 1 / 2, 1⟩ 20 block.position_
  | 2 => PowerUp.new E "pass-through" ⟨1 / 2, 1, 1 / 2⟩ 10 block.position_
  | 3 => PowerUp.new E "pad-size-increase" ⟨1, 3 / 5, 2 / 5⟩ 0 block.position_
  | 4 => PowerUp.new E "confuse" ⟨1, 3 / 10, 3 / 10⟩ 15 block.position_
  | _ => PowerUp.new E "chaos" ⟨9 / 10, 1 / 4, 1 / 4⟩ 15 block.position_

/-- The entries chosen by `sel` among the six candidates, in their order. -/
def spawnedBy (E : Env) (block : GameObject) (sel : Nat → Bool) : List PowerUp :=
  ((List.range 6).filter sel).map (spawnCandidate E block)

/-- The entries the specification says `SpawnPowerUps` appends when the six draws are
`rand first`, ..., `rand (first + 5)`: the candidates whose own draw is a
multiple of its odds. -/
def spawned (E : Env) (block : GameObject) (first : Nat) : List PowerUp :=
  spawnedBy E block (fun i => E.rand (first + i) % spawnChance i == 0)

/-- The flag that belongs to a timed power-up type: `ball.sticky`,
`ball.pass_through`, the confuse flag, the chaos flag; false for other types. -/
def effectFlag (type : String) (g : Game) : Bool :=
  if type = "sticky" then g.ball.sticky_
  else if type = "pass-through" then g.ball.pass_through_
  else if type = "confuse" then g.post_processor.confuse_
  else if type = "chaos" then g.post_processor.chaos_
  else false

/-- Every effect flag that is on is backed by an activated entry of its type
in the collection. -/
def flagsBacked (g : Game) : Prop :=
  ∀ type : String, effectFlag type g = true → activeOfType type g.power_ups_

/-- The steps `DoCollisions` and `UpdatePowerUps`. -/
def Step.timed : Step → Bool
  | Step.collide => true
  | Step.powerUps _ => true
  | _ => false

/-- The sample state with a sticky and a pass-through power-up lying on the
paddle, neither collected yet, and all effect flags off. -/
def effectsGame : Game :=
  { sampleGame with
    power_ups_ :=
      [samplePowerUp "sticky" 360 575 20 false false,
       samplePowerUp "pass-through" 380 575 10 false false] }

/-- The squared Euclidean length of a vector. -/
def Vec2.sqLength (v : Vec2) : ℚ := v.x * v.x + v.y * v.y

/-- The `percentage` of the paddle bounce: the offset of the ball centre from
the paddle centre as a fraction of half the paddle width. -/
def percentage (g : Game) : ℚ :=
  ((g.ball.position_.x + g.ball.radius_) - (g.paddle.position_.x + g.paddle.size_.x / 2)) /
    (g.paddle.size_.x / 2)

/-- The vector `(100 * percentage * 2, 1 - |velocity.y|)` that the paddle
bounce rescales to the old speed. -/
def redirected (g : Game) : Vec2 :=
  ⟨100 * percentage g * 2, 1 - |g.ball.velocity_.y|⟩

/-- The environment computes `glm::normalize(v)` as `v` times the inverse of
`glm::length(v)`. -/
def Env.normalizeByLength (E : Env) : Prop :=
  ∀ v : Vec2, E.normalize v = Vec2.scale (1 / E.length v) v

/-- The value `E.length v` is the Euclidean length of `v`: not negative, with
square `v.x² + v.y²`. -/
def Env.lengthExact (E : Env) (v : Vec2) : Prop :=
  0 ≤ E.length v ∧ E.length v * E.length v = v.sqLength

/-- The Euclidean length of a vector wherever that length is rational (the
rational square root of the squared length). -/
def euclidLength (v : Vec2) : ℚ := Rat.sqrt (v.x * v.x + v.y * v.y)

/-- The sample environment with the Euclidean length (where rational) for
`glm::length` and `v * (1 / length v)` for `glm::normalize`. -/
def euclidEnv : Env :=
  { sampleEnv with
    length := euclidLength
    normalize := fun v => Vec2.scale (1 / euclidLength v) v }

/-- The sample state with the ball in flight, touching the top of the paddle
with its centre exactly over the paddle centre, and the given velocity. -/
def centreHitGame (vx vy : ℚ) : Game :=
  { sampleGame with
    ball := { sampleGame.ball with
      position_ := ⟨775 / 2, 570⟩, velocity_ := ⟨vx, vy⟩, stuck_ := false } }

/-- The sample state with the ball in flight, moving down at `(0, 5)`, touching
the top of the paddle 3/4 to the right of its centre. -/
def offCentreHitGame : Game :=
  { sampleGame with
    ball := { sampleGame.ball with
      position_ := ⟨1553 / 4, 570⟩, velocity_ := ⟨0, 5⟩, stuck_ := false } }

/-- The velocity computed by the ball-versus-paddle branch of `DoCollisions`
(from `paddle_center` to the renormalisation), written over any ordered field
`K` of scalars: `length` and `normalize` stand for `glm::length` and
`glm::normalize`, the other arguments for `ball->position_.x`,
`ball->radius_`, `paddle->position_.x`, `paddle->size_.x` and
`ball->velocity_`. -/
def bounceVelocity {K : Type} [LinearOrderedField K] (length : K × K → K)
    (normalize : K × K → K × K) (ball_x radius paddle_x paddle_w : K) (velocity : K × K) :
    K × K :=
  let paddle_center := paddle_x + paddle_w / 2
  let distance := (ball_x + radius) - paddle_center
  let percentage := distance / (paddle_w / 2)
  let strength : K := 2
  let old_velocity := velocity
  let v1 : K × K := (100 * percentage * strength, 1 - |velocity.2|)
  let n := normalize v1
  (length old_velocity * n.1, length old_velocity * n.2)

/-- The sample state with the ball in flight at the configured velocity
`(100, -350)`, touching the top of the paddle 3/4 to the right of its centre. -/
def configuredHitGame : Game :=
  { sampleGame with
    ball := { sampleGame.ball with
      position_ := ⟨1553 / 4, 570⟩, velocity_ := kBallVelocity, stuck_ := false } }

/-! ## Theorems -/

/-! ### Power-up activation (C2, C9) -/

/-- C2: activating a confuse power-up while the chaos flag is true changes
nothing, so a false confuse flag stays false; while the chaos flag is false it
sets the confuse flag and changes nothing else.  Symmetrically, activating a
chaos power-up sets the chaos flag exactly when the confuse flag is false
beforehand, and changes nothing otherwise. -/
theorem C2_confuse_chaos_exclusive (p : PowerUp) (g : Game) :
    (p.type_ = "confuse" →
      (g.post_processor.chaos_ = true →
        ActivatePowerUp p g = g ∧
        (g.post_processor.confuse_ = false →
          (ActivatePowerUp p g).post_processor.confuse_ = false)) ∧
      (g.post_processor.chaos_ = false →
        ActivatePowerUp p g =
          { g with post_processor := { g.post_processor with confuse_ := true } })) ∧
    (p.type_ = "chaos" →
      (g.post_processor.confuse_ = true →
        ActivatePowerUp p g = g ∧
        (g.post_processor.chaos_ = false →
          (ActivatePowerUp p g).post_processor.chaos_ = false)) ∧
      (g.post_processor.confuse_ = false →
        ActivatePowerUp p g =
          { g with post_processor := { g.post_processor with chaos_ := true } })) := by
  refine ⟨fun hp => ⟨fun hc => ?_, fun hc => ?_⟩, fun hp => ⟨fun hc => ?_, fun hc => ?_⟩⟩
  · have h : ActivatePowerUp p g = g := by simp [ActivatePowerUp, hp, hc]
    exact ⟨h, fun hf => by rw [h]; exact hf⟩
  · simp [ActivatePowerUp, hp, hc]
  · have h : ActivatePowerUp p g = g := by simp [ActivatePowerUp, hp, hc]
    exact ⟨h, fun hf => by rw [h]; exact hf⟩
  · simp [ActivatePowerUp, hp, hc]


/-- Witness for C2 on the sample state: with the chaos flag on, a confuse
pickup leaves the confuse flag off; with it off, the pickup turns confuse on. -/
theorem C2_confuse_chaos_exclusive_witness :
    (ActivatePowerUp (samplePowerUp "confuse" 0 0 15 false false)
      { sampleGame with post_processor := ⟨false, false, true⟩ }).post_processor.confuse_ = false ∧
    ActivatePowerUp (samplePowerUp "confuse" 0 0 15 false false) sampleGame =
      { sampleGame with post_processor := { sampleGame.post_processor with confuse_ := true } } ∧
    ActivatePowerUp (samplePowerUp "chaos" 0 0 15 false false)
      { sampleGame with post_processor := ⟨false, true, false⟩ } =
      { sampleGame with post_processor := ⟨false, true, false⟩ } :=
  ⟨(((C2_confuse_chaos_exclusive (samplePowerUp "confuse" 0 0 15 false false)
        { sampleGame with post_processor := ⟨false, false, true⟩ }).1 rfl).1 rfl).2 rfl,
   ((C2_confuse_chaos_exclusive (samplePowerUp "confuse" 0 0 15 false false)
        sampleGame).1 rfl).2 rfl,
   (((C2_confuse_chaos_exclusive (samplePowerUp "chaos" 0 0 15 false false)
        { sampleGame with post_processor := ⟨false, true, false⟩ }).2 rfl).1 rfl).1⟩

/-- C9: activating a speed power-up multiplies both components of the ball
velocity by 1.2 and changes nothing else in the state (ball, paddle,
post-processor included); two activations in a row multiply the original
velocity by exactly 1.44. -/
theorem C9_speed_compounds (p q : PowerUp) (g : Game)
    (hp : p.type_ = "speed") (hq : q.type_ = "speed") :
    ActivatePowerUp p g =
      { g with ball := { g.ball with
          velocity_ := ⟨6 / 5 * g.ball.velocity_.x, 6 / 5 * g.ball.velocity_.y⟩ } } ∧
    ActivatePowerUp q (ActivatePowerUp p g) =
      { g with ball := { g.ball with
          velocity_ := ⟨36 / 25 * g.ball.velocity_.x, 36 / 25 * g.ball.velocity_.y⟩ } } := by
  constructor
  · simp [ActivatePowerUp, hp, Vec2.scale]
  · simp only [ActivatePowerUp, hp, hq, Vec2.scale, if_true]
    have hx : (6 : ℚ) / 5 * (6 / 5 * g.ball.velocity_.x) = 36 / 25 * g.ball.velocity_.x := by ring
    have hy : (6 : ℚ) / 5 * (6 / 5 * g.ball.velocity_.y) = 36 / 25 * g.ball.velocity_.y := by ring
    rw [hx, hy]

/-- Witness for C9 on the sample state, whose ball velocity is `(100, -350)`:
one speed pickup gives `(120, -420)`, two give `(144, -504)`. -/
theorem C9_speed_compounds_witness :
    (ActivatePowerUp (samplePowerUp "speed" 0 0 0 false false) sampleGame).ball.velocity_ =
      ⟨120, -420⟩ ∧
    (ActivatePowerUp (samplePowerUp "speed" 0 0 0 false false)
      (ActivatePowerUp (samplePowerUp "speed" 0 0 0 false false) sampleGame)).ball.velocity_ =
      ⟨144, -504⟩ := by
  have h := C9_speed_compounds (samplePowerUp "speed" 0 0 0 false false)
    (samplePowerUp "speed" 0 0 0 false false) sampleGame rfl rfl
  rw [h.2, h.1]
  simp only [sampleGame]
  norm_num


/-! ### Deactivation of overlapping timed effects (C1) -/

theorem isOtherPowerUpActive_iff (l : List PowerUp) (type : String) :
    isOtherPowerUpActive l type = true ↔ activeOfType type l := by
  induction l with
  | nil => simp [isOtherPowerUpActive, activeOfType]
  | cons p rest ih =>
    unfold activeOfType at ih ⊢
    by_cases ha : p.activated_ = true <;> by_cases ht : p.type_ = type <;>
      simp [isOtherPowerUpActive, ha, ht, ih]

theorem activeOfType_append (type : String) (l₁ l₂ : List PowerUp) :
    activeOfType type (l₁ ++ l₂) ↔ activeOfType type l₁ ∨ activeOfType type l₂ := by
  unfold activeOfType
  constructor
  · rintro ⟨q, hq, h⟩
    rcases List.mem_append.mp hq with h1 | h2
    · exact Or.inl ⟨q, h1, h⟩
    · exact Or.inr ⟨q, h2, h⟩
  · rintro (⟨q, hq, h⟩ | ⟨q, hq, h⟩)
    · exact ⟨q, List.mem_append.mpr (Or.inl hq), h⟩
    · exact ⟨q, List.mem_append.mpr (Or.inr hq), h⟩

theorem activeOfType_cons (type : String) (p : PowerUp) (l : List PowerUp) :
    activeOfType type (p :: l) ↔ (p.activated_ = true ∧ p.type_ = type) ∨ activeOfType type l := by
  unfold activeOfType
  simp

/-- The scan of `isOtherPowerUpActive` over the vector at the moment an entry
has just been deactivated sees exactly the other entries. -/
theorem isOther_skip (done rest : List PowerUp) (p : PowerUp) (type : String)
    (hp : p.activated_ = false) :
    isOtherPowerUpActive (done ++ p :: rest) type = true ↔ activeOfType type (done ++ rest) := by
  rw [isOtherPowerUpActive_iff, activeOfType_append, activeOfType_append, activeOfType_cons]
  simp [hp]

theorem updateOne_fst_type (dt : ℚ) (done : List PowerUp) (p : PowerUp) (rest : List PowerUp)
    (g : Game) : (updateOne dt done p rest g).1.type_ = p.type_ := by
  unfold updateOne
  simp only
  split_ifs <;> rfl

theorem updateOne_fst_activated (dt : ℚ) (done : List PowerUp) (p : PowerUp)
    (rest : List PowerUp) (g : Game) :
    (updateOne dt done p rest g).1.activated_ = true ↔
      p.activated_ = true ∧ 0 < p.duration_ - dt := by
  unfold updateOne
  simp only
  split_ifs <;> simp_all

theorem updateOne_snd_same (dt : ℚ) (done : List PowerUp) (p : PowerUp) (rest : List PowerUp)
    (g : Game)
    (h : p.activated_ = false ∨ 0 < p.duration_ - dt ∨ activeOfType p.type_ (done ++ rest)) :
    (updateOne dt done p rest g).2 = g := by
  by_cases ha : p.activated_ = true
  swap
  · simp [updateOne, ha]
  by_cases hd : p.duration_ - dt ≤ 0
  swap
  · simp [updateOne, ha, hd]
  have h : activeOfType p.type_ (done ++ rest) := by
    rcases h with h | h | h
    · rw [ha] at h; cases h
    · exact absurd hd (not_le.mpr h)
    · exact h
  have key : ∀ q : PowerUp, q.activated_ = false →
      isOtherPowerUpActive (done ++ q :: rest) p.type_ = true :=
    fun q hq => (isOther_skip done rest q _ hq).mpr h
  by_cases h1 : p.type_ = "sticky"
  · rw [h1] at key; simp [updateOne, ha, hd, h1, key]
  by_cases h2 : p.type_ = "pass-through"
  · rw [h2] at key; simp [updateOne, ha, hd, h2, key]
  by_cases h3 : p.type_ = "confuse"
  · rw [h3] at key; simp [updateOne, ha, hd, h3, key]
  by_cases h4 : p.type_ = "chaos"
  · rw [h4] at key; simp [updateOne, ha, hd, h4, key]
  simp [updateOne, ha, hd, h1, h2, h3, h4]

theorem updateOne_snd_clear (dt : ℚ) (done : List PowerUp) (p : PowerUp) (rest : List PowerUp)
    (g : Game) (ha : p.activated_ = true) (hd : p.duration_ - dt ≤ 0)
    (h : ¬ activeOfType p.type_ (done ++ rest)) :
    (updateOne dt done p rest g).2 = clearEffect p.type_ g := by
  have key : ∀ q : PowerUp, q.activated_ = false →
      isOtherPowerUpActive (done ++ q :: rest) p.type_ = false := by
    intro q hq
    cases hb : isOtherPowerUpActive (done ++ q :: rest) p.type_ with
    | false => rfl
    | true => exact absurd ((isOther_skip done rest q p.type_ hq).mp hb) h
  by_cases h1 : p.type_ = "sticky"
  · rw [h1] at key; simp [updateOne, clearEffect, ha, hd, h1, key]
  by_cases h2 : p.type_ = "pass-through"
  · rw [h2] at key; simp [updateOne, clearEffect, ha, hd, h2, key]
  by_cases h3 : p.type_ = "confuse"
  · rw [h3] at key; simp [updateOne, clearEffect, ha, hd, h3, key]
  by_cases h4 : p.type_ = "chaos"
  · rw [h4] at key; simp [updateOne, clearEffect, ha, hd, h4, key]
  simp [updateOne, clearEffect, ha, hd, h1, h2, h3, h4]

theorem effectKept_refl (type : String) (g : Game) : effectKept type g g := by
  simp [effectKept]

theorem effectKept_trans (type : String) (g h k : Game)
    (h1 : effectKept type g h) (h2 : effectKept type h k) : effectKept type g k := by
  unfold effectKept at *
  refine ⟨fun ht => ?_, fun ht => ?_, fun ht => ?_, fun ht => ?_⟩
  · exact ⟨(h2.1 ht).1.trans (h1.1 ht).1, (h2.1 ht).2.trans (h1.1 ht).2⟩
  · exact ⟨(h2.2.1 ht).1.trans (h1.2.1 ht).1, (h2.2.1 ht).2.trans (h1.2.1 ht).2⟩
  · exact (h2.2.2.1 ht).trans (h1.2.2.1 ht)
  · exact (h2.2.2.2 ht).trans (h1.2.2.2 ht)

theorem effectKept_clearEffect_ne (type other : String) (g : Game) (hne : other ≠ type) :
    effectKept type g (clearEffect other g) := by
  unfold effectKept clearEffect
  refine ⟨fun ht => ?_, fun ht => ?_, fun ht => ?_, fun ht => ?_⟩ <;>
    subst ht <;> split_ifs <;> simp_all

theorem effectCleared_clearEffect (type : String) (g : Game) :
    effectCleared type (clearEffect type g) := by
  unfold effectCleared clearEffect
  refine ⟨fun ht => ?_, fun ht => ?_, fun ht => ?_, fun ht => ?_⟩ <;>
    subst ht <;> simp

theorem effectCleared_clearEffect_of (type other : String) (g : Game)
    (h : effectCleared type g) : effectCleared type (clearEffect other g) := by
  unfold effectCleared clearEffect at *
  refine ⟨fun ht => ?_, fun ht => ?_, fun ht => ?_, fun ht => ?_⟩ <;>
    subst ht <;> split_ifs <;> simp_all

/-- The loop body either leaves the state alone or applies `clearEffect`. -/
theorem updateOne_snd_cases (dt : ℚ) (done : List PowerUp) (p : PowerUp) (rest : List PowerUp)
    (g : Game) :
    (updateOne dt done p rest g).2 = g ∨
      (updateOne dt done p rest g).2 = clearEffect p.type_ g := by
  by_cases ha : p.activated_ = true
  · by_cases hd : p.duration_ - dt ≤ 0
    · by_cases h : activeOfType p.type_ (done ++ rest)
      · exact Or.inl (updateOne_snd_same dt done p rest g (Or.inr (Or.inr h)))
      · exact Or.inr (updateOne_snd_clear dt done p rest g ha hd h)
    · exact Or.inl (updateOne_snd_same dt done p rest g (Or.inr (Or.inl (not_le.mp hd))))
  · exact Or.inl (updateOne_snd_same dt done p rest g (Or.inl (by simpa using ha)))

/-- The timer loop only ever clears: a reverted effect stays reverted. -/
theorem updateLoop_cleared_stays (dt : ℚ) (type : String) (todo : List PowerUp) :
    ∀ (done : List PowerUp) (g : Game), effectCleared type g →
      effectCleared type (updateLoop dt done todo g).2 := by
  induction todo with
  | nil => intro done g h; simpa [updateLoop] using h
  | cons p rest ih =>
    intro done g h
    simp only [updateLoop]
    apply ih
    rcases updateOne_snd_cases dt done p rest g with h1 | h1
    · rw [h1]; exact h
    · rw [h1]; exact effectCleared_clearEffect_of type p.type_ g h

/-- While an entry of the type stays activated through the frame, the timer
loop leaves the state of that type alone. -/
theorem updateLoop_kept (dt : ℚ) (type : String) (todo : List PowerUp) :
    ∀ (done : List PowerUp) (g : Game),
      (activeOfType type done ∨
        ∃ q ∈ todo, q.activated_ = true ∧ q.type_ = type ∧ 0 < q.duration_ - dt) →
      effectKept type g (updateLoop dt done todo g).2 := by
  induction todo with
  | nil => intro done g _; simpa [updateLoop] using effectKept_refl type g
  | cons p rest ih =>
    intro done g h
    simp only [updateLoop]
    have hstep : effectKept type g (updateOne dt done p rest g).2 := by
      by_cases hc : p.activated_ = true ∧ p.duration_ - dt ≤ 0 ∧
          ¬ activeOfType p.type_ (done ++ rest)
      · rw [updateOne_snd_clear dt done p rest g hc.1 hc.2.1 hc.2.2]
        apply effectKept_clearEffect_ne
        intro hpt
        apply hc.2.2
        rw [hpt, activeOfType_append]
        rcases h with h | ⟨q, hq, hqa, hqt, hqd⟩
        · exact Or.inl h
        · rcases List.mem_cons.mp hq with rfl | hq
          · exact absurd hc.2.1 (not_le.mpr hqd)
          · exact Or.inr ⟨q, hq, hqa, hqt⟩
      · rw [updateOne_snd_same dt done p rest g]
        · exact effectKept_refl type g
        · by_cases ha : p.activated_ = true
          · by_cases hd : p.duration_ - dt ≤ 0
            · right; right
              by_contra hn
              exact hc ⟨ha, hd, hn⟩
            · exact Or.inr (Or.inl (not_le.mp hd))
          · exact Or.inl (by simpa using ha)
    refine effectKept_trans type g _ _ hstep (ih _ _ ?_)
    rcases h with h | ⟨q, hq, hqa, hqt, hqd⟩
    · left
      rw [activeOfType_append]
      exact Or.inl h
    · rcases List.mem_cons.mp hq with rfl | hq
      · left
        rw [activeOfType_append]
        right
        exact ⟨_, List.mem_singleton.mpr rfl,
          (updateOne_fst_activated dt done q rest g).mpr ⟨hqa, hqd⟩,
          (updateOne_fst_type dt done q rest g).trans hqt⟩
      · exact Or.inr ⟨q, hq, hqa, hqt, hqd⟩

/-- When every activated entry of the type expires in this frame, and there is
at least one, the timer loop reverts the state of that type. -/
theorem updateLoop_cleared (dt : ℚ) (type : String) (todo : List PowerUp) :
    ∀ (done : List PowerUp) (g : Game),
      ¬ activeOfType type done →
      (∀ q ∈ todo, q.activated_ = true → q.type_ = type → q.duration_ - dt ≤ 0) →
      activeOfType type todo →
      effectCleared type (updateLoop dt done todo g).2 := by
  induction todo with
  | nil =>
    intro done g _ _ h
    obtain ⟨q, hq, _⟩ := h
    cases hq
  | cons p rest ih =>
    intro done g hdone hall hex
    simp only [updateLoop]
    have hdone1 : ¬ activeOfType type (done ++ [(updateOne dt done p rest g).1]) := by
      rw [activeOfType_append]
      rintro (h | ⟨q, hq, hqa, hqt⟩)
      · exact hdone h
      · rw [List.mem_singleton] at hq
        subst hq
        have ha := (updateOne_fst_activated dt done p rest g).mp hqa
        rw [updateOne_fst_type] at hqt
        exact absurd (hall p (List.mem_cons_self _ _) ha.1 hqt) (not_le.mpr ha.2)
    have hall1 : ∀ q ∈ rest, q.activated_ = true → q.type_ = type → q.duration_ - dt ≤ 0 :=
      fun q hq => hall q (List.mem_cons_of_mem _ hq)
    by_cases hrest : activeOfType type rest
    · exact ih _ _ hdone1 hall1 hrest
    · rcases (activeOfType_cons type p rest).mp hex with ⟨hpa, hpt⟩ | h
      · have hd := hall p (List.mem_cons_self _ _) hpa hpt
        have hno : ¬ activeOfType p.type_ (done ++ rest) := by
          rw [hpt, activeOfType_append]
          rintro (h | h)
          · exact hdone h
          · exact hrest h
        apply updateLoop_cleared_stays
        rw [updateOne_snd_clear dt done p rest g hpa hd hno, hpt]
        exact effectCleared_clearEffect type g
      · exact absurd h hrest

/-- C1: deactivation of a timed power-up in `UpdatePowerUps`.

Loop body: when an activated entry reaches a duration at most 0, it is
deactivated; if another entry of its type in the vector is activated at that
moment the state is left unchanged, and otherwise the state of its type is
reverted (sticky: `ball.sticky` false and paddle colour `(1,1,1)`;
pass-through: `ball.pass_through` false and ball colour `(1,1,1)`; confuse and
chaos: the flag false).

Whole call: if some activated entry of a type outlives the frame, the state of
that type is unchanged by `UpdatePowerUps`; if an activated entry of the type
expires and none outlives the frame, the state of that type is reverted. -/
theorem C1_overlapping_deactivation (dt : ℚ) :
    (∀ (done : List PowerUp) (p : PowerUp) (rest : List PowerUp) (g : Game),
      p.activated_ = true → p.duration_ - dt ≤ 0 →
      (updateOne dt done p rest g).1.activated_ = false ∧
      (activeOfType p.type_ (done ++ rest) → (updateOne dt done p rest g).2 = g) ∧
      (¬ activeOfType p.type_ (done ++ rest) →
        effectCleared p.type_ (updateOne dt done p rest g).2)) ∧
    (∀ (g : Game) (type : String),
      (∃ q ∈ g.power_ups_, q.activated_ = true ∧ q.type_ = type ∧ 0 < q.duration_ - dt) →
      effectKept type g (UpdatePowerUps dt g)) ∧
    (∀ (g : Game) (type : String),
      (∃ q ∈ g.power_ups_, q.activated_ = true ∧ q.type_ = type ∧ q.duration_ - dt ≤ 0) →
      (∀ q ∈ g.power_ups_, q.activated_ = true → q.type_ = type → q.duration_ - dt ≤ 0) →
      effectCleared type (UpdatePowerUps dt g)) := by
  refine ⟨?_, ?_, ?_⟩
  · intro done p rest g ha hd
    refine ⟨?_, fun h => ?_, fun h => ?_⟩
    · cases hb : (updateOne dt done p rest g).1.activated_ with
      | false => rfl
      | true =>
        exact absurd hd (not_le.mpr ((updateOne_fst_activated dt done p rest g).mp hb).2)
    · exact updateOne_snd_same dt done p rest g (Or.inr (Or.inr h))
    · rw [updateOne_snd_clear dt done p rest g ha hd h]
      exact effectCleared_clearEffect p.type_ g
  · intro g type h
    exact updateLoop_kept dt type g.power_ups_ [] g (Or.inr h)
  · intro g type hex hall
    have hnil : ¬ activeOfType type [] := by
      rintro ⟨q, hq, _⟩
      cases hq
    obtain ⟨q, hq, hqa, hqt, _⟩ := hex
    exact updateLoop_cleared dt type g.power_ups_ [] g hnil hall ⟨q, hq, hqa, hqt⟩

/-- Witness for C1 on `stickyGame` (two collected sticky entries with 1 and 5
seconds left): a frame of 2 seconds expires the first only and the ball stays
sticky with the paddle tinted; a frame of 6 seconds expires both and the ball
is no longer sticky and the paddle colour is `(1,1,1)`. -/
theorem C1_overlapping_deactivation_witness :
    ((UpdatePowerUps 2 stickyGame).ball.sticky_ = true ∧
      (UpdatePowerUps 2 stickyGame).paddle.color_ = ⟨1, 1 / 2, 1⟩) ∧
    ((UpdatePowerUps 6 stickyGame).ball.sticky_ = false ∧
      (UpdatePowerUps 6 stickyGame).paddle.color_ = white) :=
  ⟨((C1_overlapping_deactivation 2).2.1 stickyGame "sticky"
      ⟨samplePowerUp "sticky" 0 0 5 true true, by simp [stickyGame], rfl, rfl,
        by norm_num [samplePowerUp]⟩).1 rfl,
   ((C1_overlapping_deactivation 6).2.2 stickyGame "sticky"
      ⟨samplePowerUp "sticky" 0 0 1 true true, by simp [stickyGame], rfl, rfl,
        by norm_num [samplePowerUp]⟩
      (by
        intro q hq _ _
        simp only [stickyGame, List.mem_cons, List.mem_singleton, List.not_mem_nil,
          or_false] at hq
        rcases hq with rfl | rfl <;> norm_num [samplePowerUp])).1 rfl⟩

/-! ### Frame lemmas for the collision loops -/

/-- One spawn roll only appends to the collection and makes one `rand` call. -/
theorem spawnRoll_frame (E : Env) (chance : Nat) (type : String) (color : Vec3)
    (duration : ℚ) (block : GameObject) (g : Game) :
    spawnRoll E chance type color duration block g =
      { g with
        power_ups_ := (spawnRoll E chance type color duration block g).power_ups_
        rand_calls := g.rand_calls + 1 } := by
  unfold spawnRoll shouldSpawn
  simp only
  split_ifs <;> rfl

/-- The method `SpawnPowerUps` only touches the collection and makes six `rand` calls. -/
theorem SpawnPowerUps_frame (E : Env) (block : GameObject) (g : Game) :
    SpawnPowerUps E block g =
      { g with
        power_ups_ := (SpawnPowerUps E block g).power_ups_
        rand_calls := g.rand_calls + 6 } := by
  unfold SpawnPowerUps
  simp only
  rw [spawnRoll_frame E 15 "chaos", spawnRoll_frame E 15 "confuse",
    spawnRoll_frame E 75 "pad-size-increase", spawnRoll_frame E 75 "pass-through",
    spawnRoll_frame E 75 "sticky", spawnRoll_frame E 75 "speed"]

theorem brickFrame_refl (g : Game) : brickFrame g g := by
  simp [brickFrame]

theorem brickFrame_trans (g h k : Game) (h1 : brickFrame g h) (h2 : brickFrame h k) :
    brickFrame g k := by
  obtain ⟨a1, a2, a3, a4, a5, a6, a7, a8⟩ := h1
  obtain ⟨b1, b2, b3, b4, b5, b6, b7, b8⟩ := h2
  exact ⟨b1.trans a1, b2.trans a2, b3.trans a3, b4.trans a4, b5.trans a5, b6.trans a6,
    b7.trans a7, b8.trans a8⟩

theorem brickStep_frame (E : Env) (c : Circle) (box : GameObject) (g : Game) :
    brickFrame g (brickStep E c box g).2 := by
  unfold brickStep
  simp only
  split_ifs <;> first
    | exact brickFrame_refl g
    | (rw [SpawnPowerUps_frame]; simp [brickFrame])

theorem brickLoop_frame (E : Env) (c : Circle) (l : List GameObject) :
    ∀ g : Game, brickFrame g (brickLoop E c l g).2 := by
  induction l with
  | nil => intro g; exact brickFrame_refl g
  | cons box rest ih =>
    intro g
    simp only [brickLoop]
    exact brickFrame_trans _ _ _ (brickStep_frame E c box g) (ih _)

/-! ### Mutual exclusion of confuse and chaos (C3) -/

theorem exclusive_of_flags (g h : Game)
    (h1 : h.post_processor.confuse_ = g.post_processor.confuse_)
    (h2 : h.post_processor.chaos_ = g.post_processor.chaos_) (hg : exclusive g) :
    exclusive h := by
  unfold exclusive at *
  rw [h1, h2]
  exact hg

theorem ActivatePowerUp_exclusive (p : PowerUp) (g : Game) (hg : exclusive g) :
    exclusive (ActivatePowerUp p g) := by
  unfold exclusive ActivatePowerUp at *
  split_ifs <;> simp_all

theorem pickupStep_exclusive (E : Env) (r : Rect) (p : PowerUp) (g : Game)
    (hg : exclusive g) : exclusive (pickupStep E r p g).2 := by
  unfold pickupStep
  simp only
  split_ifs <;> first
    | exact hg
    | exact ActivatePowerUp_exclusive _ g hg

theorem pickupLoop_exclusive (E : Env) (r : Rect) (l : List PowerUp) :
    ∀ g : Game, exclusive g → exclusive (pickupLoop E r l g).2 := by
  induction l with
  | nil => intro g hg; exact hg
  | cons p rest ih =>
    intro g hg
    simp only [pickupLoop]
    exact ih _ (pickupStep_exclusive E r p g hg)

theorem brickPhase_frame (E : Env) (c : Circle) (g : Game) :
    (brickPhase E c g).post_processor.confuse_ = g.post_processor.confuse_ ∧
    (brickPhase E c g).post_processor.chaos_ = g.post_processor.chaos_ ∧
    (brickPhase E c g).paddle = g.paddle ∧
    (brickPhase E c g).height_ = g.height_ ∧
    (brickPhase E c g).width_ = g.width_ ∧
    (brickPhase E c g).level_ = g.level_ ∧
    (brickPhase E c g).state_ = g.state_ := by
  unfold brickPhase
  split
  · next lvl _ =>
    obtain ⟨a1, a2, a3, _, a5, a6, a7, a8⟩ := brickLoop_frame E c lvl.bricks_ g
    exact ⟨a7, a8, a6, a3, a2, a5, a1⟩
  · simp

theorem paddlePhase_frame (E : Env) (c : Circle) (r : Rect) (g : Game) :
    paddlePhase E c r g = { g with ball := (paddlePhase E c r g).ball } := by
  unfold paddlePhase paddleBounce
  simp only
  split_ifs <;> rfl

theorem DoCollisions_exclusive (E : Env) (g : Game) (hg : exclusive g) :
    exclusive (DoCollisions E g) := by
  unfold DoCollisions
  simp only
  rw [paddlePhase_frame]
  unfold pickupPhase
  simp only
  have h1 := brickPhase_frame E ⟨g.ball.position_, g.ball.radius_⟩ g
  have h2 : exclusive (brickPhase E ⟨g.ball.position_, g.ball.radius_⟩ g) :=
    exclusive_of_flags g _ h1.1 h1.2.1 hg
  exact pickupLoop_exclusive E _ _ _ h2

theorem clearEffect_exclusive (type : String) (g : Game) (hg : exclusive g) :
    exclusive (clearEffect type g) := by
  unfold exclusive clearEffect at *
  split_ifs <;> simp_all

theorem updateLoop_exclusive (dt : ℚ) (todo : List PowerUp) :
    ∀ (done : List PowerUp) (g : Game), exclusive g →
      exclusive (updateLoop dt done todo g).2 := by
  induction todo with
  | nil => intro done g hg; exact hg
  | cons p rest ih =>
    intro done g hg
    simp only [updateLoop]
    apply ih
    rcases updateOne_snd_cases dt done p rest g with h1 | h1
    · rw [h1]; exact hg
    · rw [h1]; exact clearEffect_exclusive _ g hg

theorem UpdatePowerUps_exclusive (dt : ℚ) (g : Game) (hg : exclusive g) :
    exclusive (UpdatePowerUps dt g) :=
  updateLoop_exclusive dt g.power_ups_ [] g hg

theorem Reset_exclusive (E : Env) (g : Game) : exclusive (Reset E g) := by
  simp [exclusive, Reset]

/-- A key press of `ProcessInput` changes only the paddle and the ball. -/
theorem pressLeft_frame (v : ℚ) (g : Game) :
    pressLeft v g = { g with paddle := (pressLeft v g).paddle, ball := (pressLeft v g).ball } := by
  unfold pressLeft
  simp only
  split_ifs <;> rfl

theorem pressRight_frame (v : ℚ) (g : Game) :
    pressRight v g =
      { g with paddle := (pressRight v g).paddle, ball := (pressRight v g).ball } := by
  unfold pressRight
  simp only
  split_ifs <;> rfl

theorem inputFrame_refl (g : Game) : inputFrame g g := by
  simp [inputFrame]

theorem inputFrame_trans (g h k : Game) (h1 : inputFrame g h) (h2 : inputFrame h k) :
    inputFrame g k := by
  obtain ⟨a1, a2, a3, a4, a5, a6, a7, a8, a9⟩ := h1
  obtain ⟨b1, b2, b3, b4, b5, b6, b7, b8, b9⟩ := h2
  exact ⟨b1.trans a1, b2.trans a2, b3.trans a3, b4.trans a4, b5.trans a5, b6.trans a6,
    b7.trans a7, b8.trans a8, b9.trans a9⟩

theorem pressLeft_inputFrame (v : ℚ) (g : Game) : inputFrame g (pressLeft v g) := by
  rw [pressLeft_frame]
  simp [inputFrame]

theorem pressRight_inputFrame (v : ℚ) (g : Game) : inputFrame g (pressRight v g) := by
  rw [pressRight_frame]
  simp [inputFrame]

/-- The method `ProcessInput` changes only the paddle and the ball. -/
theorem ProcessInput_frame (keys : Nat → Bool) (dt : ℚ) (g : Game) :
    inputFrame g (ProcessInput keys dt g) := by
  unfold ProcessInput
  simp only
  have hA : inputFrame g (if keys GLFW_KEY_A = true then pressLeft (kPaddleVelocity * dt) g else g) := by
    split_ifs
    · exact pressLeft_inputFrame _ g
    · exact inputFrame_refl g
  generalize (if keys GLFW_KEY_A = true then pressLeft (kPaddleVelocity * dt) g else g) = g1 at hA ⊢
  have hD : inputFrame g (if keys GLFW_KEY_D = true then pressRight (kPaddleVelocity * dt) g1 else g1) := by
    split_ifs
    · exact inputFrame_trans _ _ _ hA (pressRight_inputFrame _ g1)
    · exact hA
  generalize (if keys GLFW_KEY_D = true then pressRight (kPaddleVelocity * dt) g1 else g1) = g2 at hD ⊢
  split_ifs
  · exact inputFrame_trans _ _ _ hD (by simp [inputFrame])
  · exact hD
  · exact inputFrame_refl g

theorem ProcessInput_post (keys : Nat → Bool) (dt : ℚ) (g : Game) :
    (ProcessInput keys dt g).post_processor = g.post_processor :=
  (ProcessInput_frame keys dt g).2.2.2.2.2.2.1

theorem shakeTick_exclusive (dt : ℚ) (g : Game) (hg : exclusive g) :
    exclusive (shakeTick dt g) := by
  unfold shakeTick
  simp only
  split_ifs <;> exact hg

theorem lossCheck_exclusive (E : Env) (g : Game) (hg : exclusive g) :
    exclusive (lossCheck E g) := by
  unfold lossCheck
  split_ifs
  · exact Reset_exclusive E g
  · exact hg

theorem Update_exclusive (E : Env) (dt : ℚ) (g : Game) (hg : exclusive g) :
    exclusive (Update E dt g) := by
  unfold Update
  simp only
  apply shakeTick_exclusive
  apply lossCheck_exclusive
  apply UpdatePowerUps_exclusive
  apply DoCollisions_exclusive
  exact exclusive_of_flags g _ rfl rfl hg

theorem Step_apply_exclusive (E : Env) (s : Step) (g : Game) (hg : exclusive g) :
    exclusive (Step.apply E s g) := by
  cases s with
  | input keys dt =>
    exact exclusive_of_flags g _ (by rw [Step.apply, ProcessInput_post])
      (by rw [Step.apply, ProcessInput_post]) hg
  | move dt => exact exclusive_of_flags g _ rfl rfl hg
  | collide => exact DoCollisions_exclusive E g hg
  | powerUps dt => exact UpdatePowerUps_exclusive dt g hg
  | reset => exact Reset_exclusive E g
  | shake dt => exact shakeTick_exclusive dt g hg
  | update dt => exact Update_exclusive E dt g hg

theorem run_exclusive (E : Env) (steps : List Step) :
    ∀ g : Game, exclusive g → exclusive (run E steps g) := by
  induction steps with
  | nil => intro g hg; exact hg
  | cons s rest ih =>
    intro g hg
    exact ih _ (Step_apply_exclusive E s g hg)

/-- C3: from a state in which the confuse and chaos flags are both false, after
any sequence of `DoCollisions`, `UpdatePowerUps` and `Reset` steps (and also
`ProcessInput`, the ball move, the shake countdown and whole `Update` calls,
with any arguments) the confuse and chaos flags are not both true. -/
theorem C3_confuse_chaos_never_both (E : Env) (g : Game) (steps : List Step)
    (hconfuse : g.post_processor.confuse_ = false)
    (hchaos : g.post_processor.chaos_ = false) :
    ¬ ((run E steps g).post_processor.confuse_ = true ∧
       (run E steps g).post_processor.chaos_ = true) :=
  run_exclusive E steps g (by
    unfold exclusive
    rw [hconfuse, hchaos]
    simp)

/-- Witness for C3: a confuse and a chaos power-up are picked up in the same
`DoCollisions`, followed by a timer update and another collision pass. -/
theorem C3_confuse_chaos_never_both_witness :
    pickupGame.post_processor.confuse_ = false ∧
    pickupGame.post_processor.chaos_ = false ∧
    ¬ ((run sampleEnv [Step.collide, Step.powerUps 1, Step.collide]
          pickupGame).post_processor.confuse_ = true ∧
       (run sampleEnv [Step.collide, Step.powerUps 1, Step.collide]
          pickupGame).post_processor.chaos_ = true) :=
  ⟨rfl, rfl,
    C3_confuse_chaos_never_both sampleEnv pickupGame
      [Step.collide, Step.powerUps 1, Step.collide] rfl rfl⟩

/-! ### Paddle clamping (C4) -/

theorem pressLeft_paddle (v : ℚ) (g : Game) :
    (pressLeft v g).paddle.position_.x =
      (if g.paddle.position_.x - v < 0 then 0 else g.paddle.position_.x - v) ∧
    (pressLeft v g).paddle.size_ = g.paddle.size_ ∧
    (pressLeft v g).width_ = g.width_ := by
  unfold pressLeft
  simp only
  split_ifs <;> simp

theorem pressRight_paddle (v : ℚ) (g : Game) :
    (pressRight v g).paddle.position_.x =
      (if g.paddle.position_.x + v > (g.width_ : ℚ) - g.paddle.size_.x
        then (g.width_ : ℚ) - g.paddle.size_.x else g.paddle.position_.x + v) ∧
    (pressRight v g).paddle.size_ = g.paddle.size_ ∧
    (pressRight v g).width_ = g.width_ := by
  unfold pressRight
  simp only
  split_ifs <;> simp

/-- The paddle after `ProcessInput` in the active state, in terms of the two
key handlers. -/
theorem ProcessInput_paddle (keys : Nat → Bool) (dt : ℚ) (g : Game)
    (hs : g.state_ = GameState.KGameActive) :
    (ProcessInput keys dt g).paddle =
      (if keys GLFW_KEY_D = true then
        pressRight (kPaddleVelocity * dt)
          (if keys GLFW_KEY_A = true then pressLeft (kPaddleVelocity * dt) g else g)
       else (if keys GLFW_KEY_A = true then pressLeft (kPaddleVelocity * dt) g else g)).paddle := by
  unfold ProcessInput
  simp only [hs, if_true]
  split_ifs <;> rfl

/-- C4 (counterexample): the paddle is at `x = 700` on a screen 800 wide when a
pad-size-increase makes it 150 wide; with only the left key held for a frame
of 1/100 s, `ProcessInput` moves it to `x = 695`, beyond `800 - 150 = 650`. -/
theorem C4_paddle_clamp_counterexample :
    wideGame.state_ = GameState.KGameActive ∧
    leftOnly GLFW_KEY_A = true ∧
    (0 : ℚ) ≤ 1 / 100 ∧
    (ProcessInput leftOnly (1 / 100) wideGame).paddle.position_.x = 695 ∧
    (ProcessInput leftOnly (1 / 100) wideGame).paddle.size_.x = 150 ∧
    ¬ ((ProcessInput leftOnly (1 / 100) wideGame).paddle.position_.x ≤
        ((ProcessInput leftOnly (1 / 100) wideGame).width_ : ℚ) -
          (ProcessInput leftOnly (1 / 100) wideGame).paddle.size_.x) := by
  have hp := ProcessInput_paddle leftOnly (1 / 100) wideGame rfl
  have hw : (ProcessInput leftOnly (1 / 100) wideGame).width_ = 800 :=
    (ProcessInput_frame leftOnly (1 / 100) wideGame).2.1
  have hk : leftOnly GLFW_KEY_D = false := by decide
  have hk2 : leftOnly GLFW_KEY_A = true := by decide
  rw [hk, hk2] at hp
  simp only [if_true, Bool.false_eq_true, if_false] at hp
  have hx := (pressLeft_paddle (kPaddleVelocity * (1 / 100)) wideGame).1
  have hs := (pressLeft_paddle (kPaddleVelocity * (1 / 100)) wideGame).2.1
  have hx0 : wideGame.paddle.position_.x = 700 := by
    simp [wideGame, ActivatePowerUp, samplePowerUp, sampleGame]
  have hs0 : wideGame.paddle.size_.x = 150 := by
    simp [wideGame, ActivatePowerUp, samplePowerUp, sampleGame]
    norm_num
  rw [hx0] at hx
  rw [hw, hp, hs, hs0, hx]
  refine ⟨rfl, by decide, by norm_num, ?_, rfl, ?_⟩ <;> norm_num [kPaddleVelocity]

/-- C4 (amended): in the active state, for every key table and every `dt ≥ 0`,
`ProcessInput` keeps the paddle width, and
* a paddle that satisfies `0 ≤ x ≤ width - size.x` before still does after;
* whenever the right key is held, `x ≤ width - size.x` afterwards;
* whenever the left key is held and the right key is not, or the paddle is
  not wider than the screen, `0 ≤ x` afterwards. -/
theorem C4_paddle_clamp_amended (keys : Nat → Bool) (dt : ℚ) (g : Game)
    (hs : g.state_ = GameState.KGameActive) (hdt : 0 ≤ dt) :
    (ProcessInput keys dt g).paddle.size_ = g.paddle.size_ ∧
    (0 ≤ g.paddle.position_.x ∧ g.paddle.position_.x ≤ (g.width_ : ℚ) - g.paddle.size_.x →
      0 ≤ (ProcessInput keys dt g).paddle.position_.x ∧
      (ProcessInput keys dt g).paddle.position_.x ≤
        ((ProcessInput keys dt g).width_ : ℚ) - (ProcessInput keys dt g).paddle.size_.x) ∧
    (keys GLFW_KEY_D = true →
      (ProcessInput keys dt g).paddle.position_.x ≤
        ((ProcessInput keys dt g).width_ : ℚ) - (ProcessInput keys dt g).paddle.size_.x) ∧
    (keys GLFW_KEY_A = true →
      (keys GLFW_KEY_D = false ∨ g.paddle.size_.x ≤ (g.width_ : ℚ)) →
      0 ≤ (ProcessInput keys dt g).paddle.position_.x) := by
  have hw : (ProcessInput keys dt g).width_ = g.width_ := (ProcessInput_frame keys dt g).2.1
  have hv : 0 ≤ kPaddleVelocity * dt := by
    unfold kPaddleVelocity
    positivity
  rw [hw, ProcessInput_paddle keys dt g hs]
  generalize kPaddleVelocity * dt = v at hv
  obtain ⟨l1, l2, l3⟩ := pressLeft_paddle v g
  by_cases hD : keys GLFW_KEY_D = true <;> by_cases hA : keys GLFW_KEY_A = true
  · simp only [if_pos hD, if_pos hA]
    obtain ⟨r1, r2, r3⟩ := pressRight_paddle v (pressLeft v g)
    rw [r1, r2, l1, l2, l3]
    have hpos : 0 ≤ (if g.paddle.position_.x - v < 0 then 0 else g.paddle.position_.x - v) := by
      split_ifs with hc
      · exact le_refl _
      · exact not_lt.mp hc
    generalize (if g.paddle.position_.x - v < 0 then 0 else g.paddle.position_.x - v) = x1
      at hpos ⊢
    refine ⟨rfl, fun h => ?_, fun _ => ?_, fun _ h => ?_⟩
    · split_ifs with hc
      · exact ⟨by linarith [h.1, h.2], le_refl _⟩
      · exact ⟨by linarith, not_lt.mp hc⟩
    · split_ifs with hc
      · exact le_refl _
      · exact not_lt.mp hc
    · rcases h with h | h
      · rw [hD] at h
        cases h
      · split_ifs with hc
        · linarith
        · linarith
  · simp only [if_pos hD, if_neg hA]
    obtain ⟨r1, r2, r3⟩ := pressRight_paddle v g
    rw [r1, r2]
    refine ⟨rfl, fun h => ?_, fun _ => ?_, fun h => absurd h hA⟩
    · split_ifs with hc
      · exact ⟨by linarith [h.1, h.2], le_refl _⟩
      · exact ⟨by linarith [h.1], not_lt.mp hc⟩
    · split_ifs with hc
      · exact le_refl _
      · exact not_lt.mp hc
  · simp only [if_neg hD, if_pos hA]
    rw [l1, l2]
    refine ⟨rfl, fun h => ?_, fun h => absurd h hD, fun _ _ => ?_⟩
    · split_ifs with hc
      · exact ⟨le_refl _, by linarith [h.1, h.2]⟩
      · exact ⟨not_lt.mp hc, by linarith [h.2]⟩
    · split_ifs with hc
      · exact le_refl _
      · exact not_lt.mp hc
  · rw [if_neg hD, if_neg hA]
    exact ⟨rfl, fun h => h, fun h => absurd h hD, fun h => absurd h hA⟩

/-! ### The brick loop (C7, C8) -/

theorem SpawnPowerUps_rand (E : Env) (block : GameObject) (g : Game) :
    (SpawnPowerUps E block g).rand_calls = g.rand_calls + 6 := by
  rw [SpawnPowerUps_frame]

theorem SpawnPowerUps_fields (E : Env) (block : GameObject) (g : Game) :
    (SpawnPowerUps E block g).ball = g.ball ∧
    (SpawnPowerUps E block g).paddle = g.paddle ∧
    (SpawnPowerUps E block g).post_processor = g.post_processor ∧
    (SpawnPowerUps E block g).shake_time = g.shake_time ∧
    (SpawnPowerUps E block g).levels_ = g.levels_ := by
  rw [SpawnPowerUps_frame]
  exact ⟨rfl, rfl, rfl, rfl, rfl⟩

theorem brickStep_fst (E : Env) (c : Circle) (box : GameObject) (g : Game) :
    (brickStep E c box g).1 = brickAfter E c box := by
  unfold brickStep brickAfter brickBreaks brickHit
  simp only
  cases box.destroyed_ <;> cases (E.DetectCircleRect c ⟨box.position_, box.size_⟩).hit <;>
    cases box.is_solid_ <;> simp <;> split_ifs <;> rfl

/-- A brick that is destroyed on entry, or not hit, is skipped by the loop body. -/
theorem brickStep_skip (E : Env) (c : Circle) (box : GameObject) (g : Game)
    (h : brickHit E c box = false) : brickStep E c box g = (box, g) := by
  unfold brickHit at h
  unfold brickStep
  simp only
  cases hd : box.destroyed_
  · rw [hd] at h
    simp only [Bool.not_false, Bool.true_and] at h
    simp [h]
  · simp

theorem brickStep_rand (E : Env) (c : Circle) (box : GameObject) (g : Game) :
    (brickStep E c box g).2.rand_calls =
      g.rand_calls + (if brickBreaks E c box then 6 else 0) := by
  unfold brickStep brickBreaks brickHit
  simp only
  cases box.destroyed_ <;> cases (E.DetectCircleRect c ⟨box.position_, box.size_⟩).hit <;>
    cases box.is_solid_ <;> simp <;> split_ifs <;> simp [SpawnPowerUps_rand]

theorem brickLoop_fst (E : Env) (c : Circle) (l : List GameObject) :
    ∀ g : Game, (brickLoop E c l g).1 = l.map (brickAfter E c) := by
  induction l with
  | nil => intro g; rfl
  | cons box rest ih =>
    intro g
    simp only [brickLoop, List.map_cons, ih, brickStep_fst]

theorem brickLoop_rand (E : Env) (c : Circle) (l : List GameObject) :
    ∀ g : Game, (brickLoop E c l g).2.rand_calls =
      g.rand_calls + 6 * (l.filter (brickBreaks E c)).length := by
  induction l with
  | nil => intro g; rfl
  | cons box rest ih =>
    intro g
    simp only [brickLoop, ih, brickStep_rand, List.filter_cons]
    split_ifs <;> simp <;> try ring

/-- Destroying the bricks that break raises the count of destroyed bricks by
the number of bricks that break. -/
theorem destroyed_count_after (E : Env) (c : Circle) (l : List GameObject) :
    ((l.map (brickAfter E c)).filter (fun b => b.destroyed_)).length =
      (l.filter (fun b => b.destroyed_)).length + (l.filter (brickBreaks E c)).length := by
  induction l with
  | nil => rfl
  | cons box rest ih =>
    simp only [List.map_cons, List.filter_cons]
    by_cases hb : brickBreaks E c box = true
    · have hd : box.destroyed_ = false := by
        unfold brickBreaks brickHit at hb
        cases h : box.destroyed_
        · rfl
        · rw [h] at hb; simp at hb
      simp only [brickAfter, hb, hd, if_true, List.length_cons, ih]
      simp
      ring
    · simp only [brickAfter, hb, if_false, Bool.false_eq_true]
      split_ifs <;> simp [ih] <;> try ring

theorem brickPhase_levels (E : Env) (c : Circle) (g : Game) (li : Nat) :
    (brickPhase E c g).levels_[li]? =
      if li = g.level_ then
        (g.levels_[li]?).map (fun lvl => { lvl with bricks_ := lvl.bricks_.map (brickAfter E c) })
      else g.levels_[li]? := by
  unfold brickPhase
  split
  · next lvl hl =>
    simp only [brickLoop_fst]
    by_cases h : li = g.level_
    · subst h
      have hlt : g.level_ < g.levels_.length := by
        rcases List.getElem?_eq_some.mp hl with ⟨hlt, _⟩
        exact hlt
      simp [List.getElem?_set_self hlt, hl]
    · rw [if_neg h, List.getElem?_set_ne (fun h2 => h h2.symm)]
  · next hl =>
    by_cases h : li = g.level_
    · subst h
      simp [hl]
    · rw [if_neg h]

theorem brickPhase_brickAt (E : Env) (c : Circle) (g : Game) (li bi : Nat) :
    (brickPhase E c g).brickAt li bi =
      if li = g.level_ then (g.brickAt li bi).map (brickAfter E c) else g.brickAt li bi := by
  unfold Game.brickAt
  rw [brickPhase_levels]
  by_cases h : li = g.level_
  · simp only [h, if_true]
    cases g.levels_[g.level_]? <;> simp
  · simp only [h, if_false]

theorem brickPhase_currentBricks (E : Env) (c : Circle) (g : Game) :
    (brickPhase E c g).currentBricks = g.currentBricks.map (brickAfter E c) := by
  unfold Game.currentBricks
  rw [(brickPhase_frame E c g).2.2.2.2.2.1, brickPhase_levels]
  simp only [if_true]
  cases g.levels_[g.level_]? <;> simp

theorem brickPhase_rand (E : Env) (c : Circle) (g : Game) :
    (brickPhase E c g).rand_calls =
      g.rand_calls + 6 * (g.currentBricks.filter (brickBreaks E c)).length := by
  unfold brickPhase Game.currentBricks
  split
  · next lvl hl => simp [brickLoop_rand]
  · simp

theorem pickupFrame_refl (g : Game) : pickupFrame g g := by
  simp [pickupFrame]

theorem pickupFrame_trans (g h k : Game) (h1 : pickupFrame g h) (h2 : pickupFrame h k) :
    pickupFrame g k := by
  obtain ⟨a1, a2, a3, a4, a5, a6, a7, a8, a9⟩ := h1
  obtain ⟨b1, b2, b3, b4, b5, b6, b7, b8, b9⟩ := h2
  exact ⟨b1.trans a1, b2.trans a2, b3.trans a3, b4.trans a4, b5.trans a5, b6.trans a6,
    b7.trans a7, b8.trans a8, b9.trans a9⟩

theorem ActivatePowerUp_frame (p : PowerUp) (g : Game) : pickupFrame g (ActivatePowerUp p g) := by
  unfold ActivatePowerUp
  split_ifs <;> simp [pickupFrame]

theorem pickupStep_frame (E : Env) (r : Rect) (p : PowerUp) (g : Game) :
    pickupFrame g (pickupStep E r p g).2 := by
  unfold pickupStep
  simp only
  split_ifs <;> first
    | exact pickupFrame_refl g
    | exact ActivatePowerUp_frame _ g

theorem pickupLoop_frame (E : Env) (r : Rect) (l : List PowerUp) :
    ∀ g : Game, pickupFrame g (pickupLoop E r l g).2 := by
  induction l with
  | nil => intro g; exact pickupFrame_refl g
  | cons p rest ih =>
    intro g
    simp only [pickupLoop]
    exact pickupFrame_trans _ _ _ (pickupStep_frame E r p g) (ih _)

/-- The levels, the `rand` counter and the shake effect after `DoCollisions`
are those after its brick phase. -/
theorem DoCollisions_of_brickPhase (E : Env) (g : Game) :
    (DoCollisions E g).levels_ = (brickPhase E g.ballCircle g).levels_ ∧
    (DoCollisions E g).level_ = g.level_ ∧
    (DoCollisions E g).rand_calls = (brickPhase E g.ballCircle g).rand_calls ∧
    (DoCollisions E g).shake_time = (brickPhase E g.ballCircle g).shake_time ∧
    (DoCollisions E g).post_processor.shake_ =
      (brickPhase E g.ballCircle g).post_processor.shake_ := by
  unfold DoCollisions
  simp only
  rw [paddlePhase_frame]
  unfold pickupPhase
  simp only
  obtain ⟨_, _, _, a4, a5, _, a7, a8, a9⟩ :=
    pickupLoop_frame E ⟨(brickPhase E g.ballCircle g).paddle.position_,
      (brickPhase E g.ballCircle g).paddle.size_⟩ (brickPhase E g.ballCircle g).power_ups_
      (brickPhase E g.ballCircle g)
  exact ⟨a4, a5.trans (brickPhase_frame E _ g).2.2.2.2.2.1, a8, a7, a9⟩

theorem brickStep_shake (E : Env) (c : Circle) (box : GameObject) (g : Game) :
    (brickHit E c box = true → box.is_solid_ = true → shakeArmed (brickStep E c box g).2) ∧
    (shakeArmed g → shakeArmed (brickStep E c box g).2) := by
  unfold brickStep brickHit shakeArmed
  simp only
  cases box.destroyed_ <;> cases (E.DetectCircleRect c ⟨box.position_, box.size_⟩).hit <;>
    cases box.is_solid_ <;> simp <;> split_ifs <;>
    simp [(SpawnPowerUps_fields E _ g).2.2.1, (SpawnPowerUps_fields E _ g).2.2.2.1] <;>
    exact fun h1 h2 => ⟨h1, h2⟩

theorem brickLoop_shake_stays (E : Env) (c : Circle) (l : List GameObject) :
    ∀ g : Game, shakeArmed g → shakeArmed (brickLoop E c l g).2 := by
  induction l with
  | nil => intro g h; exact h
  | cons box rest ih =>
    intro g h
    simp only [brickLoop]
    exact ih _ ((brickStep_shake E c box g).2 h)

theorem brickLoop_shake (E : Env) (c : Circle) (l : List GameObject) :
    ∀ g : Game, (∃ b ∈ l, brickHit E c b = true ∧ b.is_solid_ = true) →
      shakeArmed (brickLoop E c l g).2 := by
  induction l with
  | nil =>
    rintro g ⟨b, hb, _⟩
    cases hb
  | cons box rest ih =>
    rintro g ⟨b, hb, hh, hs⟩
    simp only [brickLoop]
    rcases List.mem_cons.mp hb with rfl | hb
    · exact brickLoop_shake_stays E c rest _ ((brickStep_shake E c b g).1 hh hs)
    · exact ih _ ⟨b, hb, hh, hs⟩

theorem brickPhase_shake (E : Env) (c : Circle) (g : Game)
    (h : ∃ b ∈ g.currentBricks, brickHit E c b = true ∧ b.is_solid_ = true) :
    shakeArmed (brickPhase E c g) := by
  unfold Game.currentBricks at h
  unfold brickPhase
  split
  · next lvl hl =>
    rw [hl] at h
    exact brickLoop_shake E c lvl.bricks_ g h
  · next hl =>
    rw [hl] at h
    obtain ⟨b, hb, _⟩ := h
    cases hb

theorem DoCollisions_brickAt (E : Env) (g : Game) (li bi : Nat) :
    (DoCollisions E g).brickAt li bi =
      if li = g.level_ then (g.brickAt li bi).map (brickAfter E g.ballCircle)
      else g.brickAt li bi := by
  rw [← brickPhase_brickAt]
  unfold Game.brickAt
  rw [(DoCollisions_of_brickPhase E g).1]

theorem brickAfter_of_not_breaks (E : Env) (c : Circle) (b : GameObject)
    (h : b.is_solid_ = true ∨ b.destroyed_ = true) : brickAfter E c b = b := by
  unfold brickAfter brickBreaks brickHit
  rcases h with h | h <;> simp [h]

/-- C7: `DoCollisions` leaves every solid brick, of every level, exactly as it
was (so it never sets `destroyed` on one), and whenever the circle built from
the ball on entry is detected as colliding with a solid brick of the current
level that is not destroyed, the shake timer is exactly 0.05 and the shake flag
is true after `DoCollisions`. -/
theorem C7_solid_bricks (E : Env) (g : Game) :
    (∀ (li bi : Nat) (b : GameObject), g.brickAt li bi = some b → b.is_solid_ = true →
      (DoCollisions E g).brickAt li bi = some b) ∧
    (∀ b ∈ g.currentBricks, b.destroyed_ = false → b.is_solid_ = true →
      (E.DetectCircleRect ⟨g.ball.position_, g.ball.radius_⟩ ⟨b.position_, b.size_⟩).hit = true →
      (DoCollisions E g).shake_time = 1 / 20 ∧
      (DoCollisions E g).post_processor.shake_ = true) := by
  constructor
  · intro li bi b hb hs
    rw [DoCollisions_brickAt, hb]
    split_ifs
    · simp [brickAfter_of_not_breaks E g.ballCircle b (Or.inl hs)]
    · rfl
  · intro b hb hd hs hh
    obtain ⟨_, _, _, h4, h5⟩ := DoCollisions_of_brickPhase E g
    rw [h4, h5]
    apply brickPhase_shake
    refine ⟨b, hb, ?_, hs⟩
    unfold brickHit
    rw [hd]
    simpa [Game.ballCircle] using hh

/-- Witness for C7: in `solidHitGame` the ball touches the solid brick from
below; after `DoCollisions` the brick is unchanged and the shake is armed. -/
theorem C7_solid_bricks_witness :
    (DoCollisions sampleEnv solidHitGame).brickAt 0 0 = some (sampleBrick 0 0 true false) ∧
    (DoCollisions sampleEnv solidHitGame).shake_time = 1 / 20 ∧
    (DoCollisions sampleEnv solidHitGame).post_processor.shake_ = true :=
  ⟨(C7_solid_bricks sampleEnv solidHitGame).1 0 0 (sampleBrick 0 0 true false) rfl rfl,
   (C7_solid_bricks sampleEnv solidHitGame).2 (sampleBrick 0 0 true false)
     (by simp [Game.currentBricks, solidHitGame, sampleGame]) rfl rfl
     (by
       simp only [sampleEnv, Collision.DetectCircleRect, clampQ, sampleBrick, solidHitGame,
         sampleGame]
       norm_num)⟩

/-- Witness for C4 (amended) on the sample state (paddle at `x = 350`, 100
wide, screen 800 wide) with the left key held for 1/100 s. -/
theorem C4_paddle_clamp_amended_witness :
    0 ≤ (ProcessInput leftOnly (1 / 100) sampleGame).paddle.position_.x ∧
    (ProcessInput leftOnly (1 / 100) sampleGame).paddle.position_.x ≤
      ((ProcessInput leftOnly (1 / 100) sampleGame).width_ : ℚ) -
        (ProcessInput leftOnly (1 / 100) sampleGame).paddle.size_.x :=
  (C4_paddle_clamp_amended leftOnly (1 / 100) sampleGame rfl (by norm_num)).2.1
    ⟨by norm_num [sampleGame], by norm_num [sampleGame]⟩

theorem DoCollisions_currentBricks (E : Env) (g : Game) :
    (DoCollisions E g).currentBricks = g.currentBricks.map (brickAfter E g.ballCircle) := by
  rw [← brickPhase_currentBricks]
  unfold Game.currentBricks
  rw [(DoCollisions_of_brickPhase E g).1, (DoCollisions_of_brickPhase E g).2.1,
    (brickPhase_frame E g.ballCircle g).2.2.2.2.2.1]

theorem DoCollisions_rand (E : Env) (g : Game) :
    (DoCollisions E g).rand_calls =
      g.rand_calls + 6 * (g.currentBricks.filter (brickBreaks E g.ballCircle)).length := by
  rw [(DoCollisions_of_brickPhase E g).2.2.1, brickPhase_rand]

theorem bricksOnce_refl (g : Game) : bricksOnce g g :=
  ⟨rfl, fun _ _ b hb => ⟨b, hb, fun _ => rfl⟩, rfl⟩

theorem bricksOnce_trans (g h k : Game) (h1 : bricksOnce g h) (h2 : bricksOnce h k) :
    bricksOnce g k := by
  obtain ⟨a1, a2, a3⟩ := h1
  obtain ⟨b1, b2, b3⟩ := h2
  refine ⟨b1.trans a1, ?_, by omega⟩
  intro li bi b hb
  obtain ⟨c1, hc1, hc1d⟩ := a2 li bi b hb
  obtain ⟨c2, hc2, hc2d⟩ := b2 li bi c1 hc1
  refine ⟨c2, hc2, fun hd => ?_⟩
  have e1 := hc1d hd
  subst e1
  exact hc2d hd

/-- A step that leaves the levels, the level index and the `rand` counter alone. -/
theorem bricksOnce_of_same (g h : Game) (hl : h.levels_ = g.levels_) (hi : h.level_ = g.level_)
    (hr : h.rand_calls = g.rand_calls) : bricksOnce g h := by
  refine ⟨hi, ?_, ?_⟩
  · intro li bi b hb
    refine ⟨b, ?_, fun _ => rfl⟩
    unfold Game.brickAt at hb ⊢
    rw [hl]
    exact hb
  · unfold Game.destroyedCount Game.currentBricks
    rw [hl, hi, hr]

theorem DoCollisions_bricksOnce (E : Env) (g : Game) : bricksOnce g (DoCollisions E g) := by
  refine ⟨(DoCollisions_of_brickPhase E g).2.1, ?_, ?_⟩
  · intro li bi b hb
    rw [DoCollisions_brickAt, hb]
    split_ifs
    · exact ⟨brickAfter E g.ballCircle b, rfl,
        fun hd => brickAfter_of_not_breaks E g.ballCircle b (Or.inr hd)⟩
    · exact ⟨b, rfl, fun _ => rfl⟩
  · unfold Game.destroyedCount
    rw [DoCollisions_rand, DoCollisions_currentBricks, destroyed_count_after]
    ring

theorem clearEffect_same (type : String) (g : Game) :
    (clearEffect type g).levels_ = g.levels_ ∧ (clearEffect type g).level_ = g.level_ ∧
    (clearEffect type g).rand_calls = g.rand_calls := by
  unfold clearEffect
  split_ifs <;> exact ⟨rfl, rfl, rfl⟩

theorem updateLoop_same (dt : ℚ) (todo : List PowerUp) :
    ∀ (done : List PowerUp) (g : Game),
      (updateLoop dt done todo g).2.levels_ = g.levels_ ∧
      (updateLoop dt done todo g).2.level_ = g.level_ ∧
      (updateLoop dt done todo g).2.rand_calls = g.rand_calls := by
  induction todo with
  | nil => intro done g; exact ⟨rfl, rfl, rfl⟩
  | cons p rest ih =>
    intro done g
    simp only [updateLoop]
    obtain ⟨i1, i2, i3⟩ := ih (done ++ [(updateOne dt done p rest g).1]) (updateOne dt done p rest g).2
    rw [i1, i2, i3]
    rcases updateOne_snd_cases dt done p rest g with h1 | h1
    · rw [h1]; exact ⟨rfl, rfl, rfl⟩
    · rw [h1]; exact clearEffect_same _ g

theorem shakeTick_same (dt : ℚ) (g : Game) :
    (shakeTick dt g).levels_ = g.levels_ ∧ (shakeTick dt g).level_ = g.level_ ∧
    (shakeTick dt g).rand_calls = g.rand_calls := by
  unfold shakeTick
  simp only
  split_ifs <;> exact ⟨rfl, rfl, rfl⟩

theorem Step_apply_bricksOnce (E : Env) (s : Step) (g : Game) (hs : s.noReset = true) :
    bricksOnce g (Step.apply E s g) := by
  cases s with
  | input keys dt =>
    obtain ⟨_, _, _, a4, a5, _, _, _, a9⟩ := ProcessInput_frame keys dt g
    exact bricksOnce_of_same g _ a4 a5 a9
  | move dt => exact bricksOnce_of_same g _ rfl rfl rfl
  | collide => exact DoCollisions_bricksOnce E g
  | powerUps dt =>
    obtain ⟨a1, a2, a3⟩ := updateLoop_same dt g.power_ups_ [] g
    exact bricksOnce_of_same g _ a1 a2 a3
  | reset => cases hs
  | shake dt =>
    obtain ⟨a1, a2, a3⟩ := shakeTick_same dt g
    exact bricksOnce_of_same g _ a1 a2 a3
  | update dt => cases hs

theorem run_bricksOnce (E : Env) (steps : List Step) :
    ∀ g : Game, (∀ s ∈ steps, s.noReset = true) → bricksOnce g (run E steps g) := by
  induction steps with
  | nil => intro g _; exact bricksOnce_refl g
  | cons s rest ih =>
    intro g h
    exact bricksOnce_trans _ _ _
      (Step_apply_bricksOnce E s g (h s (List.mem_cons_self _ _)))
      (ih _ (fun t ht => h t (List.mem_cons_of_mem _ ht)))

/-- A frame whose loss check does not fire is a sequence of steps without `Reset`. -/
theorem Update_eq_run (E : Env) (dt : ℚ) (g : Game)
    (h : ¬ (UpdatePowerUps dt (DoCollisions E (moveBall E dt g))).ball.position_.y ≥
      ((UpdatePowerUps dt (DoCollisions E (moveBall E dt g))).height_ : ℚ)) :
    Update E dt g =
      run E [Step.move dt, Step.collide, Step.powerUps dt, Step.shake dt] g := by
  simp only [Update, run, Step.apply, lossCheck, if_neg h]

/-- C8: plain (non-solid) bricks are destroyed once.

* Loop body: for a brick that is not destroyed, not solid and detected as
  colliding, the body sets its destroyed flag and performs one spawn roll (the
  collection is the one `SpawnPowerUps` returns for that brick, six `rand`
  calls are made).
* Whole call: such a brick of the current level is destroyed after
  `DoCollisions` and otherwise unchanged.
* A brick that is destroyed on entry is skipped by the body, which changes
  neither the brick nor the state (no spawn roll, no shake, no change to the
  ball), and is unchanged by `DoCollisions`.
* One `DoCollisions` makes six `rand` calls for each brick that breaks and no
  others.
* Over any sequence of steps that cannot call `Reset` (input, ball move,
  `DoCollisions`, `UpdatePowerUps`, shake countdown) a destroyed brick stays
  as it is and the number of `rand` calls made is six times the number of
  bricks that became destroyed: at most one spawn roll per brick. -/
theorem C8_plain_bricks_once (E : Env) (g : Game) :
    (∀ (c : Circle) (b : GameObject) (h : Game),
      b.destroyed_ = false → b.is_solid_ = false →
      (E.DetectCircleRect c ⟨b.position_, b.size_⟩).hit = true →
      (brickStep E c b h).1 = { b with destroyed_ := true } ∧
      (brickStep E c b h).2.power_ups_ =
        (SpawnPowerUps E { b with destroyed_ := true } h).power_ups_ ∧
      (brickStep E c b h).2.rand_calls = h.rand_calls + 6) ∧
    (∀ (bi : Nat) (b : GameObject), g.brickAt g.level_ bi = some b →
      b.destroyed_ = false → b.is_solid_ = false →
      (E.DetectCircleRect ⟨g.ball.position_, g.ball.radius_⟩ ⟨b.position_, b.size_⟩).hit = true →
      (DoCollisions E g).brickAt g.level_ bi = some { b with destroyed_ := true }) ∧
    (∀ (c : Circle) (b : GameObject) (h : Game),
      b.destroyed_ = true → brickStep E c b h = (b, h)) ∧
    (∀ (li bi : Nat) (b : GameObject), g.brickAt li bi = some b → b.destroyed_ = true →
      (DoCollisions E g).brickAt li bi = some b) ∧
    (DoCollisions E g).rand_calls =
      g.rand_calls + 6 * (g.currentBricks.filter (fun b =>
        !b.destroyed_ &&
          (E.DetectCircleRect ⟨g.ball.position_, g.ball.radius_⟩ ⟨b.position_, b.size_⟩).hit &&
          !b.is_solid_)).length ∧
    (∀ steps : List Step, (∀ s ∈ steps, s.noReset = true) →
      bricksOnce g (run E steps g)) := by
  refine ⟨?_, ?_, ?_, ?_, ?_, ?_⟩
  · intro c b h hd hs hh
    have hb : brickBreaks E c b = true := by simp [brickBreaks, brickHit, hd, hs, hh]
    refine ⟨?_, ?_, ?_⟩
    · rw [brickStep_fst, brickAfter, if_pos hb]
    · unfold brickStep
      simp only [hd, hs, hh, Bool.not_false, if_true]
      split_ifs <;> rfl
    · rw [brickStep_rand, if_pos hb]
  · intro bi b hb hd hs hh
    have hbr : brickBreaks E g.ballCircle b = true := by
      simp only [brickBreaks, brickHit, hd, hs, Game.ballCircle, hh]
      rfl
    rw [DoCollisions_brickAt, hb, if_pos rfl]
    simp [brickAfter, hbr]
  · intro c b h hd
    exact brickStep_skip E c b h (by simp [brickHit, hd])
  · intro li bi b hb hd
    rw [DoCollisions_brickAt, hb]
    split_ifs
    · simp [brickAfter_of_not_breaks E g.ballCircle b (Or.inr hd)]
    · rfl
  · rw [DoCollisions_rand]
    rfl
  · intro steps hsteps
    exact run_bricksOnce E steps g hsteps

/-- Witness for C8: in `plainHitGame` the ball touches the plain brick (index 1
of level 0) from below; after `DoCollisions` that brick is destroyed, and a
second `DoCollisions` leaves it as it is. -/
theorem C8_plain_bricks_once_witness :
    (DoCollisions sampleEnv plainHitGame).brickAt 0 1 = some (sampleBrick 100 0 false true) ∧
    bricksOnce plainHitGame
      (run sampleEnv [Step.collide, Step.powerUps (1 / 60), Step.collide] plainHitGame) :=
  ⟨(C8_plain_bricks_once sampleEnv plainHitGame).2.1 1 (sampleBrick 100 0 false false)
      rfl rfl rfl
      (by
        simp only [sampleEnv, Collision.DetectCircleRect, clampQ, sampleBrick, plainHitGame,
          sampleGame]
        norm_num),
   (C8_plain_bricks_once sampleEnv plainHitGame).2.2.2.2.2
      [Step.collide, Step.powerUps (1 / 60), Step.collide]
      (by
        intro s hs
        simp only [List.mem_cons, List.mem_singleton, List.not_mem_nil, or_false] at hs
        rcases hs with rfl | rfl | rfl <;> rfl)⟩

/-! ### The power-up loop of `DoCollisions` (C5, C10) -/

theorem pickupStep_fst (E : Env) (r : Rect) (p : PowerUp) (g : Game) :
    (pickupStep E r p g).1 = pickupAfter E r g.height_ p := by
  unfold pickupStep pickupAfter
  simp only
  cases p.destroyed_ <;> simp <;> split_ifs <;> rfl

theorem pickupStep_snd (E : Env) (r : Rect) (p : PowerUp) (g : Game) :
    (pickupStep E r p g).2 = if pickupOverlap E r p then ActivatePowerUp p g else g := by
  unfold pickupStep pickupOverlap
  simp only
  cases p.destroyed_ <;> simp <;> split_ifs <;> rfl

theorem pickupLoop_fst (E : Env) (r : Rect) (l : List PowerUp) :
    ∀ g : Game, (pickupLoop E r l g).1 = l.map (pickupAfter E r g.height_) := by
  induction l with
  | nil => intro g; rfl
  | cons p rest ih =>
    intro g
    simp only [pickupLoop, List.map_cons, ih, pickupStep_fst,
      (pickupStep_frame E r p g).2.2.1]

theorem pickupLoop_snd (E : Env) (r : Rect) (l : List PowerUp) :
    ∀ g : Game, (pickupLoop E r l g).2 =
      (l.filter (pickupOverlap E r)).foldl (fun h p => ActivatePowerUp p h) g := by
  induction l with
  | nil => intro g; rfl
  | cons p rest ih =>
    intro g
    simp only [pickupLoop, ih, pickupStep_snd, List.filter_cons]
    split_ifs <;> rfl

theorem spawnRoll_power_ups (E : Env) (chance : Nat) (type : String) (color : Vec3)
    (duration : ℚ) (block : GameObject) (g : Game) :
    ∃ extra, (spawnRoll E chance type color duration block g).power_ups_ =
      g.power_ups_ ++ extra := by
  unfold spawnRoll shouldSpawn
  simp only
  split_ifs
  · exact ⟨_, rfl⟩
  · exact ⟨[], (List.append_nil _).symm⟩

theorem SpawnPowerUps_power_ups (E : Env) (block : GameObject) (g : Game) :
    ∃ extra, (SpawnPowerUps E block g).power_ups_ = g.power_ups_ ++ extra := by
  unfold SpawnPowerUps
  simp only
  obtain ⟨e1, h1⟩ := spawnRoll_power_ups E 75 "speed" ⟨1 / 2, 1 / 2, 1⟩ 0 block g
  generalize spawnRoll E 75 "speed" ⟨1 / 2, 1 / 2, 1⟩ 0 block g = g1 at h1 ⊢
  obtain ⟨e2, h2⟩ := spawnRoll_power_ups E 75 "sticky" ⟨1, 1 / 2, 1⟩ 20 block g1
  generalize spawnRoll E 75 "sticky" ⟨1, 1 / 2, 1⟩ 20 block g1 = g2 at h2 ⊢
  obtain ⟨e3, h3⟩ := spawnRoll_power_ups E 75 "pass-through" ⟨1 / 2, 1, 1 / 2⟩ 10 block g2
  generalize spawnRoll E 75 "pass-through" ⟨1 / 2, 1, 1 / 2⟩ 10 block g2 = g3 at h3 ⊢
  obtain ⟨e4, h4⟩ := spawnRoll_power_ups E 75 "pad-size-increase" ⟨1, 3 / 5, 2 / 5⟩ 0 block g3
  generalize spawnRoll E 75 "pad-size-increase" ⟨1, 3 / 5, 2 / 5⟩ 0 block g3 = g4 at h4 ⊢
  obtain ⟨e5, h5⟩ := spawnRoll_power_ups E 15 "confuse" ⟨1, 3 / 10, 3 / 10⟩ 15 block g4
  generalize spawnRoll E 15 "confuse" ⟨1, 3 / 10, 3 / 10⟩ 15 block g4 = g5 at h5 ⊢
  obtain ⟨e6, h6⟩ := spawnRoll_power_ups E 15 "chaos" ⟨9 / 10, 1 / 4, 1 / 4⟩ 15 block g5
  refine ⟨e1 ++ e2 ++ e3 ++ e4 ++ e5 ++ e6, ?_⟩
  rw [h6, h5, h4, h3, h2, h1]
  simp only [List.append_assoc]

/-- The loop body for one brick only appends to the collection, and leaves it
alone when the brick does not break. -/
theorem brickStep_power_ups (E : Env) (c : Circle) (box : GameObject) (g : Game) :
    (∃ extra, (brickStep E c box g).2.power_ups_ = g.power_ups_ ++ extra) ∧
    (brickBreaks E c box = false → (brickStep E c box g).2.power_ups_ = g.power_ups_) := by
  by_cases hh : brickHit E c box = true
  swap
  · have hh : brickHit E c box = false := by simpa using hh
    rw [brickStep_skip E c box g hh]
    exact ⟨⟨[], (List.append_nil _).symm⟩, fun _ => rfl⟩
  have hd : box.destroyed_ = false := by
    unfold brickHit at hh
    cases h : box.destroyed_
    · rfl
    · rw [h] at hh; simp at hh
  have hit : (E.DetectCircleRect c ⟨box.position_, box.size_⟩).hit = true := by
    unfold brickHit at hh
    rw [hd] at hh
    simpa using hh
  cases hs : box.is_solid_
  · have h1 : (brickStep E c box g).2.power_ups_ =
        (SpawnPowerUps E { box with destroyed_ := true } g).power_ups_ := by
      unfold brickStep
      simp only [hd, hs, hit, Bool.not_false, if_true]
      split_ifs <;> rfl
    rw [h1]
    refine ⟨SpawnPowerUps_power_ups E _ g, fun hb => ?_⟩
    simp [brickBreaks, hh, hs] at hb
  · have h1 : (brickStep E c box g).2.power_ups_ = g.power_ups_ := by
      unfold brickStep
      simp only [hd, hs, hit, Bool.not_false, Bool.not_true, if_true, Bool.false_eq_true,
        if_false]
      split_ifs <;> rfl
    rw [h1]
    exact ⟨⟨[], (List.append_nil _).symm⟩, fun _ => rfl⟩

theorem brickLoop_power_ups (E : Env) (c : Circle) (l : List GameObject) :
    ∀ g : Game, (∃ extra, (brickLoop E c l g).2.power_ups_ = g.power_ups_ ++ extra) ∧
      ((∀ b ∈ l, brickBreaks E c b = false) →
        (brickLoop E c l g).2.power_ups_ = g.power_ups_) := by
  induction l with
  | nil => intro g; exact ⟨⟨[], (List.append_nil _).symm⟩, fun _ => rfl⟩
  | cons box rest ih =>
    intro g
    simp only [brickLoop]
    obtain ⟨⟨e1, h1⟩, h1n⟩ := brickStep_power_ups E c box g
    obtain ⟨⟨e2, h2⟩, h2n⟩ := ih (brickStep E c box g).2
    constructor
    · exact ⟨e1 ++ e2, by rw [h2, h1, List.append_assoc]⟩
    · intro h
      rw [h2n (fun b hb => h b (List.mem_cons_of_mem _ hb)), h1n (h box (List.mem_cons_self _ _))]

theorem brickPhase_power_ups (E : Env) (c : Circle) (g : Game) :
    (∃ extra, (brickPhase E c g).power_ups_ = g.power_ups_ ++ extra) ∧
    ((∀ b ∈ g.currentBricks, brickBreaks E c b = false) →
      (brickPhase E c g).power_ups_ = g.power_ups_) := by
  unfold brickPhase Game.currentBricks
  split
  · next lvl hl => exact brickLoop_power_ups E c lvl.bricks_ g
  · exact ⟨⟨[], (List.append_nil _).symm⟩, fun _ => rfl⟩

/-- The method `DoCollisions` in terms of its three phases, with the power-up
phase written as the fold of `ActivatePowerUp` over the entries picked up. -/
theorem DoCollisions_eq (E : Env) (g : Game) :
    DoCollisions E g =
      paddlePhase E g.ballCircle g.paddleRect
        { (((brickPhase E g.ballCircle g).power_ups_.filter
              (pickupOverlap E g.paddleRect)).foldl
            (fun h p => ActivatePowerUp p h) (brickPhase E g.ballCircle g)) with
          power_ups_ := (brickPhase E g.ballCircle g).power_ups_.map
            (pickupAfter E g.paddleRect g.height_) } := by
  unfold DoCollisions pickupPhase
  simp only
  rw [pickupLoop_fst, pickupLoop_snd, (brickPhase_frame E _ g).2.2.1,
    (brickPhase_frame E _ g).2.2.2.1]
  rfl

theorem DoCollisions_power_ups (E : Env) (g : Game) :
    (DoCollisions E g).power_ups_ =
      (brickPhase E g.ballCircle g).power_ups_.map (pickupAfter E g.paddleRect g.height_) := by
  rw [DoCollisions_eq, paddlePhase_frame]

/-- C10: paddle pickup in `DoCollisions`.

* Loop body: for a power-up that is not destroyed and whose rectangle overlaps
  the paddle rectangle by `Collision::Detect`, the body applies
  `ActivatePowerUp` for it and leaves it destroyed and activated; for a
  power-up that is destroyed on entry the body changes neither the entry nor
  the state.
* Whole call, entries: an entry of the collection on entry that is not
  destroyed and overlaps the paddle rectangle is destroyed and activated after
  `DoCollisions`; an entry that is destroyed on entry is unchanged (in
  particular not re-activated).
* Whole call, effects: the state after the power-up phase is the result of
  applying `ActivatePowerUp`, in the order of the collection, once for each
  entry that is not destroyed and overlaps the paddle rectangle, and for no
  other entry. -/
theorem C10_paddle_pickup (E : Env) (g : Game) :
    (∀ (r : Rect) (p : PowerUp) (h : Game), p.destroyed_ = false →
      E.DetectRectRect r ⟨p.position_, p.size_⟩ = true →
      pickupStep E r p h =
        ({ p with destroyed_ := true, activated_ := true }, ActivatePowerUp p h)) ∧
    (∀ (r : Rect) (p : PowerUp) (h : Game), p.destroyed_ = true →
      pickupStep E r p h = (p, h)) ∧
    (∀ (i : Nat) (p : PowerUp), g.power_ups_[i]? = some p →
      (p.destroyed_ = false →
        E.DetectRectRect ⟨g.paddle.position_, g.paddle.size_⟩ ⟨p.position_, p.size_⟩ = true →
        (DoCollisions E g).power_ups_[i]? =
          some { p with destroyed_ := true, activated_ := true }) ∧
      (p.destroyed_ = true → (DoCollisions E g).power_ups_[i]? = some p)) ∧
    DoCollisions E g =
      paddlePhase E ⟨g.ball.position_, g.ball.radius_⟩ ⟨g.paddle.position_, g.paddle.size_⟩
        { (((brickPhase E ⟨g.ball.position_, g.ball.radius_⟩ g).power_ups_.filter
              (fun p => !p.destroyed_ &&
                E.DetectRectRect ⟨g.paddle.position_, g.paddle.size_⟩
                  ⟨p.position_, p.size_⟩)).foldl
            (fun h p => ActivatePowerUp p h) (brickPhase E ⟨g.ball.position_, g.ball.radius_⟩ g))
          with
          power_ups_ := (brickPhase E ⟨g.ball.position_, g.ball.radius_⟩ g).power_ups_.map
            (pickupAfter E ⟨g.paddle.position_, g.paddle.size_⟩ g.height_) } := by
  refine ⟨?_, ?_, ?_, DoCollisions_eq E g⟩
  · intro r p h hd ho
    have h1 := pickupStep_fst E r p h
    have h2 := pickupStep_snd E r p h
    rw [pickupAfter, hd, ho] at h1
    rw [pickupOverlap, hd, ho] at h2
    exact Prod.ext h1 h2
  · intro r p h hd
    have h1 := pickupStep_fst E r p h
    have h2 := pickupStep_snd E r p h
    rw [pickupAfter, hd] at h1
    rw [pickupOverlap, hd] at h2
    exact Prod.ext h1 h2
  · intro i p hp
    obtain ⟨extra, hx⟩ := (brickPhase_power_ups E g.ballCircle g).1
    have hi : i < g.power_ups_.length := by
      rcases List.getElem?_eq_some.mp hp with ⟨hi, _⟩
      exact hi
    have hget : (DoCollisions E g).power_ups_[i]? =
        some (pickupAfter E g.paddleRect g.height_ p) := by
      rw [DoCollisions_power_ups, hx, List.getElem?_map, List.getElem?_append_left hi, hp]
      rfl
    constructor
    · intro hd ho
      rw [hget, pickupAfter, hd]
      have ho2 : E.DetectRectRect g.paddleRect ⟨p.position_, p.size_⟩ = true := ho
      rw [ho2]
      rfl
    · intro hd
      rw [hget, pickupAfter, hd]
      rfl

/-- Witness for C10: in `pickupGame` a confuse power-up lies on the paddle; after
`DoCollisions` it is destroyed and activated. -/
theorem C10_paddle_pickup_witness :
    (DoCollisions sampleEnv pickupGame).power_ups_[0]? =
      some (samplePowerUp "confuse" 360 575 15 true true) :=
  ((C10_paddle_pickup sampleEnv pickupGame).2.2.1 0
      (samplePowerUp "confuse" 360 575 15 false false) rfl).1 rfl
    (by
      simp only [sampleEnv, Collision.DetectRectRect, samplePowerUp, pickupGame, sampleGame]
      norm_num)

/-- In the sample state and the states built from it with the ball at rest on
the paddle, no brick is hit. -/
theorem sample_no_break :
    ∀ b ∈ sampleGame.currentBricks, brickBreaks sampleEnv sampleGame.ballCircle b = false := by
  intro b hb
  simp only [Game.currentBricks, sampleGame, List.getElem?_cons_zero, List.mem_cons,
    List.mem_singleton, List.not_mem_nil, or_false] at hb
  rcases hb with rfl | rfl
  · simp only [brickBreaks, brickHit, sampleEnv, Collision.DetectCircleRect, clampQ,
      sampleBrick, Game.ballCircle, sampleGame]
    norm_num
  · simp only [brickBreaks, brickHit, sampleEnv, Collision.DetectCircleRect, clampQ,
      sampleBrick, Game.ballCircle, sampleGame]
    norm_num

/-- C5 (the code at the failing inputs): the off-screen test of `DoCollisions`
reads `position_.x`, not `position_.y`.  On the 800 by 600 screen a power-up at
`(100, 700)`, below the playfield, is not marked destroyed; and a power-up at
`(700, 100)`, inside the playfield and away from the paddle, is. -/
theorem C5_offscreen_test_reads_x :
    (DoCollisions sampleEnv belowGame).power_ups_ =
      [samplePowerUp "speed" 100 700 0 false false] ∧
    (DoCollisions sampleEnv insideGame).power_ups_ =
      [samplePowerUp "speed" 700 100 0 true false] := by
  constructor
  · rw [DoCollisions_power_ups,
      (brickPhase_power_ups sampleEnv belowGame.ballCircle belowGame).2 sample_no_break]
    simp only [belowGame, List.map_cons, List.map_nil, pickupAfter, samplePowerUp, sampleEnv,
      Collision.DetectRectRect, Game.paddleRect, sampleGame]
    norm_num
  · rw [DoCollisions_power_ups,
      (brickPhase_power_ups sampleEnv insideGame.ballCircle insideGame).2 sample_no_break]
    simp only [insideGame, List.map_cons, List.map_nil, pickupAfter, samplePowerUp, sampleEnv,
      Collision.DetectRectRect, Game.paddleRect, sampleGame]
    norm_num

/-! ### Loss and reset (C6) -/

theorem resetLevels_getElem? (E : Env) (levels : List GameLevel) :
    ∀ (level i : Nat), (resetLevels E level levels)[i]? =
      (levels[i]?).map (fun l => if i ≤ level then E.LevelReset l else l) := by
  induction levels with
  | nil => intro level i; simp [resetLevels]
  | cons l ls ih =>
    intro level i
    cases level with
    | zero =>
      cases i with
      | zero => simp [resetLevels]
      | succ j => simp [resetLevels]
    | succ n =>
      cases i with
      | zero => simp [resetLevels]
      | succ j => simp [resetLevels, ih]

theorem clearEffect_dims (type : String) (g : Game) :
    (clearEffect type g).width_ = g.width_ ∧ (clearEffect type g).height_ = g.height_ := by
  unfold clearEffect
  split_ifs <;> exact ⟨rfl, rfl⟩

theorem updateLoop_dims (dt : ℚ) (todo : List PowerUp) :
    ∀ (done : List PowerUp) (g : Game),
      (updateLoop dt done todo g).2.width_ = g.width_ ∧
      (updateLoop dt done todo g).2.height_ = g.height_ := by
  induction todo with
  | nil => intro done g; exact ⟨rfl, rfl⟩
  | cons p rest ih =>
    intro done g
    simp only [updateLoop]
    obtain ⟨i1, i2⟩ := ih (done ++ [(updateOne dt done p rest g).1]) (updateOne dt done p rest g).2
    rw [i1, i2]
    rcases updateOne_snd_cases dt done p rest g with h1 | h1
    · rw [h1]; exact ⟨rfl, rfl⟩
    · rw [h1]; exact clearEffect_dims _ g

theorem DoCollisions_dims (E : Env) (g : Game) :
    (DoCollisions E g).width_ = g.width_ ∧ (DoCollisions E g).height_ = g.height_ := by
  unfold DoCollisions
  simp only
  rw [paddlePhase_frame]
  unfold pickupPhase
  simp only
  obtain ⟨_, a2, a3, _⟩ :=
    pickupLoop_frame E ⟨(brickPhase E ⟨g.ball.position_, g.ball.radius_⟩ g).paddle.position_,
      (brickPhase E ⟨g.ball.position_, g.ball.radius_⟩ g).paddle.size_⟩
      (brickPhase E ⟨g.ball.position_, g.ball.radius_⟩ g).power_ups_
      (brickPhase E ⟨g.ball.position_, g.ball.radius_⟩ g)
  obtain ⟨_, _, _, b4, b5, _⟩ := brickPhase_frame E ⟨g.ball.position_, g.ball.radius_⟩ g
  exact ⟨a2.trans b5, a3.trans b4⟩

/-- The screen size is the same before the loss check of `Update` as on entry. -/
theorem beforeLossCheck_dims (E : Env) (dt : ℚ) (g : Game) :
    (UpdatePowerUps dt (DoCollisions E (moveBall E dt g))).width_ = g.width_ ∧
    (UpdatePowerUps dt (DoCollisions E (moveBall E dt g))).height_ = g.height_ := by
  obtain ⟨a1, a2⟩ := updateLoop_dims dt (DoCollisions E (moveBall E dt g)).power_ups_ []
    (DoCollisions E (moveBall E dt g))
  obtain ⟨b1, b2⟩ := DoCollisions_dims E (moveBall E dt g)
  exact ⟨a1.trans b1, a2.trans b2⟩

/-- The shake countdown changes only the shake timer and the shake flag. -/
theorem shakeTick_fields (dt : ℚ) (g : Game) :
    (shakeTick dt g).power_ups_ = g.power_ups_ ∧ (shakeTick dt g).paddle = g.paddle ∧
    (shakeTick dt g).ball = g.ball ∧ (shakeTick dt g).levels_ = g.levels_ ∧
    (shakeTick dt g).post_processor.confuse_ = g.post_processor.confuse_ ∧
    (shakeTick dt g).post_processor.chaos_ = g.post_processor.chaos_ := by
  unfold shakeTick
  simp only
  split_ifs <;> exact ⟨rfl, rfl, rfl, rfl, rfl, rfl⟩

/-- C6: let `g3` be the state after the ball move, `DoCollisions` and
`UpdatePowerUps` of `Update`.

If `g3.ball.position.y >= height`, then at the end of `Update` the power-up
collection is empty, the paddle has size `(100, 20)`, position
`(width / 2 - 50, height - 20)` (with `width / 2` the unsigned division of the
source) and colour `(1,1,1)`, the confuse and chaos flags are false, every
level of index at most the current level is the `GameLevel::Reset` of what it
was and the others are unchanged, and the ball is `BallObject::Reset` applied
with the point `paddle.position + (100/2 - 12.5, -25)` and the velocity
`(100, -350)`; so, as soon as `BallObject::Reset` stores the position and the
velocity it is given, the ball is at that point with that velocity.

If `g3.ball.position.y < height`, `Update` performs no `Reset`: its result is
`g3` after the shake countdown. -/
theorem C6_loss_triggers_reset (E : Env) (dt : ℚ) (g : Game) :
    (((UpdatePowerUps dt (DoCollisions E (moveBall E dt g))).ball.position_.y ≥ (g.height_ : ℚ)) →
      (Update E dt g).power_ups_ = [] ∧
      (Update E dt g).paddle.size_ = ⟨100, 20⟩ ∧
      (Update E dt g).paddle.position_ = ⟨((g.width_ / 2 : Nat) : ℚ) - 50, (g.height_ : ℚ) - 20⟩ ∧
      (Update E dt g).paddle.color_ = ⟨1, 1, 1⟩ ∧
      (Update E dt g).post_processor.confuse_ = false ∧
      (Update E dt g).post_processor.chaos_ = false ∧
      (∀ i : Nat, (Update E dt g).levels_[i]? =
        ((UpdatePowerUps dt (DoCollisions E (moveBall E dt g))).levels_[i]?).map
          (fun l =>
            if i ≤ (UpdatePowerUps dt (DoCollisions E (moveBall E dt g))).level_
            then E.LevelReset l else l)) ∧
      (Update E dt g).ball =
        E.BallReset (UpdatePowerUps dt (DoCollisions E (moveBall E dt g))).ball
          ⟨(Update E dt g).paddle.position_.x + (100 / 2 - 25 / 2),
           (Update E dt g).paddle.position_.y + -25⟩ ⟨100, -350⟩ ∧
      ((∀ (b : BallObject) (p v : Vec2),
          (E.BallReset b p v).position_ = p ∧ (E.BallReset b p v).velocity_ = v) →
        (Update E dt g).ball.position_ =
          ⟨((g.width_ / 2 : Nat) : ℚ) - 50 + (100 / 2 - 25 / 2), (g.height_ : ℚ) - 20 + -25⟩ ∧
        (Update E dt g).ball.velocity_ = ⟨100, -350⟩)) ∧
    ((UpdatePowerUps dt (DoCollisions E (moveBall E dt g))).ball.position_.y < (g.height_ : ℚ) →
      Update E dt g = shakeTick dt (UpdatePowerUps dt (DoCollisions E (moveBall E dt g)))) := by
  obtain ⟨hw, hh⟩ := beforeLossCheck_dims E dt g
  constructor
  · intro hy
    have hu : Update E dt g =
        shakeTick dt (Reset E (UpdatePowerUps dt (DoCollisions E (moveBall E dt g)))) := by
      simp only [Update, lossCheck]
      rw [if_pos (by rw [hh]; exact hy)]
    obtain ⟨s1, s2, s3, s4, s5, s6⟩ :=
      shakeTick_fields dt (Reset E (UpdatePowerUps dt (DoCollisions E (moveBall E dt g))))
    have hball : (Update E dt g).ball =
        E.BallReset (UpdatePowerUps dt (DoCollisions E (moveBall E dt g))).ball
          ⟨(Update E dt g).paddle.position_.x + (100 / 2 - 25 / 2),
           (Update E dt g).paddle.position_.y + -25⟩ ⟨100, -350⟩ := by
      rw [hu, s3, s2]
      simp only [Reset, Vec2.add, ballOffset, kPaddleSize, kBallRadius, kBallVelocity]
      norm_num
    have hpos : (Update E dt g).paddle.position_ =
        ⟨((g.width_ / 2 : Nat) : ℚ) - 50, (g.height_ : ℚ) - 20⟩ := by
      rw [hu, s2]
      simp only [Reset, kPaddleSize, hw, hh]
      norm_num
    refine ⟨?_, ?_, hpos, ?_, ?_, ?_, ?_, hball, ?_⟩
    · rw [hu, s1]; rfl
    · rw [hu, s2]; rfl
    · rw [hu, s2]; rfl
    · rw [hu, s5]; rfl
    · rw [hu, s6]; rfl
    · intro i
      rw [hu, s4]
      exact resetLevels_getElem? E _ _ i
    · intro hreset
      rw [hball, hpos]
      exact hreset _ _ _
  · intro hy
    simp only [Update, lossCheck]
    rw [if_neg (by rw [hh]; exact not_le.mpr hy)]

theorem brickLoop_skip_all (E : Env) (c : Circle) (l : List GameObject) :
    ∀ g : Game, (∀ b ∈ l, brickHit E c b = false) → brickLoop E c l g = (l, g) := by
  induction l with
  | nil => intro g _; rfl
  | cons box rest ih =>
    intro g h
    simp only [brickLoop, brickStep_skip E c box g (h box (List.mem_cons_self _ _)),
      ih g (fun b hb => h b (List.mem_cons_of_mem _ hb))]

theorem brickPhase_idle (E : Env) (c : Circle) (g : Game)
    (h : ∀ b ∈ g.currentBricks, brickHit E c b = false) :
    (brickPhase E c g).ball = g.ball ∧ (brickPhase E c g).power_ups_ = g.power_ups_ := by
  unfold Game.currentBricks at h
  unfold brickPhase
  split
  · next lvl hl =>
    rw [hl] at h
    have e := brickLoop_skip_all E c lvl.bricks_ g h
    constructor <;> simp [e]
  · exact ⟨rfl, rfl⟩

/-- With no brick hit, no power-up left to collect and the ball stuck,
`DoCollisions` leaves the ball alone. -/
theorem DoCollisions_ball_idle (E : Env) (g : Game)
    (hb : ∀ b ∈ g.currentBricks, brickHit E g.ballCircle b = false)
    (hp : ∀ p ∈ g.power_ups_, p.destroyed_ = true) (hs : g.ball.stuck_ = true) :
    (DoCollisions E g).ball = g.ball := by
  obtain ⟨h1, h2⟩ := brickPhase_idle E g.ballCircle g hb
  have hf : (brickPhase E g.ballCircle g).power_ups_.filter (pickupOverlap E g.paddleRect) = [] := by
    rw [h2, List.filter_eq_nil_iff]
    intro p hpm
    simp [pickupOverlap, hp p hpm]
  rw [DoCollisions_eq, hf]
  simp only [List.foldl_nil, paddlePhase, h1, hs, Bool.not_true, Bool.false_and,
    Bool.false_eq_true, if_false]

theorem clearEffect_ball_position (type : String) (g : Game) :
    (clearEffect type g).ball.position_ = g.ball.position_ := by
  unfold clearEffect
  split_ifs <;> rfl

theorem updateLoop_ball_position (dt : ℚ) (todo : List PowerUp) :
    ∀ (done : List PowerUp) (g : Game),
      (updateLoop dt done todo g).2.ball.position_ = g.ball.position_ := by
  induction todo with
  | nil => intro done g; rfl
  | cons p rest ih =>
    intro done g
    simp only [updateLoop]
    rw [ih]
    rcases updateOne_snd_cases dt done p rest g with h1 | h1
    · rw [h1]
    · rw [h1]; exact clearEffect_ball_position _ g

/-- The method `UpdatePowerUps` does not move the ball. -/
theorem UpdatePowerUps_ball_position (dt : ℚ) (g : Game) :
    (UpdatePowerUps dt g).ball.position_ = g.ball.position_ :=
  updateLoop_ball_position dt g.power_ups_ [] g

/-- In `lostGame` the ball is still below the bottom edge when `Update`
reaches its loss check. -/
theorem lostGame_below :
    (UpdatePowerUps (1 / 60) (DoCollisions sampleEnv
      (moveBall sampleEnv (1 / 60) lostGame))).ball.position_.y ≥ (lostGame.height_ : ℚ) := by
  have hm : moveBall sampleEnv (1 / 60) lostGame = lostGame := by
    simp [moveBall, sampleEnv, lostGame, sampleGame]
  rw [hm, UpdatePowerUps_ball_position, DoCollisions_ball_idle sampleEnv lostGame]
  · norm_num [lostGame, sampleGame]
  · intro b hb
    simp only [Game.currentBricks, lostGame, sampleGame, List.getElem?_cons_zero, List.mem_cons,
      List.mem_singleton, List.not_mem_nil, or_false] at hb
    rcases hb with rfl | rfl
    · simp only [brickHit, sampleEnv, Collision.DetectCircleRect, clampQ, sampleBrick,
        Game.ballCircle, lostGame, sampleGame]
      norm_num
    · simp only [brickHit, sampleEnv, Collision.DetectCircleRect, clampQ, sampleBrick,
        Game.ballCircle, lostGame, sampleGame]
      norm_num
  · intro p hp
    simp only [lostGame, List.mem_singleton] at hp
    rw [hp]
    rfl
  · rfl

/-- Witness for C6: `Update` on `lostGame` (ball below the bottom edge, paddle
150 wide and tinted, confuse on, one collected entry) ends with no power-ups,
the default paddle at `(350, 580)` and the confuse flag off. -/
theorem C6_loss_triggers_reset_witness :
    (Update sampleEnv (1 / 60) lostGame).power_ups_ = [] ∧
    (Update sampleEnv (1 / 60) lostGame).paddle.size_ = ⟨100, 20⟩ ∧
    (Update sampleEnv (1 / 60) lostGame).paddle.position_ = ⟨350, 580⟩ ∧
    (Update sampleEnv (1 / 60) lostGame).paddle.color_ = ⟨1, 1, 1⟩ ∧
    (Update sampleEnv (1 / 60) lostGame).post_processor.confuse_ = false := by
  obtain ⟨h1, h2, h3, h4, h5, _⟩ :=
    (C6_loss_triggers_reset sampleEnv (1 / 60) lostGame).1 lostGame_below
  refine ⟨h1, h2, ?_, h4, h5⟩
  rw [h3]
  norm_num [lostGame, sampleGame]

/-! ### Cleanup of the collection (C14) -/

theorem updateOne_fst (dt : ℚ) (done : List PowerUp) (p : PowerUp) (rest : List PowerUp)
    (g : Game) : (updateOne dt done p rest g).1 = tickPowerUp dt p := by
  unfold updateOne tickPowerUp
  simp only
  split_ifs <;> rfl

theorem updateLoop_fst (dt : ℚ) (todo : List PowerUp) :
    ∀ (done : List PowerUp) (g : Game),
      (updateLoop dt done todo g).1 = done ++ todo.map (tickPowerUp dt) := by
  induction todo with
  | nil => intro done g; simp [updateLoop]
  | cons p rest ih =>
    intro done g
    simp only [updateLoop, ih, updateOne_fst, List.map_cons, List.append_assoc,
      List.singleton_append]

/-- C14: the collection after `UpdatePowerUps` is the list of the timer-updated
entries, in the original order, filtered by NOT (destroyed AND not activated).
So it is a subsequence of the timer-updated entries, no entry that is
destroyed and not activated remains, and every timer-updated entry that is not
destroyed or is still activated remains. -/
theorem C14_cleanup (dt : ℚ) (g : Game) :
    (UpdatePowerUps dt g).power_ups_ =
      (g.power_ups_.map (tickPowerUp dt)).filter
        (fun p => !(p.destroyed_ && !p.activated_)) ∧
    List.Sublist (UpdatePowerUps dt g).power_ups_ (g.power_ups_.map (tickPowerUp dt)) ∧
    (∀ p ∈ (UpdatePowerUps dt g).power_ups_,
      ¬ (p.destroyed_ = true ∧ p.activated_ = false)) ∧
    (∀ p ∈ g.power_ups_.map (tickPowerUp dt),
      (p.destroyed_ = false ∨ p.activated_ = true) → p ∈ (UpdatePowerUps dt g).power_ups_) := by
  have h : (UpdatePowerUps dt g).power_ups_ =
      (g.power_ups_.map (tickPowerUp dt)).filter
        (fun p => !(p.destroyed_ && !p.activated_)) := by
    simp only [UpdatePowerUps, updateLoop_fst, List.nil_append]
  refine ⟨h, ?_, ?_, ?_⟩
  · rw [h]
    exact List.filter_sublist _
  · intro p hp
    rw [h, List.mem_filter] at hp
    rintro ⟨hd, ha⟩
    have h2 := hp.2
    rw [hd, ha] at h2
    simp at h2
  · intro p hp hk
    rw [h, List.mem_filter]
    refine ⟨hp, ?_⟩
    rcases hk with hk | hk <;> simp [hk]

/-- Witness for C14 on `cleanupGame` with a frame of one second: the falling
entry stays (moved down by 150), the off-screen entry is removed, and the
sticky entry expires and is removed in the same call. -/
theorem C14_cleanup_witness :
    (UpdatePowerUps 1 cleanupGame).power_ups_ =
      [samplePowerUp "speed" 100 250 0 false false] := by
  rw [(C14_cleanup 1 cleanupGame).1]
  simp only [cleanupGame, List.map_cons, List.map_nil, tickPowerUp, samplePowerUp, Vec2.add,
    Vec2.scale]
  norm_num [List.filter]

/-! ### Brick response and pass-through (C11, C16) -/

/-- The loop body on a brick that is hit, when the response is not suppressed:
the ball after the body is `brickResponse` of the ball before it. -/
theorem brickStep_ball_response (E : Env) (c : Circle) (box : GameObject) (g : Game)
    (hd : box.destroyed_ = false)
    (hh : (E.DetectCircleRect c ⟨box.position_, box.size_⟩).hit = true)
    (hs : ¬ (g.ball.pass_through_ = true ∧ box.is_solid_ = false)) :
    (brickStep E c box g).2.ball =
      brickResponse (E.DetectCircleRect c ⟨box.position_, box.size_⟩) g.ball := by
  unfold brickStep
  simp only [hd, hh, Bool.not_false, if_true]
  cases hsol : box.is_solid_
  · have hp : g.ball.pass_through_ = false := by
      cases h : g.ball.pass_through_
      · rfl
      · exact absurd ⟨h, hsol⟩ hs
    simp [(SpawnPowerUps_fields E _ g).1, hp]
  · simp [hsol]

/-- The loop body on a brick that is hit and not solid while the ball has the
pass-through effect: the brick is destroyed and the ball is left alone. -/
theorem brickStep_ball_pass (E : Env) (c : Circle) (box : GameObject) (g : Game)
    (hp : g.ball.pass_through_ = true) (hs : brickHit E c box = true → box.is_solid_ = false) :
    (brickStep E c box g).2.ball = g.ball := by
  by_cases hh : brickHit E c box = true
  swap
  · rw [brickStep_skip E c box g (by simpa using hh)]
  have hsol := hs hh
  have hd : box.destroyed_ = false := by
    unfold brickHit at hh
    cases h : box.destroyed_
    · rfl
    · rw [h] at hh; simp at hh
  have hit : (E.DetectCircleRect c ⟨box.position_, box.size_⟩).hit = true := by
    unfold brickHit at hh
    rw [hd] at hh
    simpa using hh
  unfold brickStep
  simp [hd, hit, hsol, (SpawnPowerUps_fields E _ g).1, hp]

theorem brickLoop_ball_pass (E : Env) (c : Circle) (l : List GameObject) :
    ∀ g : Game, g.ball.pass_through_ = true →
      (∀ b ∈ l, brickHit E c b = true → b.is_solid_ = false) →
      (brickLoop E c l g).2.ball = g.ball := by
  induction l with
  | nil => intro g _ _; rfl
  | cons box rest ih =>
    intro g hp hs
    simp only [brickLoop]
    have h1 := brickStep_ball_pass E c box g hp (hs box (List.mem_cons_self _ _))
    rw [ih _ (by rw [h1]; exact hp) (fun b hb => hs b (List.mem_cons_of_mem _ hb)), h1]

theorem brickPhase_ball_pass (E : Env) (c : Circle) (g : Game)
    (hp : g.ball.pass_through_ = true)
    (hs : ∀ b ∈ g.currentBricks, brickHit E c b = true → b.is_solid_ = false) :
    (brickPhase E c g).ball = g.ball := by
  unfold Game.currentBricks at hs
  unfold brickPhase
  split
  · next lvl hl =>
    rw [hl] at hs
    exact brickLoop_ball_pass E c lvl.bricks_ g hp hs
  · rfl

theorem brickHit_iff (E : Env) (c : Circle) (b : GameObject) :
    brickHit E c b = true ↔
      b.destroyed_ = false ∧ (E.DetectCircleRect c ⟨b.position_, b.size_⟩).hit = true := by
  unfold brickHit
  cases b.destroyed_ <;> simp

/-- C11: with `ball.pass_through` true.

If every non-destroyed brick of the current level that the circle built on
entry is detected as colliding with is non-solid, the brick phase of
`DoCollisions` leaves the ball (position and velocity included) unchanged, and
every such brick is destroyed afterwards.

A hit on a solid brick that is not destroyed still gets the bounce response:
the ball after the loop body is `brickResponse` of the ball before it. -/
theorem C11_pass_through (E : Env) (g : Game) (hp : g.ball.pass_through_ = true) :
    ((∀ b ∈ g.currentBricks, b.destroyed_ = false →
        (E.DetectCircleRect ⟨g.ball.position_, g.ball.radius_⟩ ⟨b.position_, b.size_⟩).hit = true →
        b.is_solid_ = false) →
      (brickPhase E ⟨g.ball.position_, g.ball.radius_⟩ g).ball = g.ball ∧
      (∀ (bi : Nat) (b : GameObject), g.brickAt g.level_ bi = some b →
        b.destroyed_ = false →
        (E.DetectCircleRect ⟨g.ball.position_, g.ball.radius_⟩ ⟨b.position_, b.size_⟩).hit = true →
        (brickPhase E ⟨g.ball.position_, g.ball.radius_⟩ g).brickAt g.level_ bi =
          some { b with destroyed_ := true })) ∧
    (∀ (c : Circle) (b : GameObject) (h : Game), h.ball.pass_through_ = true →
      b.destroyed_ = false → b.is_solid_ = true →
      (E.DetectCircleRect c ⟨b.position_, b.size_⟩).hit = true →
      (brickStep E c b h).1 = b ∧
      (brickStep E c b h).2.ball =
        brickResponse (E.DetectCircleRect c ⟨b.position_, b.size_⟩) h.ball) := by
  constructor
  · intro hs
    constructor
    · apply brickPhase_ball_pass E _ g hp
      intro b hb hh
      obtain ⟨hd, hit⟩ := (brickHit_iff E _ b).mp hh
      exact hs b hb hd hit
    · intro bi b hb hd hit
      have hmem : b ∈ g.currentBricks := by
        unfold Game.brickAt at hb
        unfold Game.currentBricks
        cases hl : g.levels_[g.level_]? with
        | none => rw [hl] at hb; cases hb
        | some lvl =>
          rw [hl] at hb
          exact List.mem_iff_getElem?.mpr ⟨bi, hb⟩
      have hsol := hs b hmem hd hit
      have hbr : brickBreaks E ⟨g.ball.position_, g.ball.radius_⟩ b = true := by
        simp only [brickBreaks, (brickHit_iff E _ b).mpr ⟨hd, hit⟩, hsol]
        rfl
      rw [brickPhase_brickAt, hb, if_pos rfl]
      simp [brickAfter, hbr]
  · intro c b h _ hd hsol hit
    constructor
    · rw [brickStep_fst]
      exact brickAfter_of_not_breaks E c b (Or.inl hsol)
    · apply brickStep_ball_response E c b h hd hit
      rintro ⟨_, h2⟩
      rw [hsol] at h2
      cases h2

/-- Witness for C11: in `passPlainGame` the ball, with pass-through on, touches
the plain brick only; after the brick phase the ball is unchanged and the
brick is destroyed. -/
theorem C11_pass_through_witness :
    (brickPhase sampleEnv ⟨passPlainGame.ball.position_, passPlainGame.ball.radius_⟩
      passPlainGame).ball = passPlainGame.ball ∧
    (brickPhase sampleEnv ⟨passPlainGame.ball.position_, passPlainGame.ball.radius_⟩
      passPlainGame).brickAt 0 1 = some (sampleBrick 100 0 false true) := by
  have hs : ∀ b ∈ passPlainGame.currentBricks, b.destroyed_ = false →
      (sampleEnv.DetectCircleRect ⟨passPlainGame.ball.position_, passPlainGame.ball.radius_⟩
        ⟨b.position_, b.size_⟩).hit = true → b.is_solid_ = false := by
    intro b hb _ hit
    simp only [Game.currentBricks, passPlainGame, plainHitGame, sampleGame,
      List.getElem?_cons_zero, List.mem_cons, List.mem_singleton, List.not_mem_nil,
      or_false] at hb
    rcases hb with rfl | rfl
    · exfalso
      revert hit
      simp only [sampleEnv, Collision.DetectCircleRect, clampQ, sampleBrick, passPlainGame,
        plainHitGame, sampleGame]
      norm_num
    · rfl
  have h := (C11_pass_through sampleEnv passPlainGame rfl).1 hs
  refine ⟨h.1, h.2 1 (sampleBrick 100 0 false false) rfl rfl ?_⟩
  simp only [sampleEnv, Collision.DetectCircleRect, clampQ, sampleBrick, passPlainGame,
    plainHitGame, sampleGame]
  norm_num

/-- C16: the bounce response of the brick loop.  For a brick that is not
destroyed, detected as colliding and whose response is not suppressed (not
both pass-through and non-solid), the ball after the loop body is
`brickResponse` of the ball before it, and with `dir`, `d` the direction and
difference of the detection result and `r` the ball radius:
* left: `velocity.x` negated, `position.x` increased by `r - |d.x|`;
* right: `velocity.x` negated, `position.x` decreased by `r - |d.x|`;
* up: `velocity.y` negated, `position.y` decreased by `r - |d.y|`;
* down: `velocity.y` negated, `position.y` increased by `r - |d.y|`;
the other component of velocity and of position is unchanged in each case. -/
theorem C16_brick_response (E : Env) (c : Circle) (box : GameObject) (g : Game)
    (hd : box.destroyed_ = false)
    (hh : (E.DetectCircleRect c ⟨box.position_, box.size_⟩).hit = true)
    (hs : ¬ (g.ball.pass_through_ = true ∧ box.is_solid_ = false)) :
    ((E.DetectCircleRect c ⟨box.position_, box.size_⟩).dir = Direction.kLeft →
      (brickStep E c box g).2.ball.velocity_ = ⟨-g.ball.velocity_.x, g.ball.velocity_.y⟩ ∧
      (brickStep E c box g).2.ball.position_ =
        ⟨g.ball.position_.x +
            (g.ball.radius_ - |(E.DetectCircleRect c ⟨box.position_, box.size_⟩).difference.x|),
          g.ball.position_.y⟩) ∧
    ((E.DetectCircleRect c ⟨box.position_, box.size_⟩).dir = Direction.kRight →
      (brickStep E c box g).2.ball.velocity_ = ⟨-g.ball.velocity_.x, g.ball.velocity_.y⟩ ∧
      (brickStep E c box g).2.ball.position_ =
        ⟨g.ball.position_.x -
            (g.ball.radius_ - |(E.DetectCircleRect c ⟨box.position_, box.size_⟩).difference.x|),
          g.ball.position_.y⟩) ∧
    ((E.DetectCircleRect c ⟨box.position_, box.size_⟩).dir = Direction.kUp →
      (brickStep E c box g).2.ball.velocity_ = ⟨g.ball.velocity_.x, -g.ball.velocity_.y⟩ ∧
      (brickStep E c box g).2.ball.position_ =
        ⟨g.ball.position_.x,
          g.ball.position_.y -
            (g.ball.radius_ - |(E.DetectCircleRect c ⟨box.position_, box.size_⟩).difference.y|)⟩) ∧
    ((E.DetectCircleRect c ⟨box.position_, box.size_⟩).dir = Direction.kDown →
      (brickStep E c box g).2.ball.velocity_ = ⟨g.ball.velocity_.x, -g.ball.velocity_.y⟩ ∧
      (brickStep E c box g).2.ball.position_ =
        ⟨g.ball.position_.x,
          g.ball.position_.y +
            (g.ball.radius_ - |(E.DetectCircleRect c ⟨box.position_, box.size_⟩).difference.y|)⟩) := by
  rw [brickStep_ball_response E c box g hd hh hs]
  refine ⟨fun h => ?_, fun h => ?_, fun h => ?_, fun h => ?_⟩ <;>
    simp [brickResponse, h]

/-- Witness for C16: in `solidHitGame` the ball (velocity `(100, -350)`, circle
point `(50, 45)`, radius 12.5) touches the solid brick from below; the
difference is `(0, 5)`, the direction is up, so the vertical velocity is
negated and the ball is moved by `12.5 - 5` against the y axis. -/
theorem C16_brick_response_witness :
    (brickStep sampleEnv ⟨⟨50, 45⟩, 25 / 2⟩ (sampleBrick 0 0 true false)
      solidHitGame).2.ball.velocity_ = ⟨100, 350⟩ ∧
    (brickStep sampleEnv ⟨⟨50, 45⟩, 25 / 2⟩ (sampleBrick 0 0 true false)
      solidHitGame).2.ball.position_ = ⟨50, 75 / 2⟩ := by
  have hdet : sampleEnv.DetectCircleRect ⟨⟨50, 45⟩, 25 / 2⟩
      ⟨(sampleBrick 0 0 true false).position_, (sampleBrick 0 0 true false).size_⟩ =
      ⟨true, Direction.kUp, ⟨0, 5⟩⟩ := by
    simp only [sampleEnv, Collision.DetectCircleRect, Collision.VectorDirection, clampQ,
      sampleBrick]
    norm_num
  have h := (C16_brick_response sampleEnv ⟨⟨50, 45⟩, 25 / 2⟩ (sampleBrick 0 0 true false)
    solidHitGame rfl (by rw [hdet]) (by rintro ⟨h1, _⟩; cases h1)).2.2.1 (by rw [hdet])
  rw [h.1, h.2, hdet]
  simp only [solidHitGame, sampleGame]
  norm_num

/-! ### The ball-versus-paddle step (C12, C17, C18) -/

/-- C18: the ball-versus-paddle step of `DoCollisions`, for the circle `c` and
the paddle rectangle `r` built earlier in the call.
* Ball stuck on entry: the step changes nothing (velocity and stuck flag
  included), whatever the detection says.
* Ball not stuck and detected as colliding: afterwards `ball.stuck` equals
  `ball.sticky`, and the sticky flag itself is unchanged.
* Ball not stuck and not detected as colliding: the step changes nothing, so
  stuck stays false and the velocity is unchanged. -/
theorem C18_stuck_sticky (E : Env) (c : Circle) (r : Rect) (g : Game) :
    (g.ball.stuck_ = true → paddlePhase E c r g = g) ∧
    (g.ball.stuck_ = false → (E.DetectCircleRect c r).hit = true →
      (paddlePhase E c r g).ball.stuck_ = (paddlePhase E c r g).ball.sticky_ ∧
      (paddlePhase E c r g).ball.sticky_ = g.ball.sticky_) ∧
    (g.ball.stuck_ = false → (E.DetectCircleRect c r).hit = false →
      paddlePhase E c r g = g ∧
      (paddlePhase E c r g).ball.stuck_ = false ∧
      (paddlePhase E c r g).ball.velocity_ = g.ball.velocity_) := by
  refine ⟨fun hs => ?_, fun hs hh => ?_, fun hs hh => ?_⟩
  · simp [paddlePhase, hs]
  · simp [paddlePhase, paddleBounce, hs, hh]
  · have h : paddlePhase E c r g = g := by simp [paddlePhase, hs, hh]
    rw [h]
    exact ⟨rfl, hs, rfl⟩

/-- Witness for C18: in `stickyBounceGame` the ball is in flight, sticky, and
touches the paddle; after the paddle step it is stuck.  In `lostGame` the ball
is stuck and the step changes nothing. -/
theorem C18_stuck_sticky_witness :
    (paddlePhase sampleEnv stickyBounceGame.ballCircle stickyBounceGame.paddleRect
      stickyBounceGame).ball.stuck_ = true ∧
    paddlePhase sampleEnv lostGame.ballCircle lostGame.paddleRect lostGame = lostGame := by
  have hhit : (sampleEnv.DetectCircleRect stickyBounceGame.ballCircle
      stickyBounceGame.paddleRect).hit = true := by
    simp only [sampleEnv, Collision.DetectCircleRect, clampQ, Game.ballCircle, Game.paddleRect,
      stickyBounceGame, sampleGame]
    norm_num
  have h := (C18_stuck_sticky sampleEnv stickyBounceGame.ballCircle stickyBounceGame.paddleRect
    stickyBounceGame).2.1 rfl hhit
  refine ⟨?_, (C18_stuck_sticky sampleEnv lostGame.ballCircle lostGame.paddleRect lostGame).1 rfl⟩
  rw [h.1, h.2]
  rfl

theorem brickResponse_flags (result : CollisionResult) (ball : BallObject) :
    sameBallFlags ball (brickResponse result ball) := by
  unfold brickResponse sameBallFlags
  simp only
  split_ifs <;> exact ⟨rfl, rfl, rfl, rfl⟩

/-- The ball after the loop body for one brick is the ball before it or its
`brickResponse`. -/
theorem brickStep_ball_cases (E : Env) (c : Circle) (box : GameObject) (g : Game) :
    (brickStep E c box g).2.ball = g.ball ∨
    (brickStep E c box g).2.ball =
      brickResponse (E.DetectCircleRect c ⟨box.position_, box.size_⟩) g.ball := by
  by_cases hh : brickHit E c box = true
  swap
  · rw [brickStep_skip E c box g (by simpa using hh)]
    exact Or.inl rfl
  obtain ⟨hd, hit⟩ := (brickHit_iff E c box).mp hh
  by_cases hs : g.ball.pass_through_ = true ∧ box.is_solid_ = false
  · exact Or.inl (brickStep_ball_pass E c box g hs.1 (fun _ => hs.2))
  · exact Or.inr (brickStep_ball_response E c box g hd hit hs)

theorem brickStep_flags (E : Env) (c : Circle) (box : GameObject) (g : Game) :
    sameBallFlags g.ball (brickStep E c box g).2.ball := by
  rcases brickStep_ball_cases E c box g with h | h
  · rw [h]; exact ⟨rfl, rfl, rfl, rfl⟩
  · rw [h]; exact brickResponse_flags _ _

theorem sameBallFlags_trans (a b c : BallObject) (h1 : sameBallFlags a b)
    (h2 : sameBallFlags b c) : sameBallFlags a c :=
  ⟨h2.1.trans h1.1, h2.2.1.trans h1.2.1, h2.2.2.1.trans h1.2.2.1, h2.2.2.2.trans h1.2.2.2⟩

theorem brickLoop_flags (E : Env) (c : Circle) (l : List GameObject) :
    ∀ g : Game, sameBallFlags g.ball (brickLoop E c l g).2.ball := by
  induction l with
  | nil => intro g; exact ⟨rfl, rfl, rfl, rfl⟩
  | cons box rest ih =>
    intro g
    simp only [brickLoop]
    exact sameBallFlags_trans _ _ _ (brickStep_flags E c box g) (ih _)

theorem brickPhase_flags (E : Env) (c : Circle) (g : Game) :
    sameBallFlags g.ball (brickPhase E c g).ball := by
  unfold brickPhase
  split
  · next lvl hl => exact brickLoop_flags E c lvl.bricks_ g
  · exact ⟨rfl, rfl, rfl, rfl⟩

/-! ### Detection uses the circle built on entry (C20) -/

theorem brickResponse_velocity (result : CollisionResult) (ball : BallObject) :
    (brickResponse result ball).velocity_ = flipVelocity result.dir ball.velocity_ := by
  unfold brickResponse flipVelocity
  simp only
  split_ifs <;> rfl

/-- Without pass-through, the velocity after the brick loop is the velocity on
entry flipped once for each brick that is hit, in the order of the bricks. -/
theorem brickLoop_velocity (E : Env) (c : Circle) (l : List GameObject) :
    ∀ g : Game, g.ball.pass_through_ = false →
      (brickLoop E c l g).2.ball.velocity_ =
        (l.filter (brickHit E c)).foldl
          (fun v b => flipVelocity (E.DetectCircleRect c ⟨b.position_, b.size_⟩).dir v)
          g.ball.velocity_ := by
  induction l with
  | nil => intro g _; rfl
  | cons box rest ih =>
    intro g hp
    simp only [brickLoop, List.filter_cons]
    have hp1 : (brickStep E c box g).2.ball.pass_through_ = false :=
      (brickStep_flags E c box g).2.2.2.trans hp
    rw [ih _ hp1]
    by_cases hh : brickHit E c box = true
    · obtain ⟨hd, hit⟩ := (brickHit_iff E c box).mp hh
      rw [if_pos hh, List.foldl_cons,
        brickStep_ball_response E c box g hd hit (by rintro ⟨h1, _⟩; rw [hp] at h1; cases h1),
        brickResponse_velocity]
    · rw [if_neg hh, brickStep_skip E c box g (by simpa using hh)]

theorem brickPhase_velocity (E : Env) (c : Circle) (g : Game)
    (hp : g.ball.pass_through_ = false) :
    (brickPhase E c g).ball.velocity_ =
      (g.currentBricks.filter (brickHit E c)).foldl
        (fun v b => flipVelocity (E.DetectCircleRect c ⟨b.position_, b.size_⟩).dir v)
        g.ball.velocity_ := by
  unfold brickPhase Game.currentBricks
  split
  · next lvl hl => exact brickLoop_velocity E c lvl.bricks_ g hp
  · rfl

theorem flipVelocity_twice (d1 d2 : Direction) (v : Vec2)
    (h : (d1.vertical ∧ d2.vertical) ∨ (d1.horizontal ∧ d2.horizontal)) :
    flipVelocity d2 (flipVelocity d1 v) = v := by
  unfold Direction.vertical Direction.horizontal at h
  unfold flipVelocity
  rcases h with ⟨h1, h2⟩ | ⟨h1, h2⟩
  · rcases h1 with rfl | rfl <;> rcases h2 with rfl | rfl <;> simp
  · rcases h1 with rfl | rfl <;> rcases h2 with rfl | rfl <;> simp

theorem ActivatePowerUp_stuck (p : PowerUp) (g : Game) :
    (ActivatePowerUp p g).ball.stuck_ = g.ball.stuck_ := by
  unfold ActivatePowerUp
  split_ifs <;> rfl

theorem foldl_ActivatePowerUp_stuck (l : List PowerUp) :
    ∀ g : Game, (l.foldl (fun h p => ActivatePowerUp p h) g).ball.stuck_ = g.ball.stuck_ := by
  induction l with
  | nil => intro g; rfl
  | cons p rest ih =>
    intro g
    rw [List.foldl_cons, ih, ActivatePowerUp_stuck]

/-- The stuck flag is not touched before the ball-versus-paddle step. -/
theorem beforePaddle_stuck (E : Env) (g : Game) :
    (beforePaddle E g).ball.stuck_ = g.ball.stuck_ := by
  unfold beforePaddle pickupPhase
  simp only
  rw [pickupLoop_snd, foldl_ActivatePowerUp_stuck]
  exact (brickPhase_flags E _ g).2.1

/-- C20: within one `DoCollisions` call detection uses the circle built from
the ball on entry.
* The bricks of the current level after the call are the bricks on entry, each
  with its destroyed flag set exactly when it is not destroyed, not solid and
  detected as colliding with the entry circle; and for a given circle the
  bricks the loop marks do not depend on the state (ball included) the loop
  runs in.
* The call is the paddle bounce applied to the state reached after the brick
  and power-up phases exactly when the ball is not stuck on entry and the
  entry circle is detected as colliding with the paddle rectangle; otherwise
  it is that state.
* Without pass-through, when exactly two non-destroyed bricks are detected as
  colliding and both results have a vertical direction, or both a horizontal
  one, the ball velocity after the brick phase equals the velocity before. -/
theorem C20_entry_circle (E : Env) (g : Game) :
    (DoCollisions E g).currentBricks =
      g.currentBricks.map (brickAfter E ⟨g.ball.position_, g.ball.radius_⟩) ∧
    (∀ (c : Circle) (l : List GameObject) (h : Game),
      (brickLoop E c l h).1 = l.map (brickAfter E c)) ∧
    DoCollisions E g =
      (if g.ball.stuck_ = false ∧
          (E.DetectCircleRect ⟨g.ball.position_, g.ball.radius_⟩
            ⟨g.paddle.position_, g.paddle.size_⟩).hit = true
        then paddleBounce E (beforePaddle E g) else beforePaddle E g) ∧
    (g.ball.pass_through_ = false →
      ∀ b1 b2 : GameObject,
        g.currentBricks.filter (fun b => !b.destroyed_ &&
          (E.DetectCircleRect ⟨g.ball.position_, g.ball.radius_⟩ ⟨b.position_, b.size_⟩).hit) =
          [b1, b2] →
        (((E.DetectCircleRect ⟨g.ball.position_, g.ball.radius_⟩
              ⟨b1.position_, b1.size_⟩).dir.vertical ∧
            (E.DetectCircleRect ⟨g.ball.position_, g.ball.radius_⟩
              ⟨b2.position_, b2.size_⟩).dir.vertical) ∨
          ((E.DetectCircleRect ⟨g.ball.position_, g.ball.radius_⟩
              ⟨b1.position_, b1.size_⟩).dir.horizontal ∧
            (E.DetectCircleRect ⟨g.ball.position_, g.ball.radius_⟩
              ⟨b2.position_, b2.size_⟩).dir.horizontal)) →
        (brickPhase E ⟨g.ball.position_, g.ball.radius_⟩ g).ball.velocity_ =
          g.ball.velocity_) := by
  refine ⟨DoCollisions_currentBricks E g, fun c l h => brickLoop_fst E c l h, ?_, ?_⟩
  · have h1 : DoCollisions E g =
        paddlePhase E ⟨g.ball.position_, g.ball.radius_⟩
          ⟨g.paddle.position_, g.paddle.size_⟩ (beforePaddle E g) := by
      unfold DoCollisions beforePaddle
      simp only
      rw [(brickPhase_frame E _ g).2.2.1]
    rw [h1]
    unfold paddlePhase
    simp only [beforePaddle_stuck]
    cases g.ball.stuck_ <;>
      cases (E.DetectCircleRect ⟨g.ball.position_, g.ball.radius_⟩
        ⟨g.paddle.position_, g.paddle.size_⟩).hit <;> simp
  · intro hp b1 b2 hf hdir
    have hf2 : g.currentBricks.filter (brickHit E ⟨g.ball.position_, g.ball.radius_⟩) =
        [b1, b2] := hf
    rw [brickPhase_velocity E _ g hp, hf2]
    simp only [List.foldl_cons, List.foldl_nil]
    exact flipVelocity_twice _ _ _ hdir

/-- Witness for C20: in `twoHitGame` the circle at `(100, 45)` touches both
bricks from below, both results have direction up, and the velocity after the
brick phase is the `(100, -350)` it had before. -/
theorem C20_entry_circle_witness :
    (brickPhase sampleEnv ⟨twoHitGame.ball.position_, twoHitGame.ball.radius_⟩
      twoHitGame).ball.velocity_ = ⟨100, -350⟩ := by
  have hdet : ∀ x : ℚ, x = 0 ∨ x = 100 →
      sampleEnv.DetectCircleRect ⟨twoHitGame.ball.position_, twoHitGame.ball.radius_⟩
        ⟨(sampleBrick x 0 false false).position_, (sampleBrick x 0 false false).size_⟩ =
        ⟨true, Direction.kUp, ⟨0, 5⟩⟩ := by
    intro x hx
    rcases hx with rfl | rfl <;>
    · simp only [sampleEnv, Collision.DetectCircleRect, Collision.VectorDirection, clampQ,
        sampleBrick, twoHitGame, sampleGame]
      norm_num
  have hf : twoHitGame.currentBricks.filter (fun b => !b.destroyed_ &&
      (sampleEnv.DetectCircleRect ⟨twoHitGame.ball.position_, twoHitGame.ball.radius_⟩
        ⟨b.position_, b.size_⟩).hit) =
      [sampleBrick 0 0 false false, sampleBrick 100 0 false false] := by
    have e : twoHitGame.currentBricks =
        [sampleBrick 0 0 false false, sampleBrick 100 0 false false] := rfl
    rw [e, List.filter_cons, List.filter_cons, List.filter_nil,
      hdet 0 (Or.inl rfl), hdet 100 (Or.inr rfl)]
    rfl
  exact (C20_entry_circle sampleEnv twoHitGame).2.2.2 rfl _ _ hf
    (Or.inl ⟨by rw [hdet 0 (Or.inl rfl)]; exact Or.inl rfl,
      by rw [hdet 100 (Or.inr rfl)]; exact Or.inl rfl⟩)

/-! ### The stuck ball rides the paddle (C13) -/

theorem pressLeft_ball (v : ℚ) (g : Game) (hs : g.ball.stuck_ = true) :
    (pressLeft v g).ball.position_ = Vec2.add (pressLeft v g).paddle.position_ ballOffset ∧
    (pressLeft v g).ball.stuck_ = true ∧ (pressLeft v g).ball.radius_ = g.ball.radius_ := by
  refine ⟨?_, ?_, ?_⟩ <;> simp [pressLeft, hs]

theorem pressRight_ball (v : ℚ) (g : Game) (hs : g.ball.stuck_ = true) :
    (pressRight v g).ball.position_ = Vec2.add (pressRight v g).paddle.position_ ballOffset ∧
    (pressRight v g).ball.stuck_ = true ∧ (pressRight v g).ball.radius_ = g.ball.radius_ := by
  refine ⟨?_, ?_, ?_⟩ <;> simp [pressRight, hs]

theorem pressLeft_radius (v : ℚ) (g : Game) :
    (pressLeft v g).ball.radius_ = g.ball.radius_ := by
  unfold pressLeft
  simp only
  split_ifs <;> rfl

theorem pressRight_radius (v : ℚ) (g : Game) :
    (pressRight v g).ball.radius_ = g.ball.radius_ := by
  unfold pressRight
  simp only
  split_ifs <;> rfl

/-- The method `ProcessInput` does not change the radius of the ball. -/
theorem ProcessInput_radius (keys : Nat → Bool) (dt : ℚ) (g : Game) :
    (ProcessInput keys dt g).ball.radius_ = g.ball.radius_ := by
  unfold ProcessInput
  simp only
  split_ifs <;> simp [pressLeft_radius, pressRight_radius]

/-- The ball position after `ProcessInput` in the active state, in terms of
the two key handlers (the launch key only clears the stuck flag). -/
theorem ProcessInput_ball_position (keys : Nat → Bool) (dt : ℚ) (g : Game)
    (hs : g.state_ = GameState.KGameActive) :
    (ProcessInput keys dt g).ball.position_ =
      (if keys GLFW_KEY_D = true then
        pressRight (kPaddleVelocity * dt)
          (if keys GLFW_KEY_A = true then pressLeft (kPaddleVelocity * dt) g else g)
       else (if keys GLFW_KEY_A = true then pressLeft (kPaddleVelocity * dt) g
         else g)).ball.position_ := by
  unfold ProcessInput
  simp only [hs, if_true]
  split_ifs <;> rfl

/-- In the active state with the ball stuck and a movement key held, the ball
ends at the paddle position plus the constant offset of the source. -/
theorem ProcessInput_stuck_ball (keys : Nat → Bool) (dt : ℚ) (g : Game)
    (hs : g.state_ = GameState.KGameActive) (hstuck : g.ball.stuck_ = true)
    (hkey : keys GLFW_KEY_A = true ∨ keys GLFW_KEY_D = true) :
    (ProcessInput keys dt g).ball.position_ =
      Vec2.add (ProcessInput keys dt g).paddle.position_ ballOffset := by
  rw [ProcessInput_ball_position keys dt g hs, ProcessInput_paddle keys dt g hs]
  by_cases hD : keys GLFW_KEY_D = true
  · rw [if_pos hD]
    by_cases hA : keys GLFW_KEY_A = true
    · rw [if_pos hA]
      exact (pressRight_ball _ _ (pressLeft_ball _ g hstuck).2.1).1
    · rw [if_neg hA]
      exact (pressRight_ball _ g hstuck).1
  · rw [if_neg hD]
    have hA : keys GLFW_KEY_A = true := by
      rcases hkey with h | h
      · exact h
      · exact absurd h hD
    rw [if_pos hA]
    exact (pressLeft_ball _ g hstuck).1

/-- C13 (counterexample): in `wideGame` the paddle is 150 wide and the ball is
stuck; with the left key held for 1/100 s the paddle moves to `x = 695` and
the ball is put at `x = 695 + 37.5`, not at `695 + (150/2 - 12.5)`. -/
theorem C13_stuck_ball_counterexample :
    wideGame.state_ = GameState.KGameActive ∧
    wideGame.ball.stuck_ = true ∧
    leftOnly GLFW_KEY_A = true ∧
    (ProcessInput leftOnly (1 / 100) wideGame).paddle.size_.x = 150 ∧
    (ProcessInput leftOnly (1 / 100) wideGame).ball.position_ = ⟨1465 / 2, 555⟩ ∧
    (ProcessInput leftOnly (1 / 100) wideGame).ball.position_ ≠
      ⟨(ProcessInput leftOnly (1 / 100) wideGame).paddle.position_.x +
          ((ProcessInput leftOnly (1 / 100) wideGame).paddle.size_.x / 2 -
            (ProcessInput leftOnly (1 / 100) wideGame).ball.radius_),
        (ProcessInput leftOnly (1 / 100) wideGame).paddle.position_.y +
          -2 * (ProcessInput leftOnly (1 / 100) wideGame).ball.radius_⟩ := by
  have hb := ProcessInput_stuck_ball leftOnly (1 / 100) wideGame rfl rfl (Or.inl (by decide))
  have hp := ProcessInput_paddle leftOnly (1 / 100) wideGame rfl
  have hk : leftOnly GLFW_KEY_D = false := by decide
  have hk2 : leftOnly GLFW_KEY_A = true := by decide
  rw [hk, hk2] at hp
  simp only [if_true, Bool.false_eq_true, if_false] at hp
  have hx0 : wideGame.paddle.position_ = ⟨700, 580⟩ := by
    simp [wideGame, ActivatePowerUp, samplePowerUp, sampleGame]
  have hs0 : wideGame.paddle.size_ = ⟨150, 20⟩ := by
    simp [wideGame, ActivatePowerUp, samplePowerUp, sampleGame]
    norm_num
  have hpos : (pressLeft (kPaddleVelocity * (1 / 100)) wideGame).paddle.position_ =
      ⟨695, 580⟩ := by
    simp only [pressLeft, hx0, kPaddleVelocity]
    norm_num
    split_ifs <;> rfl
  have hsize := (pressLeft_paddle (kPaddleVelocity * (1 / 100)) wideGame).2.1
  have hball : (ProcessInput leftOnly (1 / 100) wideGame).ball.position_ = ⟨1465 / 2, 555⟩ := by
    rw [hb, hp, hpos]
    simp only [Vec2.add, ballOffset, kPaddleSize, kBallRadius]
    norm_num
  refine ⟨rfl, rfl, by decide, ?_, hball, ?_⟩
  · rw [hp, hsize, hs0]
  · rw [hball, hp, hpos, hsize, hs0]
    intro h
    have hx := congrArg Vec2.x h
    simp only at hx
    have hr : (ProcessInput leftOnly (1 / 100) wideGame).ball.radius_ = 25 / 2 := by
      rw [ProcessInput_radius]
      rfl
    rw [hr] at hx
    norm_num at hx

/-- C13 (amended): in the active state with the ball stuck and a movement key
held, after `ProcessInput` the ball's position is the paddle's position plus
`(100/2 - 12.5, -25)`: the offset is computed from the default paddle width
`kPaddleSize.x` and the constant `kBallRadius`, not from the paddle's current
width or the ball's radius field.  Hence it equals
`paddle.position + (paddle_width/2 - radius, -2*radius)` whenever the current
width is 100 and the radius is 12.5. -/
theorem C13_stuck_ball_rides_amended (keys : Nat → Bool) (dt : ℚ) (g : Game)
    (hs : g.state_ = GameState.KGameActive) (hstuck : g.ball.stuck_ = true)
    (hkey : keys GLFW_KEY_A = true ∨ keys GLFW_KEY_D = true) :
    (ProcessInput keys dt g).ball.position_ =
      ⟨(ProcessInput keys dt g).paddle.position_.x + (100 / 2 - 25 / 2),
       (ProcessInput keys dt g).paddle.position_.y + -25⟩ ∧
    (g.paddle.size_.x = 100 → g.ball.radius_ = 25 / 2 →
      (ProcessInput keys dt g).ball.position_ =
        ⟨(ProcessInput keys dt g).paddle.position_.x +
            ((ProcessInput keys dt g).paddle.size_.x / 2 - (ProcessInput keys dt g).ball.radius_),
         (ProcessInput keys dt g).paddle.position_.y +
            -2 * (ProcessInput keys dt g).ball.radius_⟩) := by
  have h := ProcessInput_stuck_ball keys dt g hs hstuck hkey
  have h1 : (ProcessInput keys dt g).ball.position_ =
      ⟨(ProcessInput keys dt g).paddle.position_.x + (100 / 2 - 25 / 2),
       (ProcessInput keys dt g).paddle.position_.y + -25⟩ := by
    rw [h]
    simp only [Vec2.add, ballOffset, kPaddleSize, kBallRadius]
    norm_num
  refine ⟨h1, fun hw hr => ?_⟩
  have hsize : (ProcessInput keys dt g).paddle.size_ = g.paddle.size_ := by
    rw [ProcessInput_paddle keys dt g hs]
    split_ifs
    · rw [(pressRight_paddle _ _).2.1, (pressLeft_paddle _ _).2.1]
    · rw [(pressRight_paddle _ _).2.1]
    · rw [(pressLeft_paddle _ _).2.1]
    · rfl
  rw [h1, hsize, hw, ProcessInput_radius, hr]
  norm_num

/-- Witness for C13 (amended) on the sample state (paddle 100 wide at
`(350, 580)`, ball stuck, radius 12.5) with the left key held for 1/100 s: the
paddle moves to `x = 345` and the ball to `(382.5, 555)`. -/
theorem C13_stuck_ball_rides_amended_witness :
    (ProcessInput leftOnly (1 / 100) sampleGame).ball.position_ =
      ⟨(ProcessInput leftOnly (1 / 100) sampleGame).paddle.position_.x + (100 / 2 - 25 / 2),
       (ProcessInput leftOnly (1 / 100) sampleGame).paddle.position_.y + -25⟩ :=
  (C13_stuck_ball_rides_amended leftOnly (1 / 100) sampleGame rfl rfl
    (Or.inl (by decide))).1

/-! ### The spawn roll (C15) -/

theorem spawnRoll_eq (E : Env) (chance : Nat) (type : String) (color : Vec3)
    (duration : ℚ) (block : GameObject) (g : Game) :
    spawnRoll E chance type color duration block g =
      { g with
        power_ups_ := g.power_ups_ ++
          (if E.rand g.rand_calls % chance == 0
            then [PowerUp.new E type color duration block.position_] else [])
        rand_calls := g.rand_calls + 1 } := by
  unfold spawnRoll shouldSpawn
  simp only
  split_ifs <;> simp

theorem spawnedBy_eq (E : Env) (block : GameObject) (sel : Nat → Bool) :
    spawnedBy E block sel =
      (if sel 0 then [spawnCandidate E block 0] else []) ++
      ((if sel 1 then [spawnCandidate E block 1] else []) ++
      ((if sel 2 then [spawnCandidate E block 2] else []) ++
      ((if sel 3 then [spawnCandidate E block 3] else []) ++
      ((if sel 4 then [spawnCandidate E block 4] else []) ++
      (if sel 5 then [spawnCandidate E block 5] else []))))) := by
  have h : List.range 6 = [0, 1, 2, 3, 4, 5] := rfl
  unfold spawnedBy
  rw [h]
  simp only [List.filter_cons, List.filter_nil]
  cases sel 0 <;> cases sel 1 <;> cases sel 2 <;> cases sel 3 <;> cases sel 4 <;>
    cases sel 5 <;> rfl

theorem SpawnPowerUps_eq (E : Env) (block : GameObject) (g : Game) :
    SpawnPowerUps E block g =
      { g with
        power_ups_ := g.power_ups_ ++ spawned E block g.rand_calls
        rand_calls := g.rand_calls + 6 } := by
  unfold SpawnPowerUps spawned
  simp only [spawnRoll_eq, spawnedBy_eq, spawnChance, spawnCandidate, List.append_assoc,
    Nat.add_zero]
  norm_num

/-- C15: with `r_i = rand (g.rand_calls + i - 1)` the six successive draws,
`SpawnPowerUps(block)` appends to the collection, in the order speed, sticky,
pass-through, pad-size-increase, confuse, chaos, exactly the candidates whose
own draw is a multiple of 75 (first four) or of 15 (last two); it makes six
`rand` calls and changes nothing else, so the existing entries are unchanged.
Every subset of the six can result: for each selection there is a sequence of
draws that spawns exactly the selected candidates.  Every candidate is at the
brick's position, not destroyed, not activated, and the types and durations
are speed 0, sticky 20, pass-through 10, pad-size-increase 0, confuse 15,
chaos 15. -/
theorem C15_spawn_roll (E : Env) (block : GameObject) (g : Game) :
    SpawnPowerUps E block g =
      { g with
        power_ups_ := g.power_ups_ ++
          ((List.range 6).filter
            (fun i => E.rand (g.rand_calls + i) % (if i < 4 then 75 else 15) == 0)).map
            (spawnCandidate E block)
        rand_calls := g.rand_calls + 6 } ∧
    (∀ sel : Nat → Bool, ∃ rand : Nat → Nat,
      (SpawnPowerUps { E with rand := rand } block g).power_ups_ =
        g.power_ups_ ++ ((List.range 6).filter sel).map (spawnCandidate E block)) ∧
    (∀ i : Nat, (spawnCandidate E block i).position_ = block.position_ ∧
      (spawnCandidate E block i).destroyed_ = false ∧
      (spawnCandidate E block i).activated_ = false) ∧
    (List.range 6).map
        (fun i => ((spawnCandidate E block i).type_, (spawnCandidate E block i).duration_)) =
      [("speed", 0), ("sticky", 20), ("pass-through", 10), ("pad-size-increase", 0),
       ("confuse", 15), ("chaos", 15)] := by
  refine ⟨SpawnPowerUps_eq E block g, ?_, ?_, ?_⟩
  · intro sel
    refine ⟨fun n => if sel (n - g.rand_calls) then 0 else 1, ?_⟩
    rw [SpawnPowerUps_eq]
    simp only [spawned]
    have e := spawnedBy_eq E block sel
    unfold spawnedBy at e
    rw [e, spawnedBy_eq]
    simp only [spawnChance, Nat.add_sub_cancel_left]
    cases sel 0 <;> cases sel 1 <;> cases sel 2 <;> cases sel 3 <;> cases sel 4 <;>
      cases sel 5 <;> rfl
  · intro i
    unfold spawnCandidate
    split <;> exact ⟨rfl, rfl, rfl⟩
  · rfl

/-- Witness for C15 in the sample environment, where the `n`-th call of `rand`
returns `n`: from a state with no `rand` call made so far the draws are 0..5,
only the first is a multiple of its odds, and one speed power-up is appended
at the brick's position. -/
theorem C15_spawn_roll_witness :
    (SpawnPowerUps sampleEnv (sampleBrick 100 0 false true) sampleGame).power_ups_ =
      [PowerUp.new sampleEnv "speed" ⟨1 / 2, 1 / 2, 1⟩ 0 ⟨100, 0⟩] ∧
    (SpawnPowerUps sampleEnv (sampleBrick 100 0 false true) sampleGame).rand_calls = 6 := by
  rw [(C15_spawn_roll sampleEnv (sampleBrick 100 0 false true) sampleGame).1]
  have h : List.range 6 = [0, 1, 2, 3, 4, 5] := rfl
  rw [h]
  constructor
  · simp [sampleEnv, sampleGame, List.filter_cons, spawnCandidate, sampleBrick]
  · rfl

/-! ### Effect flags are backed by an activated entry (C19) -/

/-- A flag that is on after `ActivatePowerUp` was on before or belongs to the
type of the power-up. -/
theorem ActivatePowerUp_flags (p : PowerUp) (g : Game) :
    ((ActivatePowerUp p g).ball.sticky_ = true →
      g.ball.sticky_ = true ∨ p.type_ = "sticky") ∧
    ((ActivatePowerUp p g).ball.pass_through_ = true →
      g.ball.pass_through_ = true ∨ p.type_ = "pass-through") ∧
    ((ActivatePowerUp p g).post_processor.confuse_ = true →
      g.post_processor.confuse_ = true ∨ p.type_ = "confuse") ∧
    ((ActivatePowerUp p g).post_processor.chaos_ = true →
      g.post_processor.chaos_ = true ∨ p.type_ = "chaos") := by
  unfold ActivatePowerUp
  split_ifs <;> refine ⟨?_, ?_, ?_, ?_⟩ <;> intro h <;>
    first
      | exact Or.inl h
      | (right; assumption)

theorem effectFlag_ActivatePowerUp (type : String) (p : PowerUp) (g : Game)
    (h : effectFlag type (ActivatePowerUp p g) = true) :
    effectFlag type g = true ∨ p.type_ = type := by
  obtain ⟨a1, a2, a3, a4⟩ := ActivatePowerUp_flags p g
  unfold effectFlag at h ⊢
  split_ifs at h ⊢ with t1 t2 t3 t4
  · rw [t1]; exact a1 h
  · rw [t2]; exact a2 h
  · rw [t3]; exact a3 h
  · rw [t4]; exact a4 h

theorem effectFlag_foldl (type : String) (l : List PowerUp) :
    ∀ g : Game, effectFlag type (l.foldl (fun h p => ActivatePowerUp p h) g) = true →
      effectFlag type g = true ∨ ∃ p ∈ l, p.type_ = type := by
  induction l with
  | nil => intro g h; exact Or.inl h
  | cons p rest ih =>
    intro g h
    rw [List.foldl_cons] at h
    rcases ih _ h with h1 | ⟨q, hq, hqt⟩
    · rcases effectFlag_ActivatePowerUp type p g h1 with h2 | h2
      · exact Or.inl h2
      · exact Or.inr ⟨p, List.mem_cons_self _ _, h2⟩
    · exact Or.inr ⟨q, List.mem_cons_of_mem _ hq, hqt⟩

theorem effectFlag_congr (type : String) (g h : Game)
    (h1 : h.ball.sticky_ = g.ball.sticky_) (h2 : h.ball.pass_through_ = g.ball.pass_through_)
    (h3 : h.post_processor.confuse_ = g.post_processor.confuse_)
    (h4 : h.post_processor.chaos_ = g.post_processor.chaos_) :
    effectFlag type h = effectFlag type g := by
  unfold effectFlag
  rw [h1, h2, h3, h4]

theorem effectFlag_brickPhase (E : Env) (c : Circle) (type : String) (g : Game) :
    effectFlag type (brickPhase E c g) = effectFlag type g :=
  effectFlag_congr type g _ (brickPhase_flags E c g).2.2.1 (brickPhase_flags E c g).2.2.2
    (brickPhase_frame E c g).1 (brickPhase_frame E c g).2.1

theorem effectFlag_paddlePhase (E : Env) (c : Circle) (r : Rect) (type : String) (g : Game) :
    effectFlag type (paddlePhase E c r g) = effectFlag type g := by
  apply effectFlag_congr
  · unfold paddlePhase paddleBounce; simp only; split_ifs <;> rfl
  · unfold paddlePhase paddleBounce; simp only; split_ifs <;> rfl
  · rw [paddlePhase_frame]
  · rw [paddlePhase_frame]

theorem pickupAfter_active (E : Env) (r : Rect) (height : Nat) (p : PowerUp) :
    (pickupAfter E r height p).type_ = p.type_ ∧
    (p.activated_ = true → (pickupAfter E r height p).activated_ = true) ∧
    (pickupOverlap E r p = true → (pickupAfter E r height p).activated_ = true) := by
  unfold pickupAfter pickupOverlap
  cases p.destroyed_ <;> simp <;> split_ifs <;> simp_all

theorem activeOfType_map_pickupAfter (E : Env) (r : Rect) (height : Nat) (type : String)
    (l : List PowerUp)
    (h : activeOfType type l ∨ ∃ p ∈ l, pickupOverlap E r p = true ∧ p.type_ = type) :
    activeOfType type (l.map (pickupAfter E r height)) := by
  rcases h with ⟨q, hq, hqa, hqt⟩ | ⟨q, hq, hqo, hqt⟩
  · exact ⟨pickupAfter E r height q, List.mem_map_of_mem _ hq,
      (pickupAfter_active E r height q).2.1 hqa, (pickupAfter_active E r height q).1.trans hqt⟩
  · exact ⟨pickupAfter E r height q, List.mem_map_of_mem _ hq,
      (pickupAfter_active E r height q).2.2 hqo, (pickupAfter_active E r height q).1.trans hqt⟩

theorem DoCollisions_backed (E : Env) (g : Game) (hg : flagsBacked g) :
    flagsBacked (DoCollisions E g) := by
  intro type hflag
  rw [DoCollisions_power_ups]
  rw [DoCollisions_eq, effectFlag_paddlePhase] at hflag
  have hflag2 : effectFlag type
      (((brickPhase E g.ballCircle g).power_ups_.filter (pickupOverlap E g.paddleRect)).foldl
        (fun h p => ActivatePowerUp p h) (brickPhase E g.ballCircle g)) = true := by
    rw [← hflag]
    exact effectFlag_congr type _ _ rfl rfl rfl rfl
  apply activeOfType_map_pickupAfter
  rcases effectFlag_foldl type _ _ hflag2 with h1 | ⟨p, hp, hpt⟩
  · left
    rw [effectFlag_brickPhase] at h1
    obtain ⟨q, hq, hqa, hqt⟩ := hg type h1
    obtain ⟨extra, hx⟩ := (brickPhase_power_ups E g.ballCircle g).1
    exact ⟨q, by rw [hx]; exact List.mem_append.mpr (Or.inl hq), hqa, hqt⟩
  · right
    rw [List.mem_filter] at hp
    exact ⟨p, hp.1, hp.2, hpt⟩

theorem effectFlag_clearEffect_self (type : String) (g : Game) :
    effectFlag type (clearEffect type g) = false := by
  unfold effectFlag clearEffect
  split_ifs <;> rfl

theorem effectFlag_clearEffect (type other : String) (g : Game)
    (h : effectFlag type (clearEffect other g) = true) : effectFlag type g = true := by
  by_cases ho : other = type
  · rw [ho, effectFlag_clearEffect_self] at h
    cases h
  · have hk := effectKept_clearEffect_ne type other g ho
    unfold effectKept at hk
    unfold effectFlag at h ⊢
    split_ifs at h ⊢ with t1 t2 t3 t4
    · rw [← (hk.1 t1).1]; exact h
    · rw [← (hk.2.1 t2).1]; exact h
    · rw [← hk.2.2.1 t3]; exact h
    · rw [← hk.2.2.2 t4]; exact h

/-- Loop invariant of `UpdatePowerUps`: a flag that is on is backed by an
activated entry among those already updated or those still to come. -/
theorem updateLoop_backed (dt : ℚ) (type : String) (todo : List PowerUp) :
    ∀ (done : List PowerUp) (g : Game),
      (effectFlag type g = true → activeOfType type done ∨ activeOfType type todo) →
      effectFlag type (updateLoop dt done todo g).2 = true →
      activeOfType type (updateLoop dt done todo g).1 := by
  induction todo with
  | nil =>
    intro done g hinv hflag
    simp only [updateLoop] at hflag ⊢
    rcases hinv hflag with h | ⟨q, hq, _⟩
    · exact h
    · cases hq
  | cons p rest ih =>
    intro done g hinv hflag
    simp only [updateLoop] at hflag ⊢
    apply ih _ _ _ hflag
    intro hflag1
    have hflag0 : effectFlag type g = true := by
      rcases updateOne_snd_cases dt done p rest g with h1 | h1
      · rw [h1] at hflag1; exact hflag1
      · rw [h1] at hflag1; exact effectFlag_clearEffect type _ g hflag1
    rw [activeOfType_append]
    rcases hinv hflag0 with h | h
    · exact Or.inl (Or.inl h)
    · rcases (activeOfType_cons type p rest).mp h with ⟨hpa, hpt⟩ | h
      · by_cases hd : p.duration_ - dt ≤ 0
        · by_cases hother : activeOfType p.type_ (done ++ rest)
          · rw [hpt, activeOfType_append] at hother
            rcases hother with h | h
            · exact Or.inl (Or.inl h)
            · exact Or.inr h
          · rw [updateOne_snd_clear dt done p rest g hpa hd hother, hpt,
              effectFlag_clearEffect_self] at hflag1
            cases hflag1
        · left; right
          exact ⟨_, List.mem_singleton.mpr rfl,
            (updateOne_fst_activated dt done p rest g).mpr ⟨hpa, not_le.mp hd⟩,
            (updateOne_fst_type dt done p rest g).trans hpt⟩
      · exact Or.inr h

theorem UpdatePowerUps_backed (dt : ℚ) (g : Game) (hg : flagsBacked g) :
    flagsBacked (UpdatePowerUps dt g) := by
  intro type hflag
  have h := updateLoop_backed dt type g.power_ups_ [] g (fun hf => Or.inr (hg type hf)) hflag
  obtain ⟨q, hq, hqa, hqt⟩ := h
  refine ⟨q, ?_, hqa, hqt⟩
  simp only [UpdatePowerUps, List.mem_filter]
  exact ⟨hq, by simp [hqa]⟩

theorem run_backed (E : Env) (steps : List Step) :
    ∀ g : Game, (∀ s ∈ steps, s.timed = true) → flagsBacked g →
      flagsBacked (run E steps g) := by
  induction steps with
  | nil => intro g _ hg; exact hg
  | cons s rest ih =>
    intro g hs hg
    apply ih _ (fun t ht => hs t (List.mem_cons_of_mem _ ht))
    have h1 := hs s (List.mem_cons_self _ _)
    cases s with
    | collide => exact DoCollisions_backed E g hg
    | powerUps dt => exact UpdatePowerUps_backed dt g hg
    | input keys dt => cases h1
    | move dt => cases h1
    | reset => cases h1
    | shake dt => cases h1
    | update dt => cases h1

/-- C19: from a state with the confuse, chaos, `ball.sticky` and
`ball.pass_through` flags false (whatever the collection holds, the empty
collection included), after any sequence of `DoCollisions` and
`UpdatePowerUps` steps, whenever one of these flags is true the collection
holds an entry of the flag's type with `activated = true`. -/
theorem C19_flags_backed (E : Env) (g : Game) (steps : List Step)
    (hconfuse : g.post_processor.confuse_ = false) (hchaos : g.post_processor.chaos_ = false)
    (hsticky : g.ball.sticky_ = false) (hpass : g.ball.pass_through_ = false)
    (hsteps : ∀ s ∈ steps, s.timed = true) :
    ((run E steps g).post_processor.confuse_ = true →
      ∃ q ∈ (run E steps g).power_ups_, q.activated_ = true ∧ q.type_ = "confuse") ∧
    ((run E steps g).post_processor.chaos_ = true →
      ∃ q ∈ (run E steps g).power_ups_, q.activated_ = true ∧ q.type_ = "chaos") ∧
    ((run E steps g).ball.sticky_ = true →
      ∃ q ∈ (run E steps g).power_ups_, q.activated_ = true ∧ q.type_ = "sticky") ∧
    ((run E steps g).ball.pass_through_ = true →
      ∃ q ∈ (run E steps g).power_ups_, q.activated_ = true ∧ q.type_ = "pass-through") := by
  have h0 : flagsBacked g := by
    intro type hf
    unfold effectFlag at hf
    rw [hconfuse, hchaos, hsticky, hpass] at hf
    split_ifs at hf
  have h := run_backed E steps g hsteps h0
  refine ⟨fun hf => ?_, fun hf => ?_, fun hf => ?_, fun hf => ?_⟩
  · exact h "confuse" (by simpa [effectFlag] using hf)
  · exact h "chaos" (by simpa [effectFlag] using hf)
  · exact h "sticky" (by simpa [effectFlag] using hf)
  · exact h "pass-through" (by simpa [effectFlag] using hf)

/-- Witness for C19: from the sample state (empty collection, all flags off) and
from `effectsGame` (a sticky and a pass-through power-up lying on the paddle),
through a collision pass, a timer update of one second and another collision
pass. -/
theorem C19_flags_backed_witness :
    (sampleGame.power_ups_ = [] ∧
      ((run sampleEnv [Step.collide, Step.powerUps 1, Step.collide]
          sampleGame).ball.sticky_ = true →
        ∃ q ∈ (run sampleEnv [Step.collide, Step.powerUps 1, Step.collide]
            sampleGame).power_ups_, q.activated_ = true ∧ q.type_ = "sticky")) ∧
    ((run sampleEnv [Step.collide, Step.powerUps 1, Step.collide]
        effectsGame).ball.sticky_ = true →
      ∃ q ∈ (run sampleEnv [Step.collide, Step.powerUps 1, Step.collide]
          effectsGame).power_ups_, q.activated_ = true ∧ q.type_ = "sticky") := by
  have hsteps : ∀ s ∈ [Step.collide, Step.powerUps 1, Step.collide], s.timed = true := by
    intro s hs
    simp only [List.mem_cons, List.mem_singleton, List.not_mem_nil, or_false] at hs
    rcases hs with rfl | rfl | rfl <;> rfl
  exact ⟨⟨rfl, (C19_flags_backed sampleEnv sampleGame _ rfl rfl rfl rfl hsteps).2.2.1⟩,
    (C19_flags_backed sampleEnv effectsGame _ rfl rfl rfl rfl hsteps).2.2.1⟩

/-! ### Speed and direction of the paddle bounce (C12, C17) -/

/-- The velocity after the paddle step when the ball is not stuck and is
detected as colliding: the redirected vector, normalised, times the old
length. -/
theorem paddlePhase_velocity (E : Env) (c : Circle) (r : Rect) (g : Game)
    (hstuck : g.ball.stuck_ = false) (hhit : (E.DetectCircleRect c r).hit = true) :
    (paddlePhase E c r g).ball.velocity_ =
      Vec2.scale (E.length g.ball.velocity_) (E.normalize (redirected g)) := by
  simp [paddlePhase, paddleBounce, hstuck, hhit, redirected, percentage, kBallVelocity]

theorem sqLength_pos_of_ne (v : Vec2) (h : v ≠ ⟨0, 0⟩) : 0 < v.sqLength := by
  unfold Vec2.sqLength
  by_contra hn
  have h1 : v.x * v.x + v.y * v.y = 0 :=
    le_antisymm (not_lt.mp hn) (add_nonneg (mul_self_nonneg _) (mul_self_nonneg _))
  have hx : v.x = 0 := by nlinarith [mul_self_nonneg v.x, mul_self_nonneg v.y]
  have hy : v.y = 0 := by nlinarith [mul_self_nonneg v.x, mul_self_nonneg v.y]
  apply h
  cases v
  simp only at hx hy
  rw [hx, hy]

theorem euclidLength_sq (q : ℚ) (x y : ℚ) (h : x * x + y * y = q * q) :
    euclidLength ⟨x, y⟩ = |q| := by
  unfold euclidLength
  simp only
  rw [h, Rat.sqrt_eq]

theorem euclidEnv_normalizeByLength : euclidEnv.normalizeByLength := fun _ => rfl

/-- The paddle bounce keeps the squared speed when `glm::normalize` divides by
`glm::length`, both lengths involved are exact and the redirected vector is
not zero. -/
theorem paddlePhase_sqLength (E : Env) (c : Circle) (r : Rect) (g : Game)
    (hstuck : g.ball.stuck_ = false) (hhit : (E.DetectCircleRect c r).hit = true)
    (hN : E.normalizeByLength) (hold : E.lengthExact g.ball.velocity_)
    (hred : E.lengthExact (redirected g)) (hne : redirected g ≠ ⟨0, 0⟩) :
    (paddlePhase E c r g).ball.velocity_.sqLength = g.ball.velocity_.sqLength := by
  rw [paddlePhase_velocity E c r g hstuck hhit, hN]
  have hpos := sqLength_pos_of_ne _ hne
  have hM : E.length (redirected g) ≠ 0 := by
    intro h0
    have h1 := hred.2
    rw [h0] at h1
    linarith
  rw [← hold.2]
  have h2 := hred.2
  unfold Vec2.sqLength at h2 ⊢
  simp only [Vec2.scale]
  field_simp
  nlinarith [h2]

/-- The paddle step of the embedding computes `bounceVelocity` over the
rationals, with the `glm` functions of the environment. -/
theorem paddlePhase_bounceVelocity (E : Env) (c : Circle) (r : Rect) (g : Game)
    (hstuck : g.ball.stuck_ = false) (hhit : (E.DetectCircleRect c r).hit = true) :
    (paddlePhase E c r g).ball.velocity_ =
      ⟨(bounceVelocity (fun v => E.length ⟨v.1, v.2⟩)
          (fun v => ((E.normalize ⟨v.1, v.2⟩).x, (E.normalize ⟨v.1, v.2⟩).y))
          g.ball.position_.x g.ball.radius_ g.paddle.position_.x g.paddle.size_.x
          (g.ball.velocity_.x, g.ball.velocity_.y)).1,
       (bounceVelocity (fun v => E.length ⟨v.1, v.2⟩)
          (fun v => ((E.normalize ⟨v.1, v.2⟩).x, (E.normalize ⟨v.1, v.2⟩).y))
          g.ball.position_.x g.ball.radius_ g.paddle.position_.x g.paddle.size_.x
          (g.ball.velocity_.x, g.ball.velocity_.y)).2⟩ := by
  rw [paddlePhase_velocity E c r g hstuck hhit]
  rfl

/-- In any ordered field in which `length` is the Euclidean length and
`normalize v` is `v` times the inverse of `length v`, the velocity computed by
the paddle bounce has the length of the old velocity, unless the redirected
vector is zero. -/
theorem bounceVelocity_length {K : Type} [LinearOrderedField K] (length : K × K → K)
    (normalize : K × K → K × K)
    (hlen : ∀ v : K × K, 0 ≤ length v ∧ length v * length v = v.1 * v.1 + v.2 * v.2)
    (hnorm : ∀ v : K × K, normalize v = (1 / length v * v.1, 1 / length v * v.2))
    (ball_x radius paddle_x paddle_w : K) (velocity : K × K)
    (hne : ¬ (100 * ((ball_x + radius - (paddle_x + paddle_w / 2)) / (paddle_w / 2)) * 2 = 0 ∧
      1 - |velocity.2| = 0)) :
    length (bounceVelocity length normalize ball_x radius paddle_x paddle_w velocity) =
      length velocity := by
  apply (mul_self_inj (hlen _).1 (hlen _).1).mp
  rw [(hlen _).2]
  unfold bounceVelocity
  simp only [hnorm]
  set a := 100 * ((ball_x + radius - (paddle_x + paddle_w / 2)) / (paddle_w / 2)) * 2 with ha
  set b := 1 - |velocity.2| with hb
  have hM := (hlen (a, b)).2
  simp only at hM
  have hpos : 0 < a * a + b * b := by
    by_contra hn
    have h0 : a * a + b * b = 0 :=
      le_antisymm (not_lt.mp hn) (add_nonneg (mul_self_nonneg _) (mul_self_nonneg _))
    have h1 : a = 0 := by nlinarith [mul_self_nonneg a, mul_self_nonneg b]
    have h2 : b = 0 := by nlinarith [mul_self_nonneg a, mul_self_nonneg b]
    exact hne ⟨h1, h2⟩
  have hMne : length (a, b) ≠ 0 := by
    intro h0
    rw [h0] at hM
    linarith
  field_simp
  rw [hM]
  ring

/-- The exact velocity after the paddle bounce of the state `g`, computed in
an ordered field `K` from the (rational) data of `g`, has the length of the
velocity of `g`, unless the redirected vector of `g` is zero. -/
theorem bounceVelocity_length_of_state {K : Type} [LinearOrderedField K]
    (length : K × K → K) (normalize : K × K → K × K)
    (hlen : ∀ v : K × K, 0 ≤ length v ∧ length v * length v = v.1 * v.1 + v.2 * v.2)
    (hnorm : ∀ v : K × K, normalize v = (1 / length v * v.1, 1 / length v * v.2))
    (g : Game)
    (hne : ¬ (100 * percentage g * 2 = 0 ∧ 1 - |g.ball.velocity_.y| = 0)) :
    length (bounceVelocity length normalize (g.ball.position_.x : K) (g.ball.radius_ : K)
        (g.paddle.position_.x : K) (g.paddle.size_.x : K)
        ((g.ball.velocity_.x : K), (g.ball.velocity_.y : K))) =
      length ((g.ball.velocity_.x : K), (g.ball.velocity_.y : K)) := by
  apply bounceVelocity_length length normalize hlen hnorm
  rintro ⟨h1, h2⟩
  apply hne
  constructor
  · have e : ((100 * percentage g * 2 : ℚ) : K) = 0 := by
      rw [← h1]
      unfold percentage
      push_cast
      ring
    exact_mod_cast e
  · have e : ((1 - |g.ball.velocity_.y| : ℚ) : K) = 0 := by
      rw [← h2]
      push_cast
      ring
    exact_mod_cast e

/-- C12 (counterexample): the ball falls at `(0, 1)` onto the paddle with its
centre exactly over the paddle centre.  It is not stuck; `percentage` is 0 and
`1 - |velocity.y|` is 0, so the vector handed to `glm::normalize` is zero.  In
the source that call is `0 * inversesqrt(0)`, not a number; here its value is
left open: in every environment in which the ball is detected as colliding,
the old velocity has length 1 and `normalize` of the zero vector is not a
vector of length one, the squared speed after the paddle step differs from the
squared speed before it.  `euclidEnv` is such an environment. -/
theorem C12_paddle_speed_counterexample :
    (centreHitGame 0 1).ball.stuck_ = false ∧
    (100 * percentage (centreHitGame 0 1) * 2 = 0 ∧
      1 - |(centreHitGame 0 1).ball.velocity_.y| = 0) ∧
    (∀ E : Env,
      (E.DetectCircleRect (centreHitGame 0 1).ballCircle
        (centreHitGame 0 1).paddleRect).hit = true →
      E.length ⟨0, 1⟩ = 1 → (E.normalize ⟨0, 0⟩).sqLength ≠ 1 →
      (paddlePhase E (centreHitGame 0 1).ballCircle (centreHitGame 0 1).paddleRect
        (centreHitGame 0 1)).ball.velocity_.sqLength ≠
        (centreHitGame 0 1).ball.velocity_.sqLength) ∧
    ((euclidEnv.DetectCircleRect (centreHitGame 0 1).ballCircle
        (centreHitGame 0 1).paddleRect).hit = true ∧
      euclidEnv.length ⟨0, 1⟩ = 1 ∧ (euclidEnv.normalize ⟨0, 0⟩).sqLength ≠ 1) ∧
    (paddlePhase euclidEnv (centreHitGame 0 1).ballCircle (centreHitGame 0 1).paddleRect
      (centreHitGame 0 1)).ball.velocity_.sqLength ≠
      (centreHitGame 0 1).ball.velocity_.sqLength := by
  have hred : redirected (centreHitGame 0 1) = ⟨0, 0⟩ := by
    simp only [redirected, percentage, centreHitGame, sampleGame]
    norm_num
  have hall : ∀ E : Env,
      (E.DetectCircleRect (centreHitGame 0 1).ballCircle
        (centreHitGame 0 1).paddleRect).hit = true →
      E.length ⟨0, 1⟩ = 1 → (E.normalize ⟨0, 0⟩).sqLength ≠ 1 →
      (paddlePhase E (centreHitGame 0 1).ballCircle (centreHitGame 0 1).paddleRect
        (centreHitGame 0 1)).ball.velocity_.sqLength ≠
        (centreHitGame 0 1).ball.velocity_.sqLength := by
    intro E hhit hlen hn
    rw [paddlePhase_velocity E _ _ _ rfl hhit, hred]
    have hv : (centreHitGame 0 1).ball.velocity_ = ⟨0, 1⟩ := rfl
    rw [hv, hlen]
    intro h
    apply hn
    simp only [Vec2.sqLength, Vec2.scale] at h ⊢
    linarith
  have hhit : (euclidEnv.DetectCircleRect (centreHitGame 0 1).ballCircle
      (centreHitGame 0 1).paddleRect).hit = true := by
    simp only [euclidEnv, sampleEnv, Collision.DetectCircleRect, clampQ, Game.ballCircle,
      Game.paddleRect, centreHitGame, sampleGame]
    norm_num
  have hlen : euclidEnv.length ⟨0, 1⟩ = 1 := by
    show euclidLength ⟨0, 1⟩ = 1
    rw [euclidLength_sq 1 0 1 (by norm_num)]
    norm_num
  have hn : (euclidEnv.normalize ⟨0, 0⟩).sqLength ≠ 1 := by
    simp [euclidEnv, Vec2.scale, Vec2.sqLength]
  refine ⟨rfl, ?_, hall, ⟨hhit, hlen, hn⟩, hall euclidEnv hhit hlen hn⟩
  have h1 := congrArg Vec2.x hred
  have h2 := congrArg Vec2.y hred
  exact ⟨h1, h2⟩

/-- C12 (amended): for a state in which the ball is not stuck and is detected
as colliding with the paddle, the velocity after the paddle step is
`bounceVelocity` of the ball and paddle data with the `glm` functions of the
environment; and in exact arithmetic, that is in any ordered field of scalars
in which `length` is the Euclidean length and `normalize v` is `v` times the
inverse of `length v`, the velocity so computed from the data of the state has
the same length as the velocity before the step, provided the vector
`(100 * percentage * 2, 1 - |velocity.y|)` is not zero.  In particular, in the
rational embedding itself the squared speed is the same before and after the
step whenever the environment's length is exact at the two vectors it is
applied to. -/
theorem C12_paddle_speed_amended (E : Env) (c : Circle) (r : Rect) (g : Game)
    (hstuck : g.ball.stuck_ = false) (hhit : (E.DetectCircleRect c r).hit = true) :
    (paddlePhase E c r g).ball.velocity_ =
      ⟨(bounceVelocity (fun v => E.length ⟨v.1, v.2⟩)
          (fun v => ((E.normalize ⟨v.1, v.2⟩).x, (E.normalize ⟨v.1, v.2⟩).y))
          g.ball.position_.x g.ball.radius_ g.paddle.position_.x g.paddle.size_.x
          (g.ball.velocity_.x, g.ball.velocity_.y)).1,
       (bounceVelocity (fun v => E.length ⟨v.1, v.2⟩)
          (fun v => ((E.normalize ⟨v.1, v.2⟩).x, (E.normalize ⟨v.1, v.2⟩).y))
          g.ball.position_.x g.ball.radius_ g.paddle.position_.x g.paddle.size_.x
          (g.ball.velocity_.x, g.ball.velocity_.y)).2⟩ ∧
    (¬ (100 * percentage g * 2 = 0 ∧ 1 - |g.ball.velocity_.y| = 0) →
      ∀ (K : Type) [LinearOrderedField K] (length : K × K → K) (normalize : K × K → K × K),
        (∀ v : K × K, 0 ≤ length v ∧ length v * length v = v.1 * v.1 + v.2 * v.2) →
        (∀ v : K × K, normalize v = (1 / length v * v.1, 1 / length v * v.2)) →
        length (bounceVelocity length normalize (g.ball.position_.x : K) (g.ball.radius_ : K)
            (g.paddle.position_.x : K) (g.paddle.size_.x : K)
            ((g.ball.velocity_.x : K), (g.ball.velocity_.y : K))) =
          length ((g.ball.velocity_.x : K), (g.ball.velocity_.y : K))) ∧
    (¬ (100 * percentage g * 2 = 0 ∧ 1 - |g.ball.velocity_.y| = 0) →
      E.normalizeByLength → E.lengthExact g.ball.velocity_ → E.lengthExact (redirected g) →
      (paddlePhase E c r g).ball.velocity_.sqLength = g.ball.velocity_.sqLength) :=
  ⟨paddlePhase_bounceVelocity E c r g hstuck hhit,
    fun hne _ _ length normalize hlen hnorm =>
      bounceVelocity_length_of_state length normalize hlen hnorm g hne,
    fun hne hN hold hred =>
      paddlePhase_sqLength E c r g hstuck hhit hN hold hred (by
        intro h
        apply hne
        unfold redirected at h
        exact ⟨congrArg Vec2.x h, congrArg Vec2.y h⟩)⟩

/-- Witness for C12 (amended): in `configuredHitGame` the ball has the
configured velocity `(100, -350)`, whose length is irrational, and touches the
paddle 3/4 right of the centre.  Over the reals, with the square root of the
squared length for `glm::length`, the velocity after the bounce has the length
of `(100, -350)`. -/
theorem C12_paddle_speed_amended_witness :
    Real.sqrt
        ((bounceVelocity (fun v : ℝ × ℝ => Real.sqrt (v.1 * v.1 + v.2 * v.2))
            (fun v : ℝ × ℝ => (1 / Real.sqrt (v.1 * v.1 + v.2 * v.2) * v.1,
              1 / Real.sqrt (v.1 * v.1 + v.2 * v.2) * v.2))
            (configuredHitGame.ball.position_.x : ℝ) (configuredHitGame.ball.radius_ : ℝ)
            (configuredHitGame.paddle.position_.x : ℝ) (configuredHitGame.paddle.size_.x : ℝ)
            ((configuredHitGame.ball.velocity_.x : ℝ),
              (configuredHitGame.ball.velocity_.y : ℝ))).1 *
          (bounceVelocity (fun v : ℝ × ℝ => Real.sqrt (v.1 * v.1 + v.2 * v.2))
            (fun v : ℝ × ℝ => (1 / Real.sqrt (v.1 * v.1 + v.2 * v.2) * v.1,
              1 / Real.sqrt (v.1 * v.1 + v.2 * v.2) * v.2))
            (configuredHitGame.ball.position_.x : ℝ) (configuredHitGame.ball.radius_ : ℝ)
            (configuredHitGame.paddle.position_.x : ℝ) (configuredHitGame.paddle.size_.x : ℝ)
            ((configuredHitGame.ball.velocity_.x : ℝ),
              (configuredHitGame.ball.velocity_.y : ℝ))).1 +
        (bounceVelocity (fun v : ℝ × ℝ => Real.sqrt (v.1 * v.1 + v.2 * v.2))
            (fun v : ℝ × ℝ => (1 / Real.sqrt (v.1 * v.1 + v.2 * v.2) * v.1,
              1 / Real.sqrt (v.1 * v.1 + v.2 * v.2) * v.2))
            (configuredHitGame.ball.position_.x : ℝ) (configuredHitGame.ball.radius_ : ℝ)
            (configuredHitGame.paddle.position_.x : ℝ) (configuredHitGame.paddle.size_.x : ℝ)
            ((configuredHitGame.ball.velocity_.x : ℝ),
              (configuredHitGame.ball.velocity_.y : ℝ))).2 *
          (bounceVelocity (fun v : ℝ × ℝ => Real.sqrt (v.1 * v.1 + v.2 * v.2))
            (fun v : ℝ × ℝ => (1 / Real.sqrt (v.1 * v.1 + v.2 * v.2) * v.1,
              1 / Real.sqrt (v.1 * v.1 + v.2 * v.2) * v.2))
            (configuredHitGame.ball.position_.x : ℝ) (configuredHitGame.ball.radius_ : ℝ)
            (configuredHitGame.paddle.position_.x : ℝ) (configuredHitGame.paddle.size_.x : ℝ)
            ((configuredHitGame.ball.velocity_.x : ℝ),
              (configuredHitGame.ball.velocity_.y : ℝ))).2) =
      Real.sqrt (((configuredHitGame.ball.velocity_.x : ℚ) : ℝ) *
          ((configuredHitGame.ball.velocity_.x : ℚ) : ℝ) +
        ((configuredHitGame.ball.velocity_.y : ℚ) : ℝ) *
          ((configuredHitGame.ball.velocity_.y : ℚ) : ℝ)) := by
  have hhit : (euclidEnv.DetectCircleRect configuredHitGame.ballCircle
      configuredHitGame.paddleRect).hit = true := by
    simp only [euclidEnv, sampleEnv, Collision.DetectCircleRect, clampQ, Game.ballCircle,
      Game.paddleRect, configuredHitGame, sampleGame]
    norm_num
  have hne : ¬ (100 * percentage configuredHitGame * 2 = 0 ∧
      1 - |configuredHitGame.ball.velocity_.y| = 0) := by
    rintro ⟨h1, _⟩
    simp only [percentage, configuredHitGame, sampleGame] at h1
    norm_num at h1
  exact (C12_paddle_speed_amended euclidEnv configuredHitGame.ballCircle
    configuredHitGame.paddleRect configuredHitGame rfl hhit).2.1 hne ℝ
    (fun v => Real.sqrt (v.1 * v.1 + v.2 * v.2))
    (fun v => (1 / Real.sqrt (v.1 * v.1 + v.2 * v.2) * v.1,
      1 / Real.sqrt (v.1 * v.1 + v.2 * v.2) * v.2))
    (fun v => ⟨Real.sqrt_nonneg _,
      Real.mul_self_sqrt (add_nonneg (mul_self_nonneg _) (mul_self_nonneg _))⟩)
    (fun _ => rfl)

/-- The sign facts behind the direction of the paddle bounce: a component of
`L * ((1 / M) * a)` with `L, M > 0` has the sign of `a`. -/
theorem scaled_sign (L M a : ℚ) (hL : 0 < L) (hM : 0 < M) :
    (L * (1 / M * a) < 0 ↔ a < 0) ∧ (0 < L * (1 / M * a) ↔ 0 < a) := by
  have hk : 0 < L * (1 / M) := mul_pos hL (one_div_pos.mpr hM)
  have e : L * (1 / M * a) = L * (1 / M) * a := by ring
  rw [e]
  constructor
  · constructor
    · intro h
      by_contra hn
      exact absurd h (not_lt.mpr (mul_nonneg hk.le (not_lt.mp hn)))
    · intro h
      exact mul_neg_of_pos_of_neg hk h
  · constructor
    · intro h
      by_contra hn
      exact absurd h (not_lt.mpr (mul_nonpos_of_nonneg_of_nonpos hk.le (not_lt.mp hn)))
    · intro h
      exact mul_pos hk h

/-- C17 (counterexample): the ball falls at `(0, 1/2)` onto the paddle with its
centre over the paddle centre.  The redirected vector is `(0, 1 - 1/2)`, and
the velocity after the paddle step is `(0, 1/2)`: its vertical component is
positive, the ball keeps moving down. -/
theorem C17_paddle_direction_counterexample :
    (centreHitGame 0 (1 / 2)).ball.stuck_ = false ∧
    (euclidEnv.DetectCircleRect (centreHitGame 0 (1 / 2)).ballCircle
      (centreHitGame 0 (1 / 2)).paddleRect).hit = true ∧
    (paddlePhase euclidEnv (centreHitGame 0 (1 / 2)).ballCircle
      (centreHitGame 0 (1 / 2)).paddleRect (centreHitGame 0 (1 / 2))).ball.velocity_ =
      ⟨0, 1 / 2⟩ ∧
    ¬ ((paddlePhase euclidEnv (centreHitGame 0 (1 / 2)).ballCircle
      (centreHitGame 0 (1 / 2)).paddleRect (centreHitGame 0 (1 / 2))).ball.velocity_.y < 0) := by
  have hhit : (euclidEnv.DetectCircleRect (centreHitGame 0 (1 / 2)).ballCircle
      (centreHitGame 0 (1 / 2)).paddleRect).hit = true := by
    simp only [euclidEnv, sampleEnv, Collision.DetectCircleRect, clampQ, Game.ballCircle,
      Game.paddleRect, centreHitGame, sampleGame]
    norm_num
  have hred : redirected (centreHitGame 0 (1 / 2)) = ⟨0, 1 / 2⟩ := by
    simp only [redirected, percentage, centreHitGame, sampleGame]
    rw [abs_of_pos (by norm_num : (0 : ℚ) < 1 / 2)]
    norm_num
  have hlen : euclidLength ⟨0, 1 / 2⟩ = 1 / 2 := by
    rw [euclidLength_sq (1 / 2) 0 (1 / 2) (by norm_num)]
    norm_num
  have hv : (paddlePhase euclidEnv (centreHitGame 0 (1 / 2)).ballCircle
      (centreHitGame 0 (1 / 2)).paddleRect (centreHitGame 0 (1 / 2))).ball.velocity_ =
      ⟨0, 1 / 2⟩ := by
    rw [paddlePhase_velocity euclidEnv _ _ _ rfl hhit, hred]
    show Vec2.scale (euclidLength ⟨0, 1 / 2⟩)
      (Vec2.scale (1 / euclidLength ⟨0, 1 / 2⟩) ⟨0, 1 / 2⟩) = _
    rw [hlen]
    simp only [Vec2.scale]
    norm_num
  refine ⟨rfl, hhit, hv, ?_⟩
  rw [hv]
  norm_num

/-- C17 (amended): for a ball that is not stuck and is detected as colliding
with the paddle, with `percentage = ((ball.position.x + radius) -
(paddle.position.x + paddle.size.x/2)) / (paddle.size.x/2)`, the new velocity
is the vector `(100 * percentage * 2, 1 - |old velocity.y|)` normalised and
multiplied by the old length.  When `glm::normalize(v)` is `v` times the
inverse of `glm::length(v)` and the two lengths involved are positive:
* the new `velocity.y` is negative (upward) exactly when `|old velocity.y| > 1`
  and positive (downward) exactly when `|old velocity.y| < 1`;
* the new `velocity.x` has the sign of `percentage`, which for a paddle of
  positive width is the sign of the offset of the ball centre from the paddle
  centre. -/
theorem C17_paddle_direction_amended (E : Env) (c : Circle) (r : Rect) (g : Game)
    (hstuck : g.ball.stuck_ = false) (hhit : (E.DetectCircleRect c r).hit = true) :
    (paddlePhase E c r g).ball.velocity_ =
      Vec2.scale (E.length g.ball.velocity_)
        (E.normalize ⟨100 * percentage g * 2, 1 - |g.ball.velocity_.y|⟩) ∧
    (E.normalizeByLength → 0 < E.length g.ball.velocity_ →
      0 < E.length ⟨100 * percentage g * 2, 1 - |g.ball.velocity_.y|⟩ →
      ((paddlePhase E c r g).ball.velocity_.y < 0 ↔ 1 < |g.ball.velocity_.y|) ∧
      (0 < (paddlePhase E c r g).ball.velocity_.y ↔ |g.ball.velocity_.y| < 1) ∧
      (0 < (paddlePhase E c r g).ball.velocity_.x ↔ 0 < percentage g) ∧
      ((paddlePhase E c r g).ball.velocity_.x < 0 ↔ percentage g < 0)) ∧
    (0 < g.paddle.size_.x →
      (0 < percentage g ↔
        g.paddle.position_.x + g.paddle.size_.x / 2 < g.ball.position_.x + g.ball.radius_) ∧
      (percentage g < 0 ↔
        g.ball.position_.x + g.ball.radius_ < g.paddle.position_.x + g.paddle.size_.x / 2)) := by
  have hv := paddlePhase_velocity E c r g hstuck hhit
  refine ⟨hv, fun hN hL hM => ?_, fun hw => ?_⟩
  · rw [hv, hN]
    simp only [Vec2.scale, redirected]
    have hy := scaled_sign _ _ (1 - |g.ball.velocity_.y|) hL hM
    have hx := scaled_sign _ _ (100 * percentage g * 2) hL hM
    refine ⟨?_, ?_, ?_, ?_⟩
    · rw [hy.1]; constructor <;> intro h <;> linarith
    · rw [hy.2]; constructor <;> intro h <;> linarith
    · rw [hx.2]; constructor <;> intro h <;> linarith
    · rw [hx.1]; constructor <;> intro h <;> linarith
  · have hhalf : 0 < g.paddle.size_.x / 2 := by linarith
    unfold percentage
    constructor
    · rw [div_pos_iff_of_pos_right hhalf]
      constructor <;> intro h <;> linarith
    · rw [div_neg_iff]
      constructor
      · rintro (⟨_, h2⟩ | ⟨h1, _⟩)
        · linarith
        · linarith
      · intro h
        exact Or.inr ⟨by linarith, hhalf⟩

/-- Witness for C17 (amended): in `offCentreHitGame` the ball falls at `(0, 5)`
onto the paddle 3/4 right of the centre; the new velocity is `(3, -4)`: upward
since `|5| > 1`, and to the right like the offset. -/
theorem C17_paddle_direction_amended_witness :
    (paddlePhase euclidEnv offCentreHitGame.ballCircle offCentreHitGame.paddleRect
      offCentreHitGame).ball.velocity_ = ⟨3, -4⟩ := by
  have hhit : (euclidEnv.DetectCircleRect offCentreHitGame.ballCircle
      offCentreHitGame.paddleRect).hit = true := by
    simp only [euclidEnv, sampleEnv, Collision.DetectCircleRect, clampQ, Game.ballCircle,
      Game.paddleRect, offCentreHitGame, sampleGame]
    norm_num
  have hred : (⟨100 * percentage offCentreHitGame * 2,
      1 - |offCentreHitGame.ball.velocity_.y|⟩ : Vec2) = ⟨3, -4⟩ := by
    simp only [percentage, offCentreHitGame, sampleGame]
    norm_num
  rw [(C17_paddle_direction_amended euclidEnv offCentreHitGame.ballCircle
    offCentreHitGame.paddleRect offCentreHitGame rfl hhit).1, hred]
  show Vec2.scale (euclidLength ⟨0, 5⟩) (Vec2.scale (1 / euclidLength ⟨3, -4⟩) ⟨3, -4⟩) = _
  rw [euclidLength_sq 5 0 5 (by norm_num), euclidLength_sq 5 3 (-4) (by norm_num)]
  simp only [Vec2.scale]
  norm_num

end Breakout
